import Mathlib

/-!
# LoRaWAN airtime accounting and packet ledger (`scratch/CT_dev.cc`)

A shallow embedding of the accounting core of `CT_dev.cc`, and of the packet ledgers of
`enddevice.cc`, `adr_bridge.cc` and `enddevice_NLOS_Loss.cc`.

* `double` quantities (airtime, bandwidth, frequency, simulated time) are exact rationals.
  Where the `double` format itself decides a branch it is modelled: the overflow that
  `std::isfinite` tests (`CalculateTimeOnAir.guarded`), and the rounding of each operation
  in the distances that `FindFurthestDevice` compares (`round64`, with `⊤` an infinity).
* `uint32_t` / `uint8_t` values are natural numbers; arithmetic on them that can wrap
  (`++globalPacketId`, `gwIndex + 1`, `g_ackCount[i]++`) is reduced modulo `2 ^ 32`, and
  the `int` value `12 - dr` stored in a `uint8_t` modulo `2 ^ 8`.
* `int` counters are mathematical integers: signed overflow is undefined in C++ and
  is not modelled.
* `std::vector` is a list, `std::map` an association list, `std::unordered_set` a list
  without repetition.
* The event queue of the simulator is a list of events ordered by expiry time, events of
  equal time in the order of their scheduling; `Simulator::Stop` is an event of the queue.
-/

namespace CTDev

/-! ## Airtime calculator -/

/-- The function `CalculateTimeOnAir` of `CT_dev.cc`, lines 96-128, in exact rational
arithmetic, where no value overflows: of the final guard (line 121) it has the half
`toa < 0`. The half `!std::isfinite(toa)` is in `CalculateTimeOnAir.guarded`, which
returns what this function returns wherever `toa` is finite as a `double`. -/
def CalculateTimeOnAir (payloadSize : Nat) (sf : Nat) (bandwidthHz : ℚ) (codingRate : Nat)
    (crcEnabled : Bool) (headerEnabled : Bool) (nPreamble : Nat) : ℚ :=
  let sf : Nat := if sf < 7 ∨ sf > 12 then 7 else sf
  let bandwidthHz : ℚ := if bandwidthHz ≤ 0 then 125000 else bandwidthHz
  let Ts : ℚ := ((1 <<< sf : Nat) : ℚ) / bandwidthHz
  let Tpreamble : ℚ := ((nPreamble : ℚ) + 4.25) * Ts
  let DE : Int := if sf ≥ 11 then 1 else 0
  let H : Int := if headerEnabled then 0 else 1
  let CR : Int := codingRate
  let crc : Int := if crcEnabled then 1 else 0
  let payloadSymbNb : ℚ :=
    8 + max
      (((⌈(8 * (payloadSize : ℚ) - 4 * (sf : ℚ) + 28 + ((16 * crc : Int) : ℚ) - ((20 * H : Int) : ℚ))
          / (4 * (((sf : Int) - 2 * DE : Int) : ℚ))⌉ : Int) : ℚ) * ((CR + 4 : Int) : ℚ))
      0
  let Tpayload : ℚ := payloadSymbNb * Ts
  let toa : ℚ := Tpreamble + Tpayload
  if toa < 0 then 0 else toa

/-- The largest finite `double`, `(2 - 2 ^ (-52)) * 2 ^ 1023` (`DBL_MAX`). -/
def DBL_MAX : ℚ := (2 ^ 53 - 1) * 2 ^ 971

/-- Modelled from the spec: the test `std::isfinite` of the C++ standard library, on the
`double` that holds a value computed in exact arithmetic: the computation has overflowed
to an infinity when the magnitude of the exact value exceeds the largest finite
`double`. -/
def isfinite (x : ℚ) : Bool := decide (|x| ≤ DBL_MAX)

/-! ## Packets and the process-wide state -/

/-- Modelled from the spec: the message type of a decoded LoRaWAN MAC header
(`LorawanMacHeader::MType` of the external radio library, not part of this repository). -/
inductive MType
  | JOIN_REQUEST
  | JOIN_ACCEPT
  | UNCONFIRMED_DATA_UP
  | UNCONFIRMED_DATA_DOWN
  | CONFIRMED_DATA_UP
  | CONFIRMED_DATA_DOWN
  | PROPRIETARY
  deriving DecidableEq, Repr

/-- Modelled from the spec: the radio tag of a packet (`LoraTag` of the external radio
library): the spreading factor (`uint8_t`) and the frequency (`double`) it carries. -/
structure LoraTag where
  spreadingFactor : Nat
  frequency : ℚ
  deriving DecidableEq, Repr

/-- Modelled from the spec: the packet metadata the radio layer hands to the callbacks
(`Packet` of the external simulator): its size in bytes, the `LoraTag` and
`UniquePacketIdTag` found by `PeekPacketTag` (absent when the peek fails), the message
type of its MAC header and the ACK flag of its frame header. -/
structure Packet where
  size : Nat
  loraTag : Option LoraTag
  idTag : Option Nat
  mType : MType
  ack : Bool
  deriving DecidableEq, Repr

/-- How a callback can fail: `outOfRange` is the `std::out_of_range` thrown by
`std::vector::at`, `outOfBounds` an `operator[]` access past the end of a vector. -/
inductive Fault
  | outOfRange
  | outOfBounds
  deriving DecidableEq, Repr

/-- The global variables of `CT_dev.cc` (lines 76-90 and 325). -/
structure Globals where
  g_ackCount : List Nat
  receivedPacketIds : List Nat
  totalToA_RX1 : ℚ
  totalToA_RX2 : ℚ
  hourlyToA_RX1 : List ℚ
  hourlyToA_RX2 : List ℚ
  totalEndDeviceToA : ℚ
  hourlyEndDeviceToA : List ℚ
  furthestDeviceIndex : Nat
  packetsSent : List Int
  packetsReceived : List Int
  packetSenderMap : List (Nat × Nat)
  packetsReceivedPerNode : List Int
  globalPacketId : Nat
  deriving DecidableEq, Repr

/-- The initial values of the globals, as their declarations give them. -/
def Globals.initial : Globals where
  g_ackCount := []
  receivedPacketIds := []
  totalToA_RX1 := 0
  totalToA_RX2 := 0
  hourlyToA_RX1 := []
  hourlyToA_RX2 := []
  totalEndDeviceToA := 0
  hourlyEndDeviceToA := []
  furthestDeviceIndex := 0
  packetsSent := List.replicate 6 0
  packetsReceived := List.replicate 6 0
  packetSenderMap := []
  packetsReceivedPerNode := []
  globalPacketId := 0

/-- Total simulation time in hours (`SIM_END_HOURS`, line 62). -/
def SIM_END_HOURS : Nat := 24

/-- The wrap-around bound of `uint32_t` arithmetic. -/
def UINT32_MOD : Nat := 2 ^ 32

/-! ## Containers -/

/-- The operation `std::vector::resize(n, x)`: truncate to `n` elements or pad with copies of `x`. -/
def vectorResize {α : Type} (v : List α) (n : Nat) (x : α) : List α :=
  if n ≤ v.length then v.take n else v ++ List.replicate (n - v.length) x

/-- The statement `v.at(idx)++` on a `std::vector<int>`: throws when `idx` is not a valid index. -/
def vectorAtIncr (v : List Int) (idx : Nat) : Except Fault (List Int) :=
  if h : idx < v.length then .ok (v.set idx (v[idx] + 1)) else .error .outOfRange

/-- The lookup `std::map::find`: the value stored under key `k`, if any. -/
def mapFind : List (Nat × Nat) → Nat → Option Nat
  | [], _ => none
  | (k', v') :: m, k => if k' = k then some v' else mapFind m k

/-- The assignment `m[k] = v` on a `std::map`: overwrite the value under `k`, or add the key in key
order. -/
def mapAssign : List (Nat × Nat) → Nat → Nat → List (Nat × Nat)
  | [], k, v => [(k, v)]
  | (k', v') :: m, k, v =>
    if k < k' then (k, v) :: (k', v') :: m
    else if k = k' then (k, v) :: m
    else (k', v') :: mapAssign m k v

/-- The operation `std::unordered_set::insert`: add `x` unless it is already an element. -/
def setInsert (s : List Nat) (x : Nat) : List Nat :=
  if x ∈ s then s else x :: s

/-! ## Acknowledgment tracing and gateway airtime -/

/-- The callback `OnGatewayAck` (lines 154-161): count one acknowledgment for gateway `gwIndex`.
`gwIndex + 1` is `uint32_t` arithmetic, and so is the increment of the counter. -/
def OnGatewayAck (gwIndex : Nat) (_p : Packet) (g : Globals) : Except Fault Globals :=
  let acks : List Nat :=
    if gwIndex ≥ g.g_ackCount.length then
      vectorResize g.g_ackCount ((gwIndex + 1) % UINT32_MOD) 0
    else g.g_ackCount
  if h : gwIndex < acks.length then
    .ok { g with g_ackCount := acks.set gwIndex ((acks[gwIndex] + 1) % UINT32_MOD) }
  else .error .outOfBounds

/-- The callback `OnGatewayPhyStartSending` (lines 167-216): detect a downlink acknowledgment, then
add the airtime of the transmission to the RX2 or the RX1 total. The spreading factor
written back to copies of the packet (lines 195-197, 202-204) changes no global. -/
def OnGatewayPhyStartSending (gwIndex : Nat) (packet : Packet) (_phyIndex : Nat)
    (g : Globals) : Except Fault Globals := do
  let g1 : Globals ←
    if packet.mType = MType.UNCONFIRMED_DATA_DOWN ∨ packet.mType = MType.CONFIRMED_DATA_DOWN then
      if packet.ack then
        let acks : List Nat :=
          if gwIndex ≥ g.g_ackCount.length then
            vectorResize g.g_ackCount ((gwIndex + 1) % UINT32_MOD) 0
          else g.g_ackCount
        if h : gwIndex < acks.length then
          pure { g with g_ackCount := acks.set gwIndex ((acks[gwIndex] + 1) % UINT32_MOD) }
        else throw Fault.outOfBounds
      else pure g
    else pure g
  let frequency : ℚ :=
    match packet.loraTag with
    | some tag => tag.frequency
    | none => 0
  let sf : Nat :=
    match packet.loraTag with
    | some tag =>
      if tag.spreadingFactor < 7 ∨ tag.spreadingFactor > 12 then 7 else tag.spreadingFactor
    | none => 7
  let size : Nat := packet.size
  let toa : ℚ := CalculateTimeOnAir size sf 125000 1 true true 8
  if frequency = 869525000 then
    pure { g1 with totalToA_RX2 := g1.totalToA_RX2 + toa }
  else
    pure { g1 with totalToA_RX1 := g1.totalToA_RX1 + toa }

/-! ## End-device airtime -/

/-- The callback `OnEndDevicePhyStartSending` (lines 218-239): airtime of the furthest device. -/
def OnEndDevicePhyStartSending (deviceIndex : Nat) (packet : Packet) (dr : Nat)
    (g : Globals) : Globals :=
  if deviceIndex ≠ g.furthestDeviceIndex then g
  else
    let sf : Nat :=
      match packet.loraTag with
      | some tag =>
        if tag.spreadingFactor < 7 ∨ tag.spreadingFactor > 12 then 7 else tag.spreadingFactor
      | none => if dr ≤ 5 then 12 - dr else 7
    let size : Nat := packet.size
    let toa : ℚ := CalculateTimeOnAir size sf 125000 1 true true 8
    { g with totalEndDeviceToA := g.totalEndDeviceToA + toa }

/-- The callback `OnEndDeviceSentNewPacket` (lines 241-252); `dr` is `mac->GetDataRate()`. -/
def OnEndDeviceSentNewPacket (deviceIndex : Nat) (dr : Nat) (packet : Packet)
    (g : Globals) : Globals :=
  if deviceIndex = g.furthestDeviceIndex then
    OnEndDevicePhyStartSending deviceIndex packet dr g
  else g

/-! ## Duty-cycle checks -/

/-- What one run of `CheckGatewayDutyCycle` reports: the hour number and airtime it
logs for each band, which of the compliant / non-compliant lines it logs, and the
delay of the next run it schedules, if it schedules one. -/
structure GatewayReport where
  hourRX1 : Nat
  measuredRX1 : ℚ
  compliantRX1 : Bool
  hourRX2 : Nat
  measuredRX2 : ℚ
  compliantRX2 : Bool
  next : Option ℚ
  deriving DecidableEq, Repr

/-- What one run of `CheckEndDeviceDutyCycle` reports. -/
structure EndDeviceReport where
  hour : Nat
  measured : ℚ
  compliant : Bool
  next : Option ℚ
  deriving DecidableEq, Repr

/-- The timer callback `CheckGatewayDutyCycle` (lines 257-279); `now` is `Simulator::Now().GetSeconds()`. -/
def CheckGatewayDutyCycle (now : ℚ) (g : Globals) : Globals × GatewayReport :=
  let maxToA_RX1 : ℚ := 36
  let maxToA_RX2 : ℚ := 360
  let hourlyToA_RX1 := g.hourlyToA_RX1 ++ [g.totalToA_RX1]
  let hourlyToA_RX2 := g.hourlyToA_RX2 ++ [g.totalToA_RX2]
  let report : GatewayReport :=
    { hourRX1 := hourlyToA_RX1.length
      measuredRX1 := g.totalToA_RX1
      compliantRX1 := if g.totalToA_RX1 ≤ maxToA_RX1 then true else false
      hourRX2 := hourlyToA_RX2.length
      measuredRX2 := g.totalToA_RX2
      compliantRX2 := if g.totalToA_RX2 ≤ maxToA_RX2 then true else false
      next := if now < (SIM_END_HOURS : ℚ) * 3600 then some 3600 else none }
  ({ g with
      hourlyToA_RX1 := hourlyToA_RX1
      hourlyToA_RX2 := hourlyToA_RX2
      totalToA_RX1 := 0
      totalToA_RX2 := 0 }, report)

/-- The timer callback `CheckEndDeviceDutyCycle` (lines 281-294). -/
def CheckEndDeviceDutyCycle (now : ℚ) (g : Globals) : Globals × EndDeviceReport :=
  let maxToA : ℚ := 36
  let hourlyEndDeviceToA := g.hourlyEndDeviceToA ++ [g.totalEndDeviceToA]
  let report : EndDeviceReport :=
    { hour := hourlyEndDeviceToA.length
      measured := g.totalEndDeviceToA
      compliant := if g.totalEndDeviceToA ≤ maxToA then true else false
      next := if now < (SIM_END_HOURS : ℚ) * 3600 then some 3600 else none }
  ({ g with hourlyEndDeviceToA := hourlyEndDeviceToA, totalEndDeviceToA := 0 }, report)

/-! ## Packet identifiers -/

/-- Uplinks are confirmed (`USE_CONFIRMED_UPLINK`, line 69). -/
def USE_CONFIRMED_UPLINK : Bool := true

/-- The method `TaggingPeriodicSender::SendPacket` (lines 363-398). `mac` is the data rate of the
device's `EndDeviceLorawanMac`, or `none` when one of the two `DynamicCast`s fails.
Returns the packet as built and whether it was handed to `Send`; the one-byte MAC
header is part of its size. The sender's own send count and timer are left out. -/
def SendPacket (m_packetSize : Nat) (mac : Option Nat) (g : Globals) :
    Globals × Packet × Bool :=
  let globalPacketId : Nat := (g.globalPacketId + 1) % UINT32_MOD
  let g1 : Globals := { g with globalPacketId := globalPacketId }
  let packet : Packet :=
    { size := m_packetSize + 1
      loraTag := none
      idTag := some globalPacketId
      mType := if USE_CONFIRMED_UPLINK then MType.CONFIRMED_DATA_UP
               else MType.UNCONFIRMED_DATA_UP
      ack := false }
  match mac with
  | none => (g1, packet, false)
  | some dr =>
    let sf : Nat := if dr ≤ 5 then 12 - dr else 7
    (g1, { packet with loraTag := some { spreadingFactor := sf, frequency := 0 } }, true)

/-! ## Packet ledger -/

/-- The callback `OnTransmissionCallback` (lines 411-423). -/
def OnTransmissionCallback (deviceIndex : Nat) (packet : Packet) (_phyIndex : Nat)
    (g : Globals) : Except Fault Globals := do
  let g1 : Globals ←
    match packet.loraTag with
    | some tag =>
      let idx : Int := (tag.spreadingFactor : Int) - 7
      if idx ≥ 0 ∧ idx < 6 then do
        let v ← vectorAtIncr g.packetsSent idx.toNat
        pure { g with packetsSent := v }
      else pure g
    | none => pure g
  match packet.idTag with
  | some id => pure { g1 with packetSenderMap := mapAssign g1.packetSenderMap id deviceIndex }
  | none => pure g1

/-- The callback `OnPacketReceptionCallback` (lines 425-451). -/
def OnPacketReceptionCallback (packet : Packet) (_phyIndex : Nat)
    (g : Globals) : Except Fault Globals := do
  let g1 : Globals ←
    match packet.loraTag with
    | some tag =>
      let idx : Int := (tag.spreadingFactor : Int) - 7
      if idx ≥ 0 ∧ idx < 6 then do
        let v ← vectorAtIncr g.packetsReceived idx.toNat
        pure { g with packetsReceived := v }
      else pure g
    | none => pure g
  match packet.idTag with
  | some packetId =>
    if packetId ∈ g1.receivedPacketIds then pure g1
    else
      let g2 : Globals := { g1 with receivedPacketIds := setInsert g1.receivedPacketIds packetId }
      match mapFind g2.packetSenderMap packetId with
      | some senderId =>
        if h : senderId < g2.packetsReceivedPerNode.length then
          pure { g2 with
            packetsReceivedPerNode :=
              g2.packetsReceivedPerNode.set senderId (g2.packetsReceivedPerNode[senderId] + 1) }
        else pure g2
      | none => pure g2
  | none => pure g1

/-! ## Event delivery -/

/-- The events the simulator delivers to the accounting core, one per trace source or
timer that `main` connects (lines 572, 584, 707, 711, 730, 731). -/
inductive Event
  | transmission (deviceIndex : Nat) (packet : Packet) (phyIndex : Nat)
  | reception (packet : Packet) (phyIndex : Nat)
  | gatewaySend (gwIndex : Nat) (packet : Packet) (phyIndex : Nat)
  | endDeviceSend (deviceIndex : Nat) (dr : Nat) (packet : Packet)
  | gatewayCheck (now : ℚ)
  | endDeviceCheck (now : ℚ)
  deriving DecidableEq, Repr

/-- Deliver one event to the callback connected to it. -/
def step (g : Globals) : Event → Except Fault Globals
  | .transmission deviceIndex packet phyIndex =>
    OnTransmissionCallback deviceIndex packet phyIndex g
  | .reception packet phyIndex => OnPacketReceptionCallback packet phyIndex g
  | .gatewaySend gwIndex packet phyIndex => OnGatewayPhyStartSending gwIndex packet phyIndex g
  | .endDeviceSend deviceIndex dr packet => pure (OnEndDeviceSentNewPacket deviceIndex dr packet g)
  | .gatewayCheck now => pure (CheckGatewayDutyCycle now g).1
  | .endDeviceCheck now => pure (CheckEndDeviceDutyCycle now g).1

/-- Deliver a sequence of events in order; the first failure ends the run. -/
def run (g : Globals) (events : List Event) : Except Fault Globals :=
  events.foldlM step g

/-- An uplink at SF7 carrying the packet id `id`, as the periodic sender builds it for a
device at data rate 5 with a 24-byte payload. -/
def sf7Uplink (id : Nat) : Packet :=
  { size := 25
    loraTag := some { spreadingFactor := 7, frequency := 0 }
    idTag := some id
    mType := MType.CONFIRMED_DATA_UP
    ack := false }

/-- The ledger scenario of the specification: three devices (so three per-node
counters, as `main` sizes them on line 545) transmit five SF7 packets each, ids 1..15;
ids 1..10 are then received once each, and id 5 is received two more times. -/
def ledgerScenario : Except Fault Globals :=
  run { Globals.initial with packetsReceivedPerNode := vectorResize [] 3 0 }
    ((List.range 15).map (fun i => Event.transmission (i / 5) (sf7Uplink (i + 1)) 0)
      ++ (List.range 10).map (fun i => Event.reception (sf7Uplink (i + 1)) 0)
      ++ [Event.reception (sf7Uplink 5) 0, Event.reception (sf7Uplink 5) 0])

/-- Whether an event is a gateway duty-cycle check. -/
def Event.isGatewayCheck : Event → Bool
  | .gatewayCheck _ => true
  | _ => false

/-- Whether an event is an end-device duty-cycle check. -/
def Event.isEndDeviceCheck : Event → Bool
  | .endDeviceCheck _ => true
  | _ => false

/-- The gateway index of a gateway transmission is below the largest `uint32_t`, so that
`gwIndex + 1` does not wrap; other events carry no such index. -/
def Event.indexFits : Event → Prop
  | .gatewaySend gwIndex _ _ => gwIndex + 1 < UINT32_MOD
  | _ => True

/-- The packets built by consecutive runs of `SendPacket`, one run per entry of `calls`
(the payload size and the MAC of the sender that runs), in issue order. -/
def sendAll : List (Nat × Option Nat) → Globals → List Packet
  | [], _ => []
  | (m_packetSize, mac) :: calls, g =>
    (SendPacket m_packetSize mac g).2.1 :: sendAll calls (SendPacket m_packetSize mac g).1

/-- The packet ids carried by the packets of `sendAll`, in issue order. -/
def issuedIds (calls : List (Nat × Option Nat)) (g : Globals) : List Nat :=
  (sendAll calls g).filterMap (fun packet => packet.idTag)

/-! ## Sample downlinks -/

/-- A confirmed downlink at SF9 on the RX2 frequency that carries an acknowledgment. -/
def rx2AckDownlink : Packet :=
  { size := 30
    loraTag := some { spreadingFactor := 9, frequency := 869525000 }
    idTag := none
    mType := MType.CONFIRMED_DATA_DOWN
    ack := true }

/-- A confirmed downlink without a radio tag that carries an acknowledgment. -/
def untaggedAckDownlink : Packet :=
  { size := 30
    loraTag := none
    idTag := none
    mType := MType.CONFIRMED_DATA_DOWN
    ack := true }

/-- An unconfirmed downlink that carries an acknowledgment. -/
def unconfirmedAckDownlink : Packet :=
  { size := 13
    loraTag := none
    idTag := none
    mType := MType.UNCONFIRMED_DATA_DOWN
    ack := true }

/-- A confirmed downlink whose ACK flag is clear. -/
def plainDownlink : Packet :=
  { size := 17
    loraTag := none
    idTag := none
    mType := MType.CONFIRMED_DATA_DOWN
    ack := false }

/-- A join-accept frame; the flag read as ACK is set. -/
def joinAccept : Packet :=
  { size := 17
    loraTag := none
    idTag := none
    mType := MType.JOIN_ACCEPT
    ack := true }

/-! ## Furthest device -/

/-- Modelled from the spec: a 3D point (`Vector` of the external simulator), the position
of a device or of the gateway; the coordinates are the values of its three `double`s. -/
structure Vector where
  x : ℚ
  y : ℚ
  z : ℚ
  deriving DecidableEq, Repr

/-- Modelled from the spec: rounding to the nearest `double`, ties to even (IEEE 754
binary64): the `double` that an arithmetic operation with the exact result `x` returns.
`e` is the binary exponent of `x`, held at -1022 in the subnormal range, and `ulp` the
spacing of the `double`s there; `⊤` is an infinity, returned when the rounded magnitude
exceeds the largest finite `double`. -/
def round64 (x : ℚ) : WithTop ℚ :=
  if x = 0 then ((0 : ℚ) : WithTop ℚ)
  else
    let e : Int := max (Int.log 2 |x|) (-1022)
    let ulp : ℚ := 2 ^ (e - 52)
    let n : ℚ := x / ulp
    let f : Int := ⌊n⌋
    let r : Int :=
      if n - f < 1 / 2 then f
      else if 1 / 2 < n - f then f + 1
      else if f % 2 = 0 then f else f + 1
    let y : ℚ := r * ulp
    if |y| ≤ DBL_MAX then ((y : ℚ) : WithTop ℚ) else ⊤

/-- The `double` difference `a - b` of two finite `double`s; `⊤` is an infinity of either
sign. -/
def sub64 (a b : ℚ) : WithTop ℚ := round64 (a - b)

/-- Modelled from the spec: `std::pow(a, 2)` of the C++ standard library, the correctly
rounded square; the square of an infinity is `+infinity`. -/
def pow2 (a : WithTop ℚ) : WithTop ℚ :=
  match a with
  | none => ⊤
  | some x => round64 (x * x)

/-- The `double` sum `a + b` of two non-negative `double`s. -/
def add64 (a b : WithTop ℚ) : WithTop ℚ :=
  match a, b with
  | some x, some y => round64 (x + y)
  | _, _ => ⊤

/-- Modelled from the spec: `std::sqrt` of the C++ standard library, the correctly rounded
square root (IEEE 754 binary64). `h` is the binary exponent of the root and `m` the
integer part of the root in units of `ulp`; the comparison of `(2 * m + 1) ^ 2` with
`4 * s` decides whether the root lies above `m + 1/2`. The argument is a sum of squares:
a negative one, whose root would be a NaN, does not arise. -/
def sqrt64 (a : WithTop ℚ) : WithTop ℚ :=
  match a with
  | none => ⊤
  | some x =>
    if x ≤ 0 then ((0 : ℚ) : WithTop ℚ)
    else
      let h : Int := ⌊((Int.log 2 x : Int) : ℚ) / 2⌋
      let ulp : ℚ := 2 ^ (h - 52)
      let s : ℚ := x / (ulp * ulp)
      let m : Nat := Nat.sqrt ⌊s⌋₊
      let r : Nat :=
        if ((2 * m + 1 : Nat) : ℚ) ^ 2 < 4 * s then m + 1
        else if 4 * s < ((2 * m + 1 : Nat) : ℚ) ^ 2 then m
        else if m % 2 = 0 then m else m + 1
      (((r : ℚ) * ulp : ℚ) : WithTop ℚ)

/-- The distance of lines 140-142, as the `double` operations compute it: each
coordinate difference, each square, each sum and the root are rounded. -/
def distanceTo (devicePos gatewayPos : Vector) : WithTop ℚ :=
  sqrt64
    (add64
      (add64 (pow2 (sub64 devicePos.x gatewayPos.x)) (pow2 (sub64 devicePos.y gatewayPos.y)))
      (pow2 (sub64 devicePos.z gatewayPos.z)))

/-- The loop of `FindFurthestDevice` (lines 136-147) from index `i` on, over the devices
not yet visited; it returns the final `maxDistance` and `furthestDeviceIndex`. -/
def FindFurthestDevice.loop (gatewayPos : Vector) :
    List Vector → Nat → WithTop ℚ → Nat → WithTop ℚ × Nat
  | [], _, maxDistance, furthestDeviceIndex => (maxDistance, furthestDeviceIndex)
  | devicePos :: rest, i, maxDistance, furthestDeviceIndex =>
    let distance : WithTop ℚ := distanceTo devicePos gatewayPos
    if distance > maxDistance then
      FindFurthestDevice.loop gatewayPos rest (i + 1) distance i
    else
      FindFurthestDevice.loop gatewayPos rest (i + 1) maxDistance furthestDeviceIndex

/-- The function `FindFurthestDevice` (lines 130-149); `endDevices` are the positions of the
end devices in container order and `gatewayPos` is the position of gateway 0. -/
def FindFurthestDevice (endDevices : List Vector) (gatewayPos : Vector) (g : Globals) :
    Globals :=
  let maxDistance : WithTop ℚ := ((0 : ℚ) : WithTop ℚ)
  { g with
    furthestDeviceIndex :=
      (FindFurthestDevice.loop gatewayPos endDevices 0 maxDistance g.furthestDeviceIndex).2 }

namespace Simulator

/-- What an event of the queue runs: one of the two checks, which `main` and the checks
themselves hand to `Simulator::Schedule` (lines 277, 292, 730, 731), or the stop event of
`Simulator::Stop` (line 733). -/
inductive Action
  | CheckGatewayDutyCycle
  | CheckEndDeviceDutyCycle
  | Stop
  deriving DecidableEq, Repr

/-- Modelled from the spec: an event in the queue of the external simulator: the simulated
time at which it expires, and what it runs then. -/
structure Entry where
  time : ℚ
  action : Action
  deriving DecidableEq, Repr

/-- Modelled from the spec: `Simulator::Schedule` of the external simulator, with the
expiry time `time` of the new event (the current time plus the delay). The queue is
ordered by expiry time, and events of equal time run in the order in which they were
scheduled: the new event goes behind every event of the same or of an earlier time.
`Simulator::Stop(delay)` schedules the stop event in the same way. -/
def Schedule (queue : List Entry) (time : ℚ) (action : Action) : List Entry :=
  match queue with
  | [] => [{ time := time, action := action }]
  | entry :: rest =>
    if time < entry.time then { time := time, action := action } :: entry :: rest
    else entry :: Schedule rest time action

/-- Modelled from the spec: `Simulator::Run` of the external simulator. The events run in
queue order, each at its expiry time. A check runs its function (lines 257-279 and
281-294) and, when that function calls `Simulator::Schedule`, its successor joins the
queue `delay` seconds after the current time. The stop event makes `Run` return, with the
events behind it still in the queue; `Run` also returns when the queue is empty. At most
`fuel` events run. The result holds the checks that ran, in order, the state after them,
the events left in the queue, and whether `Run` has returned. -/
def Run : Nat → List Entry → Globals → List Entry × Globals × List Entry × Bool
  | 0, queue, g => ([], g, queue, false)
  | _ + 1, [], g => ([], g, [], true)
  | fuel + 1, entry :: queue, g =>
    match entry.action with
    | .Stop => ([], g, queue, true)
    | .CheckGatewayDutyCycle =>
      let queue' : List Entry :=
        match (CheckGatewayDutyCycle entry.time g).2.next with
        | some delay => Schedule queue (entry.time + delay) .CheckGatewayDutyCycle
        | none => queue
      let rest := Run fuel queue' (CheckGatewayDutyCycle entry.time g).1
      (entry :: rest.1, rest.2.1, rest.2.2.1, rest.2.2.2)
    | .CheckEndDeviceDutyCycle =>
      let queue' : List Entry :=
        match (CheckEndDeviceDutyCycle entry.time g).2.next with
        | some delay => Schedule queue (entry.time + delay) .CheckEndDeviceDutyCycle
        | none => queue
      let rest := Run fuel queue' (CheckEndDeviceDutyCycle entry.time g).1
      (entry :: rest.1, rest.2.1, rest.2.2.1, rest.2.2.2)

end Simulator

/-- The checks and the stop event in the queue when `main` calls `Simulator::Run`
(lines 730-734): at time 0 `main` schedules both checks 3600 s ahead and then calls
`Simulator::Stop(Hours(SIM_END_HOURS))`. The other events of the scenario, the packet
transmissions, neither schedule nor cancel a check and are left out. -/
def mainQueue : List Simulator.Entry :=
  Simulator.Schedule
    (Simulator.Schedule (Simulator.Schedule [] 3600 .CheckGatewayDutyCycle) 3600
      .CheckEndDeviceDutyCycle)
    ((SIM_END_HOURS : ℚ) * 3600) .Stop

/-! ## Ledger events -/

/-- Whether an event is one of the two ledger events, a transmission or a reception. -/
def Event.isLedger : Event → Bool
  | .transmission _ _ _ => true
  | .reception _ _ => true
  | _ => false

/-! ## The ledgers of the other scenario files -/

/-- The wrap-around bound of `size_t`, the index type of `std::vector::at`. -/
def SIZE_MOD : Nat := 2 ^ 64

/-- The statement `v.at(idx)++` with an `int` index: the index is converted to `size_t`
before the bounds check, so a negative index is out of range as well. -/
def vectorAtIntIncr (v : List Int) (idx : Int) : Except Fault (List Int) :=
  vectorAtIncr v (idx % (SIZE_MOD : Int)).toNat

namespace EndDevice

/-- The global variables of `enddevice.cc` (lines 70 and 131-134); `adr_bridge.cc`
declares the same ones (lines 82 and 153-156). -/
structure Globals where
  globalPacketId : Nat
  packetsSent : List Int
  packetsReceived : List Int
  packetSenderMap : List (Nat × Nat)
  packetsReceivedPerNode : List Int
  deriving DecidableEq, Repr

/-- The initial values of the globals of `enddevice.cc`. -/
def Globals.initial : Globals where
  globalPacketId := 0
  packetsSent := List.replicate 6 0
  packetsReceived := List.replicate 6 0
  packetSenderMap := []
  packetsReceivedPerNode := []

/-- The callback `OnTransmissionCallback` of `enddevice.cc` (lines 139-148); the one of
`adr_bridge.cc` (lines 161-170) has the same text. -/
def OnTransmissionCallback (packet : Packet) (senderNodeId : Nat) (g : Globals) :
    Except Fault Globals := do
  let g1 : Globals ←
    match packet.loraTag with
    | some tag => do
      let v ← vectorAtIntIncr g.packetsSent ((tag.spreadingFactor : Int) - 7)
      pure { g with packetsSent := v }
    | none => pure g
  match packet.idTag with
  | some id => pure { g1 with packetSenderMap := mapAssign g1.packetSenderMap id senderNodeId }
  | none => pure g1

/-- The callback `OnPacketReceptionCallback` of `enddevice.cc` (lines 150-166); the one of
`adr_bridge.cc` (lines 173-189) has the same text. -/
def OnPacketReceptionCallback (packet : Packet) (_receiverNodeId : Nat) (g : Globals) :
    Except Fault Globals := do
  let g1 : Globals ←
    match packet.loraTag with
    | some tag => do
      let v ← vectorAtIntIncr g.packetsReceived ((tag.spreadingFactor : Int) - 7)
      pure { g with packetsReceived := v }
    | none => pure g
  match packet.idTag with
  | some packetId =>
    match mapFind g1.packetSenderMap packetId with
    | some senderId =>
      if h : senderId < g1.packetsReceivedPerNode.length then
        pure { g1 with
          packetsReceivedPerNode :=
            g1.packetsReceivedPerNode.set senderId (g1.packetsReceivedPerNode[senderId] + 1) }
      else pure g1
    | none => pure g1
  | none => pure g1

end EndDevice

namespace EndDeviceNLOS

/-- The global variables of `enddevice_NLOS_Loss.cc` (lines 37-41); the sender map is
keyed by the address of the packet. -/
structure Globals where
  packetsSent : List Int
  packetsReceived : List Int
  packetSenderMap : List (Nat × Nat)
  packetsReceivedPerNode : List Int
  deriving DecidableEq, Repr

/-- The initial values of the globals of `enddevice_NLOS_Loss.cc`. -/
def Globals.initial : Globals where
  packetsSent := List.replicate 6 0
  packetsReceived := List.replicate 6 0
  packetSenderMap := []
  packetsReceivedPerNode := []

/-- The callback `OnTransmissionCallback` of `enddevice_NLOS_Loss.cc` (lines 44-52).
`address` is the value of the `Ptr` to the packet; the result of `PeekPacketTag` is not
tested, so a packet without a tag is counted under `defaultTag`, the value of a
default-constructed `LoraTag`. -/
def OnTransmissionCallback (defaultTag : LoraTag) (address : Nat) (packet : Packet)
    (senderNodeId : Nat) (g : Globals) : Except Fault Globals := do
  let tag : LoraTag :=
    match packet.loraTag with
    | some tag => tag
    | none => defaultTag
  let v ← vectorAtIntIncr g.packetsSent ((tag.spreadingFactor : Int) - 7)
  pure { g with
    packetsSent := v
    packetSenderMap := mapAssign g.packetSenderMap address senderNodeId }

/-- The callback `OnPacketReceptionCallback` of `enddevice_NLOS_Loss.cc` (lines 54-69). -/
def OnPacketReceptionCallback (defaultTag : LoraTag) (address : Nat) (packet : Packet)
    (_receiverNodeId : Nat) (g : Globals) : Except Fault Globals := do
  let tag : LoraTag :=
    match packet.loraTag with
    | some tag => tag
    | none => defaultTag
  let v ← vectorAtIntIncr g.packetsReceived ((tag.spreadingFactor : Int) - 7)
  let g1 : Globals := { g with packetsReceived := v }
  match mapFind g1.packetSenderMap address with
  | some senderId =>
    if h : senderId < g1.packetsReceivedPerNode.length then
      pure { g1 with
        packetsReceivedPerNode :=
          g1.packetsReceivedPerNode.set senderId (g1.packetsReceivedPerNode[senderId] + 1) }
    else pure g1
  | none => pure g1

end EndDeviceNLOS

/-- An uplink tagged with the spreading factor `sf` and carrying the packet id 1. -/
def taggedUplink (sf : Nat) : Packet :=
  { size := 25
    loraTag := some { spreadingFactor := sf, frequency := 0 }
    idTag := some 1
    mType := MType.CONFIRMED_DATA_UP
    ack := false }

/-! ## Events by kind, and the airtime they carry -/

/-- Whether an event is a gateway transmission, the only event that adds airtime to the
RX1 or the RX2 total. -/
def Event.isGatewaySend : Event → Bool
  | .gatewaySend _ _ _ => true
  | _ => false

/-- Whether an event is an end-device transmission, the only event that adds airtime to
the end-device total. -/
def Event.isEndDeviceSend : Event → Bool
  | .endDeviceSend _ _ _ => true
  | _ => false

/-- The local `toa` of `OnGatewayPhyStartSending` (lines 188-206): the airtime of the
downlink `packet`. -/
def gatewayToA (packet : Packet) : ℚ :=
  let sf : Nat :=
    match packet.loraTag with
    | some tag =>
      if tag.spreadingFactor < 7 ∨ tag.spreadingFactor > 12 then 7 else tag.spreadingFactor
    | none => 7
  CalculateTimeOnAir packet.size sf 125000 1 true true 8

/-- The local `toa` of `OnEndDevicePhyStartSending` (lines 223-236): the airtime of the
uplink `packet` of a device at data rate `dr`. -/
def endDeviceToA (packet : Packet) (dr : Nat) : ℚ :=
  let sf : Nat :=
    match packet.loraTag with
    | some tag =>
      if tag.spreadingFactor < 7 ∨ tag.spreadingFactor > 12 then 7 else tag.spreadingFactor
    | none => if dr ≤ 5 then 12 - dr else 7
  CalculateTimeOnAir packet.size sf 125000 1 true true 8

/-- The airtime an event hands to the RX1 window: that of a gateway transmission whose
tag frequency is not the RX2 frequency (lines 207-215). -/
def Event.airtimeRX1 : Event → ℚ
  | .gatewaySend _ packet _ =>
    match packet.loraTag with
    | some tag => if tag.frequency = 869525000 then 0 else gatewayToA packet
    | none => gatewayToA packet
  | _ => 0

/-- The airtime an event hands to the RX2 window: that of a gateway transmission on the
RX2 frequency. -/
def Event.airtimeRX2 : Event → ℚ
  | .gatewaySend _ packet _ =>
    match packet.loraTag with
    | some tag => if tag.frequency = 869525000 then gatewayToA packet else 0
    | none => 0
  | _ => 0

/-- The airtime an event hands to the end-device window when `furthest` is the tracked
device: that of a transmission of that device (lines 219-221 and 249-251). -/
def Event.airtimeEndDevice (furthest : Nat) : Event → ℚ
  | .endDeviceSend deviceIndex dr packet =>
    if deviceIndex = furthest then endDeviceToA packet dr else 0
  | _ => 0

/-! ## Airtime calculator: intermediate values -/

/-- The symbol duration `Ts` of `CalculateTimeOnAir` (line 110), computed from the
spreading factor and the bandwidth as lines 97-107 have validated them. -/
def CalculateTimeOnAir.Ts (sf : Nat) (bandwidthHz : ℚ) : ℚ :=
  let sf : Nat := if sf < 7 ∨ sf > 12 then 7 else sf
  let bandwidthHz : ℚ := if bandwidthHz ≤ 0 then 125000 else bandwidthHz
  ((1 <<< sf : Nat) : ℚ) / bandwidthHz

/-- The local `toa` of `CalculateTimeOnAir` (line 120), before the guard of line 121
inspects it. -/
def CalculateTimeOnAir.toa (payloadSize : Nat) (sf : Nat) (bandwidthHz : ℚ) (codingRate : Nat)
    (crcEnabled : Bool) (headerEnabled : Bool) (nPreamble : Nat) : ℚ :=
  let sf : Nat := if sf < 7 ∨ sf > 12 then 7 else sf
  let bandwidthHz : ℚ := if bandwidthHz ≤ 0 then 125000 else bandwidthHz
  let Ts : ℚ := ((1 <<< sf : Nat) : ℚ) / bandwidthHz
  let Tpreamble : ℚ := ((nPreamble : ℚ) + 4.25) * Ts
  let DE : Int := if sf ≥ 11 then 1 else 0
  let H : Int := if headerEnabled then 0 else 1
  let CR : Int := codingRate
  let crc : Int := if crcEnabled then 1 else 0
  let payloadSymbNb : ℚ :=
    8 + max
      (((⌈(8 * (payloadSize : ℚ) - 4 * (sf : ℚ) + 28 + ((16 * crc : Int) : ℚ) - ((20 * H : Int) : ℚ))
          / (4 * (((sf : Int) - 2 * DE : Int) : ℚ))⌉ : Int) : ℚ) * ((CR + 4 : Int) : ℚ))
      0
  let Tpayload : ℚ := payloadSymbNb * Ts
  Tpreamble + Tpayload

/-- The function `CalculateTimeOnAir` of `CT_dev.cc` (lines 96-128) with both halves of
its final guard (lines 121-124): the value `toa` of lines 97-120, and 0 when `toa` is
not finite or is negative. -/
def CalculateTimeOnAir.guarded (payloadSize : Nat) (sf : Nat) (bandwidthHz : ℚ)
    (codingRate : Nat) (crcEnabled : Bool) (headerEnabled : Bool) (nPreamble : Nat) : ℚ :=
  let toa : ℚ :=
    CalculateTimeOnAir.toa payloadSize sf bandwidthHz codingRate crcEnabled headerEnabled
      nPreamble
  if ¬ isfinite toa ∨ toa < 0 then 0 else toa

/-! ## Data rate and spreading factor -/

/-- The spreading factor `main` assigns to a device at data rate `dr` (lines 692-698):
`12 - dr` is computed as an `int` and stored in a `uint8_t`, then validated. -/
def mainSpreadingFactor (dr : Nat) : Nat :=
  let sf : Nat := (((12 : Int) - (dr : Int)) % 256).toNat
  if sf < 7 ∨ sf > 12 then 7 else sf

/-! ## The ledger of `enddevice.cc` under the same events -/

namespace EndDevice

/-- Deliver one event to the callback `enddevice.cc` connects to its trace source (lines
324 and 328): both ledger callbacks receive the packet and the index the trace source
reports. The file connects nothing to the other events. -/
def step (g : Globals) : Event → Except Fault Globals
  | .transmission _ packet phyIndex => OnTransmissionCallback packet phyIndex g
  | .reception packet phyIndex => OnPacketReceptionCallback packet phyIndex g
  | _ => pure g

/-- Deliver a sequence of events in order; the first failure ends the run. -/
def run (g : Globals) (events : List Event) : Except Fault Globals :=
  events.foldlM step g

end EndDevice

/-- Whether a packet carries a `LoraTag` with a spreading factor in 7..12 and a
`UniquePacketIdTag`. -/
def Packet.fullyTagged (packet : Packet) : Bool :=
  match packet.loraTag, packet.idTag with
  | some tag, some _ => decide (7 ≤ tag.spreadingFactor ∧ tag.spreadingFactor ≤ 12)
  | _, _ => false

/-- Whether an event is a transmission or a reception whose packet is fully tagged. -/
def Event.fullyTagged : Event → Bool
  | .transmission _ packet _ => packet.fullyTagged
  | .reception packet _ => packet.fullyTagged
  | _ => false

/-- Whether both programs are told the same sender: `CT_dev.cc` stores the device index
bound to the callback, `enddevice.cc` the index the trace source reports. Both files
create the end devices before the gateways, so that a device's index is its node id. -/
def Event.sameSender : Event → Bool
  | .transmission deviceIndex _ phyIndex => decide (deviceIndex = phyIndex)
  | _ => true

/-- The packet id a reception event carries, if any. -/
def Event.receivedId : Event → Option Nat
  | .reception packet _ => packet.idTag
  | _ => none

/-- The packet ids of the reception events of a sequence, in order. -/
def receivedIds (events : List Event) : List Nat :=
  events.filterMap Event.receivedId

/-- The four ledger values of `CT_dev.cc`: `packetsSent`, `packetsReceived`,
`packetSenderMap` and `packetsReceivedPerNode`. -/
def Globals.ledger (g : Globals) : List Int × List Int × List (Nat × Nat) × List Int :=
  (g.packetsSent, g.packetsReceived, g.packetSenderMap, g.packetsReceivedPerNode)

/-- The same four ledger values of `enddevice.cc`. -/
def EndDevice.Globals.ledger (g : EndDevice.Globals) :
    List Int × List Int × List (Nat × Nat) × List Int :=
  (g.packetsSent, g.packetsReceived, g.packetSenderMap, g.packetsReceivedPerNode)

/-- An uplink at spreading factor `sf` carrying the packet id `id`. -/
def uplink (sf id : Nat) : Packet :=
  { size := 25
    loraTag := some { spreadingFactor := sf, frequency := 0 }
    idTag := some id
    mType := MType.CONFIRMED_DATA_UP
    ack := false }

/-! ## Airtime calculator: the formula and its reference value -/

/-- In exact arithmetic, for a spreading factor in 7..12 and a positive bandwidth,
`CalculateTimeOnAir` returns exactly
`(nPreamble + 4.25) * Ts + (8 + max 0 (ceil(...) * (codingRate + 4))) * Ts`
with `Ts = 2 ^ sf / bandwidthHz`, `DE = 1` from SF11 on, `H = 0` with a header and
`crc = 1` with a CRC: neither the validation nor the test `toa < 0` changes the value. -/
theorem CalculateTimeOnAir_eq_formula (payloadSize sf : Nat) (bandwidthHz : ℚ)
    (codingRate : Nat) (crcEnabled headerEnabled : Bool) (nPreamble : Nat)
    (hsf : 7 ≤ sf ∧ sf ≤ 12) (hbw : 0 < bandwidthHz) :
    CalculateTimeOnAir payloadSize sf bandwidthHz codingRate crcEnabled headerEnabled nPreamble =
      ((nPreamble : ℚ) + 4.25) * ((2 : ℚ) ^ sf / bandwidthHz) +
      (8 + max 0
        (((⌈(8 * (payloadSize : ℚ) - 4 * (sf : ℚ) + 28 + 16 * (if crcEnabled then 1 else 0)
              - 20 * (if headerEnabled then 0 else 1))
            / (4 * ((sf : ℚ) - 2 * (if 11 ≤ sf then 1 else 0)))⌉ : Int) : ℚ)
          * ((codingRate : ℚ) + 4))) * ((2 : ℚ) ^ sf / bandwidthHz) := by
  obtain ⟨h7, h12⟩ := hsf
  have hsf1 : ¬ (sf < 7 ∨ sf > 12) := by omega
  have hbw1 : ¬ (bandwidthHz ≤ 0) := not_le.mpr hbw
  have hTs : 0 < (2 : ℚ) ^ sf / bandwidthHz := by positivity
  unfold CalculateTimeOnAir
  simp only [if_neg hsf1, if_neg hbw1, Nat.one_shiftLeft]
  push_cast
  rw [max_comm]
  have hnn : ¬ (((nPreamble : ℚ) + 4.25) * ((2 : ℚ) ^ sf / bandwidthHz) +
      (8 + max 0
        (((⌈(8 * (payloadSize : ℚ) - 4 * (sf : ℚ) + 28 + 16 * (if crcEnabled then 1 else 0)
              - 20 * (if headerEnabled then 0 else 1))
            / (4 * ((sf : ℚ) - 2 * (if 11 ≤ sf then 1 else 0)))⌉ : Int) : ℚ)
          * ((codingRate : ℚ) + 4))) * ((2 : ℚ) ^ sf / bandwidthHz) < 0) := by
    have hmax : (0 : ℚ) ≤ max 0
        (((⌈(8 * (payloadSize : ℚ) - 4 * (sf : ℚ) + 28 + 16 * (if crcEnabled then 1 else 0)
              - 20 * (if headerEnabled then 0 else 1))
            / (4 * ((sf : ℚ) - 2 * (if 11 ≤ sf then 1 else 0)))⌉ : Int) : ℚ)
          * ((codingRate : ℚ) + 4)) := le_max_left _ _
    have hpre : (0 : ℚ) ≤ (nPreamble : ℚ) + 4.25 := by positivity
    have hTs0 := hTs.le
    push_neg
    positivity
  cases crcEnabled <;> cases headerEnabled <;> simp_all

/-- The exact airtime of the reference packet: 60.25 symbols of 1.024 ms. -/
theorem CalculateTimeOnAir_reference :
    CalculateTimeOnAir 24 7 125000 1 true true 8 = 964 / 15625 := by
  have hc : (⌈(52 : ℚ) / 7⌉ : Int) = 8 := by rw [Int.ceil_eq_iff]; norm_num
  norm_num [CalculateTimeOnAir, hc, Nat.one_shiftLeft]

/-- C2, as stated, fails: the airtime of the reference packet is further than 0.00005
from 0.0513 s. -/
theorem CalculateTimeOnAir_golden_not_0513 :
    ¬ (|CalculateTimeOnAir 24 7 125000 1 true true 8 - 0.0513| ≤ 0.00005) := by
  rw [CalculateTimeOnAir_reference]
  norm_num [abs_le]

/-- C2, amended: the airtime of the reference packet is exactly 0.061696 s, which is
0.0617 s to four decimal places. -/
theorem CalculateTimeOnAir_golden :
    CalculateTimeOnAir 24 7 125000 1 true true 8 = 0.061696 ∧
      |CalculateTimeOnAir 24 7 125000 1 true true 8 - 0.0617| ≤ 0.00005 := by
  rw [CalculateTimeOnAir_reference]
  norm_num [abs_le]

/-! ## Packet ledger: receptions -/

/-- An increment through `at` succeeds on a valid index. -/
theorem vectorAtIncr_ok (v : List Int) (idx : Nat) (h : idx < v.length) :
    vectorAtIncr v idx = .ok (v.set idx (v.getD idx 0 + 1)) := by
  simp [vectorAtIncr, h, List.getD_eq_getElem]

/-- With a tag whose spreading factor is in 7..12 and six per-SF counters, a reception
succeeds and increments the counter of that spreading factor. -/
theorem reception_packetsReceived (g : Globals) (packet : Packet) (tag : LoraTag)
    (phyIndex : Nat) (htag : packet.loraTag = some tag)
    (hsf : 7 ≤ tag.spreadingFactor ∧ tag.spreadingFactor ≤ 12)
    (hlen : g.packetsReceived.length = 6) :
    ∃ g1, OnPacketReceptionCallback packet phyIndex g = .ok g1 ∧
      g1.packetsReceived = g.packetsReceived.set (tag.spreadingFactor - 7)
        (g.packetsReceived.getD (tag.spreadingFactor - 7) 0 + 1) := by
  obtain ⟨h7, h12⟩ := hsf
  have hidx : ((tag.spreadingFactor : Int) - 7 ≥ 0 ∧ (tag.spreadingFactor : Int) - 7 < 6) := by omega
  have htn : ((tag.spreadingFactor : Int) - 7).toNat = tag.spreadingFactor - 7 := by omega
  have hlt : tag.spreadingFactor - 7 < g.packetsReceived.length := by omega
  unfold OnPacketReceptionCallback
  simp only [htag, hidx, htn, vectorAtIncr_ok _ _ hlt, and_self, if_true, bind, Except.bind, pure, Except.pure]
  repeat' split
  all_goals exact ⟨_, rfl, rfl⟩

/-- The per-SF half of a reception only rewrites `packetsReceived`; the rest of the
callback runs as on the same packet without its radio tag. -/
theorem reception_strip_tag (g : Globals) (packet : Packet) (phyIndex : Nat)
    (hlen : g.packetsReceived.length = 6) :
    ∃ v : List Int, v.length = 6 ∧
      OnPacketReceptionCallback packet phyIndex g =
        OnPacketReceptionCallback { packet with loraTag := none } phyIndex
          { g with packetsReceived := v } := by
  rcases htag : packet.loraTag with _ | tag
  · refine ⟨g.packetsReceived, hlen, ?_⟩
    simp [OnPacketReceptionCallback, htag]
  · by_cases hidx : ((tag.spreadingFactor : Int) - 7 ≥ 0 ∧ (tag.spreadingFactor : Int) - 7 < 6)
    · have hlt : ((tag.spreadingFactor : Int) - 7).toNat < g.packetsReceived.length := by omega
      refine ⟨g.packetsReceived.set ((tag.spreadingFactor : Int) - 7).toNat
        (g.packetsReceived.getD ((tag.spreadingFactor : Int) - 7).toNat 0 + 1), by simpa using hlen, ?_⟩
      simp only [OnPacketReceptionCallback, htag, hidx, vectorAtIncr_ok _ _ hlt, and_self, if_true,
        bind, Except.bind, pure, Except.pure]
    · refine ⟨g.packetsReceived, hlen, ?_⟩
      simp only [OnPacketReceptionCallback, htag, hidx, if_false, bind, Except.bind, pure, Except.pure]

/-- Without a radio tag, a reception of an id already received changes nothing. -/
theorem reception_untagged_duplicate (g : Globals) (packet : Packet) (phyIndex id : Nat)
    (hid : packet.idTag = some id) (hmem : id ∈ g.receivedPacketIds) :
    OnPacketReceptionCallback { packet with loraTag := none } phyIndex g = .ok g := by
  simp [OnPacketReceptionCallback, hid, hmem, bind, Except.bind, pure, Except.pure]

/-- Without a radio tag, a first reception of an id whose sender is a valid node records
the id and increments the counter of that node. -/
theorem reception_untagged_fresh (g : Globals) (packet : Packet) (phyIndex id n : Nat)
    (hid : packet.idTag = some id)
    (hfresh : id ∉ g.receivedPacketIds) (hsender : mapFind g.packetSenderMap id = some n)
    (hn : n < g.packetsReceivedPerNode.length) :
    OnPacketReceptionCallback { packet with loraTag := none } phyIndex g =
      .ok { g with
        receivedPacketIds := id :: g.receivedPacketIds
        packetsReceivedPerNode :=
          g.packetsReceivedPerNode.set n (g.packetsReceivedPerNode.getD n 0 + 1) } := by
  simp [OnPacketReceptionCallback, hid, hfresh, hsender, hn, setInsert, bind, Except.bind,
    pure, Except.pure, List.getD_eq_getElem]

/-- A first reception of an id whose sender is a valid node. -/
theorem reception_fresh (g : Globals) (packet : Packet) (phyIndex id n : Nat)
    (hid : packet.idTag = some id) (hfresh : id ∉ g.receivedPacketIds)
    (hsender : mapFind g.packetSenderMap id = some n)
    (hn : n < g.packetsReceivedPerNode.length) (hlen : g.packetsReceived.length = 6) :
    ∃ g1, OnPacketReceptionCallback packet phyIndex g = .ok g1 ∧
      g1.receivedPacketIds = id :: g.receivedPacketIds ∧
      g1.packetsReceivedPerNode =
        g.packetsReceivedPerNode.set n (g.packetsReceivedPerNode.getD n 0 + 1) ∧
      g1.packetsReceived.length = 6 := by
  obtain ⟨v, hv, e⟩ := reception_strip_tag g packet phyIndex hlen
  exact ⟨_, e.trans (reception_untagged_fresh { g with packetsReceived := v } packet phyIndex id n
    hid hfresh hsender hn), rfl, rfl, hv⟩

/-- A reception of an id already received. -/
theorem reception_duplicate (g : Globals) (packet : Packet) (phyIndex id : Nat)
    (hid : packet.idTag = some id) (hmem : id ∈ g.receivedPacketIds)
    (hlen : g.packetsReceived.length = 6) :
    ∃ g1, OnPacketReceptionCallback packet phyIndex g = .ok g1 ∧
      g1.receivedPacketIds = g.receivedPacketIds ∧
      g1.packetsReceivedPerNode = g.packetsReceivedPerNode := by
  obtain ⟨v, _, e⟩ := reception_strip_tag g packet phyIndex hlen
  exact ⟨_, e.trans (reception_untagged_duplicate { g with packetsReceived := v } packet phyIndex id
    hid hmem), rfl, rfl⟩

/-- Whatever else it does, a reception of a packet with an id succeeds and leaves the id
recorded as received. -/
theorem reception_records_id (g : Globals) (packet : Packet) (phyIndex id : Nat)
    (hid : packet.idTag = some id) (hlen : g.packetsReceived.length = 6) :
    ∃ g1, OnPacketReceptionCallback packet phyIndex g = .ok g1 ∧
      id ∈ g1.receivedPacketIds ∧ g1.packetsReceived.length = 6 := by
  obtain ⟨v, hv, e⟩ := reception_strip_tag g packet phyIndex hlen
  rw [e]
  simp only [OnPacketReceptionCallback, hid, bind, Except.bind, pure, Except.pure]
  repeat' split
  all_goals refine ⟨_, rfl, ?_, hv⟩
  all_goals simp_all [setInsert]

/-- C4: two reception events with the same packet id both succeed, and the second leaves
`receivedPacketIds` and every `packetsReceivedPerNode` entry unchanged; when the id had not
been received before and its recorded sender `n` is a valid node, node `n` gains exactly 1
in total and no other entry changes. -/
theorem OnPacketReceptionCallback_same_id_twice (g : Globals) (packet₁ packet₂ : Packet)
    (phyIndex₁ phyIndex₂ id : Nat)
    (hid₁ : packet₁.idTag = some id) (hid₂ : packet₂.idTag = some id)
    (hlen : g.packetsReceived.length = 6) :
    ∃ g1 g2, OnPacketReceptionCallback packet₁ phyIndex₁ g = .ok g1 ∧
      OnPacketReceptionCallback packet₂ phyIndex₂ g1 = .ok g2 ∧
      g2.receivedPacketIds = g1.receivedPacketIds ∧
      g2.packetsReceivedPerNode = g1.packetsReceivedPerNode ∧
      ∀ n, id ∉ g.receivedPacketIds → mapFind g.packetSenderMap id = some n →
        n < g.packetsReceivedPerNode.length →
        g2.packetsReceivedPerNode.length = g.packetsReceivedPerNode.length ∧
        g2.packetsReceivedPerNode.getD n 0 = g.packetsReceivedPerNode.getD n 0 + 1 ∧
        ∀ m, m ≠ n →
          g2.packetsReceivedPerNode.getD m 0 = g.packetsReceivedPerNode.getD m 0 := by
  obtain ⟨g1, e₁, hmem, hlen₁⟩ := reception_records_id g packet₁ phyIndex₁ id hid₁ hlen
  obtain ⟨g2, e₂, hids₂, hper₂⟩ := reception_duplicate g1 packet₂ phyIndex₂ id hid₂ hmem hlen₁
  refine ⟨g1, g2, e₁, e₂, hids₂, hper₂, ?_⟩
  intro n hfresh hsender hn
  obtain ⟨g1', e₁', -, hper, -⟩ :=
    reception_fresh g packet₁ phyIndex₁ id n hid₁ hfresh hsender hn hlen
  rw [e₁] at e₁'
  cases e₁'
  refine ⟨by simp [hper₂, hper], ?_, ?_⟩
  · simp [hper₂, hper, List.getD_eq_getElem?_getD, List.getElem?_set, hn]
  · intro m hm
    simp [hper₂, hper, List.getD_eq_getElem?_getD, List.getElem?_set, Ne.symm hm]

/-- C3, amended: each reception of a packet tagged with a spreading factor in 7..12
increments `packetsReceived[SF-7]`, the duplicate one too: two deliveries add 2. -/
theorem OnPacketReceptionCallback_twice_perSF (g : Globals) (packet : Packet) (tag : LoraTag)
    (phyIndex₁ phyIndex₂ : Nat)
    (htag : packet.loraTag = some tag)
    (hsf : 7 ≤ tag.spreadingFactor ∧ tag.spreadingFactor ≤ 12)
    (hlen : g.packetsReceived.length = 6) :
    ∃ g1 g2, OnPacketReceptionCallback packet phyIndex₁ g = .ok g1 ∧
      OnPacketReceptionCallback packet phyIndex₂ g1 = .ok g2 ∧
      g1.packetsReceived.getD (tag.spreadingFactor - 7) 0 =
        g.packetsReceived.getD (tag.spreadingFactor - 7) 0 + 1 ∧
      g2.packetsReceived.getD (tag.spreadingFactor - 7) 0 =
        g.packetsReceived.getD (tag.spreadingFactor - 7) 0 + 2 := by
  obtain ⟨g1, e₁, h₁⟩ := reception_packetsReceived g packet tag phyIndex₁ htag hsf hlen
  have hlen₁ : g1.packetsReceived.length = 6 := by simp [h₁, hlen]
  obtain ⟨g2, e₂, h₂⟩ := reception_packetsReceived g1 packet tag phyIndex₂ htag hsf hlen₁
  have hlt : tag.spreadingFactor - 7 < g.packetsReceived.length := by omega
  have hg1 : g1.packetsReceived.getD (tag.spreadingFactor - 7) 0 =
      g.packetsReceived.getD (tag.spreadingFactor - 7) 0 + 1 := by
    simp [h₁, List.getD_eq_getElem?_getD, List.getElem?_set, hlt]
  refine ⟨g1, g2, e₁, e₂, hg1, ?_⟩
  have hlt₁ : tag.spreadingFactor - 7 < g1.packetsReceived.length := by omega
  rw [h₂]
  simp only [List.getD_eq_getElem?_getD, List.getElem?_set, hlt₁, if_true, Option.getD_some]
  simp only [List.getD_eq_getElem?_getD] at hg1
  rw [hg1]; ring

/-- Witness of the amended C3: an SF7 uplink delivered twice to the initial state. -/
theorem OnPacketReceptionCallback_twice_perSF_witness :
    ∃ g1 g2, OnPacketReceptionCallback (sf7Uplink 5) 0 Globals.initial = .ok g1 ∧
      OnPacketReceptionCallback (sf7Uplink 5) 0 g1 = .ok g2 ∧
      g1.packetsReceived.getD 0 0 = 0 + 1 ∧ g2.packetsReceived.getD 0 0 = 0 + 2 :=
  OnPacketReceptionCallback_twice_perSF Globals.initial (sf7Uplink 5)
    { spreadingFactor := 7, frequency := 0 } 0 0 rfl (by decide) rfl

/-- C3, as stated, fails: delivering the SF7 uplink with id 5 twice to the initial state
does not leave `packetsReceived[0]` at one more than before. -/
theorem reception_duplicate_counted_per_SF :
    ¬ (∀ g1 g2, OnPacketReceptionCallback (sf7Uplink 5) 0 Globals.initial = .ok g1 →
        OnPacketReceptionCallback (sf7Uplink 5) 0 g1 = .ok g2 →
        g2.packetsReceived.getD 0 0 = Globals.initial.packetsReceived.getD 0 0 + 1) := by
  intro h
  have h2 := h _ _ rfl rfl
  revert h2
  decide

/-- Witness of C4: id 5, sent by node 1 of three, is delivered twice. -/
theorem OnPacketReceptionCallback_same_id_twice_witness :
    ∃ g1 g2,
      OnPacketReceptionCallback (sf7Uplink 5) 0
        { Globals.initial with
          packetSenderMap := [(5, 1)], packetsReceivedPerNode := [0, 0, 0] } = .ok g1 ∧
      OnPacketReceptionCallback (sf7Uplink 5) 1 g1 = .ok g2 ∧
      g2.receivedPacketIds = g1.receivedPacketIds ∧
      g2.packetsReceivedPerNode = g1.packetsReceivedPerNode ∧
      g2.packetsReceivedPerNode.getD 1 0 = 0 + 1 := by
  obtain ⟨g1, g2, e₁, e₂, hids, hper, h⟩ :=
    OnPacketReceptionCallback_same_id_twice
      { Globals.initial with packetSenderMap := [(5, 1)], packetsReceivedPerNode := [0, 0, 0] }
      (sf7Uplink 5) (sf7Uplink 5) 0 1 5 rfl rfl rfl
  exact ⟨g1, g2, e₁, e₂, hids, hper, (h 1 (by decide) rfl (by decide)).2.1⟩

/-- C5, as stated, fails: the scenario does not end with `packetsReceived[0] = 10`. -/
theorem ledgerScenario_not_ten_received :
    ¬ ∃ g, ledgerScenario = .ok g ∧ g.packetsSent.getD 0 0 = 15 ∧
      g.packetsReceived.getD 0 0 = 10 ∧ g.packetsReceivedPerNode.sum = 10 := by
  rintro ⟨g, hg, -, h, -⟩
  have e : ledgerScenario = .ok g → g.packetsReceived.getD 0 0 = 12 := by
    intro hg
    have h0 : ∃ g0, ledgerScenario = .ok g0 ∧ g0.packetsReceived.getD 0 0 = 12 :=
      ⟨_, rfl, by decide⟩
    obtain ⟨g0, hg0, h12⟩ := h0
    rw [hg0] at hg
    cases hg
    exact h12
  rw [e hg] at h
  exact absurd h (by decide)

/-- C5, amended: the scenario raises no error and ends with 15 packets sent at SF7, 12
receptions counted at SF7 (the two repeats of id 5 included), 10 distinct ids received
and per-node counters that sum to 10. -/
theorem ledgerScenario_outcome :
    ∃ g, ledgerScenario = .ok g ∧ g.packetsSent.getD 0 0 = 15 ∧
      g.packetsReceived.getD 0 0 = 12 ∧ g.receivedPacketIds.length = 10 ∧
      g.packetsReceivedPerNode.sum = 10 := by
  refine ⟨_, rfl, ?_, ?_, ?_, ?_⟩ <;> decide

/-! ## Packet identifiers -/

/-- The ids issued by consecutive sends, in closed form: the counter values after each
increment modulo `2 ^ 32`. -/
theorem issuedIds_eq (calls : List (Nat × Option Nat)) (g : Globals) :
    issuedIds calls g =
      (List.range calls.length).map (fun i => (g.globalPacketId + i + 1) % UINT32_MOD) := by
  induction calls generalizing g with
  | nil => simp [issuedIds, sendAll]
  | cons c calls ih =>
    obtain ⟨m_packetSize, mac⟩ := c
    have hstep : issuedIds ((m_packetSize, mac) :: calls) g =
        (g.globalPacketId + 1) % UINT32_MOD ::
          issuedIds calls (SendPacket m_packetSize mac g).1 := by
      cases mac <;> simp [issuedIds, sendAll, SendPacket]
    have hid : (SendPacket m_packetSize mac g).1.globalPacketId =
        (g.globalPacketId + 1) % UINT32_MOD := by
      cases mac <;> simp [SendPacket]
    rw [hstep, ih, hid, List.length_cons, List.range_succ_eq_map, List.map_cons, List.map_map]
    congr 1
    apply List.map_congr_left
    intro i _
    simp only [Function.comp, Nat.succ_eq_add_one, UINT32_MOD]
    omega

/-- C6, amended: starting from a counter at 0, fewer than `2 ^ 32` consecutive sends
issue one id each, strictly increasing in issue order and hence pairwise distinct. -/
theorem issuedIds_increasing (calls : List (Nat × Option Nat)) (g : Globals)
    (hg : g.globalPacketId = 0) (hN : calls.length < 2 ^ 32) :
    (issuedIds calls g).length = calls.length ∧
    (issuedIds calls g).Pairwise (· < ·) ∧
    (issuedIds calls g).Nodup := by
  have hp : (issuedIds calls g).Pairwise (· < ·) := by
    rw [issuedIds_eq, List.pairwise_map]
    refine (List.pairwise_lt_range calls.length).imp_of_mem ?_
    intro a b ha hb hab
    have ha' := List.mem_range.mp ha
    have hb' := List.mem_range.mp hb
    simp only [hg, UINT32_MOD]
    omega
  refine ⟨by simp [issuedIds_eq], hp, hp.imp (fun h => Nat.ne_of_lt h)⟩

/-- Witness of the amended C6: three sends, the last from a device without a LoRa MAC. -/
theorem issuedIds_increasing_witness :
    (issuedIds [(24, some 5), (24, some 0), (24, none)] Globals.initial).length = 3 ∧
    (issuedIds [(24, some 5), (24, some 0), (24, none)] Globals.initial).Pairwise (· < ·) ∧
    (issuedIds [(24, some 5), (24, some 0), (24, none)] Globals.initial).Nodup :=
  issuedIds_increasing [(24, some 5), (24, some 0), (24, none)] Globals.initial rfl
    (by decide)

/-- A relation that holds pairwise along `range n` holds between any two of its members
in increasing order. -/
theorem pairwise_range_rel {R : Nat → Nat → Prop} {n : Nat}
    (h : (List.range n).Pairwise R) {i j : Nat} (hij : i < j) (hj : j < n) : R i j := by
  rw [List.pairwise_iff_getElem] at h
  have h1 := h i j (by simp; omega) (by simp; omega) hij
  simpa using h1

/-- C6, as stated, fails at `N = 2 ^ 32`: the counter wraps, the last id issued is 0 and
the ids are no longer increasing. -/
theorem issuedIds_wrap :
    ¬ ((issuedIds (List.replicate (2 ^ 32) (24, some 5)) Globals.initial).Nodup ∧
      (issuedIds (List.replicate (2 ^ 32) (24, some 5)) Globals.initial).Pairwise (· < ·)) := by
  rintro ⟨-, h⟩
  rw [issuedIds_eq, List.length_replicate, List.pairwise_map] at h
  have h1 := pairwise_range_rel h (i := 0) (j := 2 ^ 32 - 1) (by norm_num) (by norm_num)
  have h2 : Globals.initial.globalPacketId = 0 := rfl
  rw [h2] at h1
  norm_num [UINT32_MOD] at h1

/-! ## Gateway transmissions -/

/-- After the resize of lines 178-180 the index `gwIndex` is valid, provided `gwIndex + 1`
does not wrap. -/
theorem ackCount_inBounds (acks : List Nat) (gwIndex : Nat) (h : gwIndex + 1 < UINT32_MOD) :
    gwIndex < (if gwIndex ≥ acks.length then
      vectorResize acks ((gwIndex + 1) % UINT32_MOD) 0 else acks).length := by
  rw [Nat.mod_eq_of_lt h]
  by_cases hge : gwIndex ≥ acks.length
  · have hnle : ¬ (gwIndex + 1 ≤ acks.length) := by omega
    simp only [hge, if_true, vectorResize, hnle, if_false, List.length_append,
      List.length_replicate]
    omega
  · simp only [hge, if_false]
    omega

/-- The airtime of any transmission is strictly positive. -/
theorem airtime_pos (payloadSize sf : Nat) (bandwidthHz : ℚ) (codingRate : Nat)
    (crcEnabled headerEnabled : Bool) (nPreamble : Nat) :
    0 < CalculateTimeOnAir payloadSize sf bandwidthHz codingRate crcEnabled headerEnabled
      nPreamble := by
  unfold CalculateTimeOnAir
  simp only []
  have hbw : (0 : ℚ) < (if bandwidthHz ≤ 0 then 125000 else bandwidthHz) := by
    split
    · norm_num
    · linarith
  have hTs : (0 : ℚ) <
      ((1 <<< (if sf < 7 ∨ sf > 12 then 7 else sf) : Nat) : ℚ) /
        (if bandwidthHz ≤ 0 then 125000 else bandwidthHz) := by
    rw [Nat.one_shiftLeft]
    positivity
  have hpre : (0 : ℚ) < (nPreamble : ℚ) + 4.25 := by positivity
  have key : ∀ x : ℚ, 0 < x → 0 < (if x < 0 then 0 else x) := fun x hx => by
    rw [if_neg (not_lt.mpr hx.le)]; exact hx
  apply key
  refine add_pos_of_pos_of_nonneg (mul_pos hpre hTs) (mul_nonneg ?_ hTs.le)
  exact add_nonneg (by norm_num) (le_max_right _ _)

/-- A gateway transmission succeeds whenever the acknowledgment branch is not taken or
`gwIndex + 1` does not wrap; its result differs from the state before in `g_ackCount`,
which only the acknowledgment branch changes, and in the two gateway totals. -/
theorem gatewaySend_ok (gwIndex : Nat) (packet : Packet) (phyIndex : Nat) (g : Globals)
    (h : ¬ ((packet.mType = MType.UNCONFIRMED_DATA_DOWN ∨
            packet.mType = MType.CONFIRMED_DATA_DOWN) ∧ packet.ack = true) ∨
          gwIndex + 1 < UINT32_MOD) :
    ∃ acks : List Nat,
      OnGatewayPhyStartSending gwIndex packet phyIndex g =
        .ok { g with
          g_ackCount := acks
          totalToA_RX1 :=
            if ((match packet.loraTag with
                | some tag => tag.frequency
                | none => 0) : ℚ) = 869525000 then g.totalToA_RX1
            else g.totalToA_RX1 + CalculateTimeOnAir packet.size
              (match packet.loraTag with
               | some tag =>
                 if tag.spreadingFactor < 7 ∨ tag.spreadingFactor > 12 then 7
                 else tag.spreadingFactor
               | none => 7) 125000 1 true true 8
          totalToA_RX2 :=
            if ((match packet.loraTag with
                | some tag => tag.frequency
                | none => 0) : ℚ) = 869525000 then
              g.totalToA_RX2 + CalculateTimeOnAir packet.size
                (match packet.loraTag with
                 | some tag =>
                   if tag.spreadingFactor < 7 ∨ tag.spreadingFactor > 12 then 7
                   else tag.spreadingFactor
                 | none => 7) 125000 1 true true 8
            else g.totalToA_RX2 } ∧
      (¬ ((packet.mType = MType.UNCONFIRMED_DATA_DOWN ∨
            packet.mType = MType.CONFIRMED_DATA_DOWN) ∧ packet.ack = true) →
        acks = g.g_ackCount) ∧
      ((packet.mType = MType.UNCONFIRMED_DATA_DOWN ∨
            packet.mType = MType.CONFIRMED_DATA_DOWN) ∧ packet.ack = true →
        acks = (if gwIndex ≥ g.g_ackCount.length then
            vectorResize g.g_ackCount ((gwIndex + 1) % UINT32_MOD) 0 else g.g_ackCount).set
          gwIndex (((if gwIndex ≥ g.g_ackCount.length then
            vectorResize g.g_ackCount ((gwIndex + 1) % UINT32_MOD) 0
            else g.g_ackCount).getD gwIndex 0 + 1) % UINT32_MOD)) := by
  by_cases hc : (packet.mType = MType.UNCONFIRMED_DATA_DOWN ∨
      packet.mType = MType.CONFIRMED_DATA_DOWN) ∧ packet.ack = true
  · have hfit : gwIndex + 1 < UINT32_MOD := h.resolve_left (not_not.mpr hc)
    have hin := ackCount_inBounds g.g_ackCount gwIndex hfit
    exact ⟨_, by
      simp only [OnGatewayPhyStartSending, hc.1, hc.2, if_true, dif_pos hin, bind, Except.bind,
        pure, Except.pure]
      split <;> rfl, fun hn => (hn hc).elim, fun _ => by
      rw [List.getD_eq_getElem _ _ hin]⟩
  · refine ⟨g.g_ackCount, ?_, fun _ => rfl, fun hp => (hc hp).elim⟩
    rw [not_and_or] at hc
    rcases hc with hc | hc
    · simp only [OnGatewayPhyStartSending, hc, if_false, bind, Except.bind, pure, Except.pure]
      split <;> rfl
    · by_cases hm : packet.mType = MType.UNCONFIRMED_DATA_DOWN ∨
          packet.mType = MType.CONFIRMED_DATA_DOWN
      · simp only [OnGatewayPhyStartSending, hm, hc, if_true, if_false, Bool.false_eq_true, bind,
          Except.bind, pure, Except.pure]
        split <;> rfl
      · simp only [OnGatewayPhyStartSending, hm, if_false, bind, Except.bind, pure, Except.pure]
        split <;> rfl

/-- The effect of a gateway transmission on the globals, case by case. -/
theorem gatewaySend_effect (gwIndex : Nat) (packet : Packet) (phyIndex : Nat) (g : Globals)
    (h : ¬ ((packet.mType = MType.UNCONFIRMED_DATA_DOWN ∨
            packet.mType = MType.CONFIRMED_DATA_DOWN) ∧ packet.ack = true) ∨
          gwIndex + 1 < UINT32_MOD) :
    ∃ g', OnGatewayPhyStartSending gwIndex packet phyIndex g = .ok g' ∧
      { g' with g_ackCount := g.g_ackCount, totalToA_RX1 := g.totalToA_RX1,
                totalToA_RX2 := g.totalToA_RX2 } = g ∧
      (¬ ((packet.mType = MType.UNCONFIRMED_DATA_DOWN ∨
            packet.mType = MType.CONFIRMED_DATA_DOWN) ∧ packet.ack = true) →
        g'.g_ackCount = g.g_ackCount) ∧
      ((packet.mType = MType.UNCONFIRMED_DATA_DOWN ∨
            packet.mType = MType.CONFIRMED_DATA_DOWN) ∧ packet.ack = true →
        g'.g_ackCount = (if gwIndex ≥ g.g_ackCount.length then
            vectorResize g.g_ackCount ((gwIndex + 1) % UINT32_MOD) 0 else g.g_ackCount).set
          gwIndex (((if gwIndex ≥ g.g_ackCount.length then
            vectorResize g.g_ackCount ((gwIndex + 1) % UINT32_MOD) 0
            else g.g_ackCount).getD gwIndex 0 + 1) % UINT32_MOD)) ∧
      (∀ tag, packet.loraTag = some tag → tag.frequency = 869525000 →
        g'.totalToA_RX2 = g.totalToA_RX2 + CalculateTimeOnAir packet.size
            (if 7 ≤ tag.spreadingFactor ∧ tag.spreadingFactor ≤ 12 then tag.spreadingFactor
             else 7) 125000 1 true true 8 ∧
          g'.totalToA_RX1 = g.totalToA_RX1) ∧
      (∀ tag, packet.loraTag = some tag → tag.frequency ≠ 869525000 →
        g'.totalToA_RX1 = g.totalToA_RX1 + CalculateTimeOnAir packet.size
            (if 7 ≤ tag.spreadingFactor ∧ tag.spreadingFactor ≤ 12 then tag.spreadingFactor
             else 7) 125000 1 true true 8 ∧
          g'.totalToA_RX2 = g.totalToA_RX2) ∧
      (packet.loraTag = none →
        g'.totalToA_RX1 = g.totalToA_RX1 +
            CalculateTimeOnAir packet.size 7 125000 1 true true 8 ∧
          g'.totalToA_RX2 = g.totalToA_RX2) := by
  have hsf : ∀ sf : Nat, (if sf < 7 ∨ sf > 12 then 7 else sf) =
      (if 7 ≤ sf ∧ sf ≤ 12 then sf else 7) := by
    intro sf
    split <;> split <;> omega
  obtain ⟨acks, e, hacks, hacks'⟩ := gatewaySend_ok gwIndex packet phyIndex g h
  refine ⟨_, e, rfl, hacks, hacks', ?_, ?_, ?_⟩
  · intro tag htag hf
    simp [htag, hf, hsf]
  · intro tag htag hf
    simp [htag, hf, hsf]
  · intro htag
    simp [htag]

/-- C9: a gateway transmission adds its airtime to exactly one total: to `totalToA_RX2`
when the tag frequency is exactly 869525000, and to `totalToA_RX1` for any other
frequency and for a packet without a `LoraTag`; the other total is unchanged. The amount is
`CalculateTimeOnAir size sf 125000 1 true true 8` with the tag's SF when it is in 7..12 and
7 otherwise; it is positive, so the total that receives it is the only one that changes. -/
theorem OnGatewayPhyStartSending_airtime (gwIndex : Nat) (packet : Packet) (phyIndex : Nat)
    (g : Globals)
    (h : ¬ ((packet.mType = MType.UNCONFIRMED_DATA_DOWN ∨
            packet.mType = MType.CONFIRMED_DATA_DOWN) ∧ packet.ack = true) ∨
          gwIndex + 1 < UINT32_MOD) :
    ∃ g', OnGatewayPhyStartSending gwIndex packet phyIndex g = .ok g' ∧
      (∀ tag, packet.loraTag = some tag → tag.frequency = 869525000 →
        g'.totalToA_RX2 = g.totalToA_RX2 + CalculateTimeOnAir packet.size
            (if 7 ≤ tag.spreadingFactor ∧ tag.spreadingFactor ≤ 12 then tag.spreadingFactor
             else 7) 125000 1 true true 8 ∧
          g'.totalToA_RX1 = g.totalToA_RX1) ∧
      (∀ tag, packet.loraTag = some tag → tag.frequency ≠ 869525000 →
        g'.totalToA_RX1 = g.totalToA_RX1 + CalculateTimeOnAir packet.size
            (if 7 ≤ tag.spreadingFactor ∧ tag.spreadingFactor ≤ 12 then tag.spreadingFactor
             else 7) 125000 1 true true 8 ∧
          g'.totalToA_RX2 = g.totalToA_RX2) ∧
      (packet.loraTag = none →
        g'.totalToA_RX1 = g.totalToA_RX1 +
            CalculateTimeOnAir packet.size 7 125000 1 true true 8 ∧
          g'.totalToA_RX2 = g.totalToA_RX2) ∧
      (g'.totalToA_RX2 ≠ g.totalToA_RX2 ↔
        ∃ tag, packet.loraTag = some tag ∧ tag.frequency = 869525000) ∧
      (g'.totalToA_RX1 ≠ g.totalToA_RX1 ↔
        ¬ ∃ tag, packet.loraTag = some tag ∧ tag.frequency = 869525000) := by
  obtain ⟨g', e, -, -, -, h2, h1, h0⟩ := gatewaySend_effect gwIndex packet phyIndex g h
  have hne : ∀ a t : ℚ, 0 < t → a + t ≠ a := fun a t ht heq => by linarith
  refine ⟨g', e, h2, h1, h0, ?_, ?_⟩
  · rcases htag : packet.loraTag with _ | tag
    · simp [(h0 htag).2]
    · by_cases hf : tag.frequency = 869525000
      · simp [(h2 tag htag hf).1, hf, hne _ _ (airtime_pos _ _ _ _ _ _ _)]
      · simp [(h1 tag htag hf).2, hf]
  · rcases htag : packet.loraTag with _ | tag
    · simp [(h0 htag).1, hne _ _ (airtime_pos _ _ _ _ _ _ _)]
    · by_cases hf : tag.frequency = 869525000
      · simp [(h2 tag htag hf).2, hf]
      · simp [(h1 tag htag hf).1, hf, hne _ _ (airtime_pos _ _ _ _ _ _ _)]

/-- Witness of C9: a confirmed downlink with an acknowledgment on the RX2 frequency. -/
theorem OnGatewayPhyStartSending_airtime_witness :
    ∃ g', OnGatewayPhyStartSending 0
        rx2AckDownlink 0
        { Globals.initial with g_ackCount := [0] } = .ok g' ∧
      g'.totalToA_RX2 = CalculateTimeOnAir 30 9 125000 1 true true 8 ∧
      g'.totalToA_RX1 = 0 := by
  obtain ⟨g', e, h2, -⟩ := OnGatewayPhyStartSending_airtime 0
    rx2AckDownlink 0
    { Globals.initial with g_ackCount := [0] } (Or.inr (by decide))
  have h3 := h2 { spreadingFactor := 9, frequency := 869525000 } rfl rfl
  exact ⟨g', e, by simpa [Globals.initial, rx2AckDownlink] using h3⟩

/-- C10, amended: a gateway transmission whose frame is not a data-down frame
(`UNCONFIRMED_DATA_DOWN` or `CONFIRMED_DATA_DOWN`) with the ACK flag set succeeds and
leaves every acknowledgment counter unchanged. -/
theorem OnGatewayPhyStartSending_ack_unchanged (gwIndex : Nat) (packet : Packet)
    (phyIndex : Nat) (g : Globals)
    (h : ¬ ((packet.mType = MType.UNCONFIRMED_DATA_DOWN ∨
            packet.mType = MType.CONFIRMED_DATA_DOWN) ∧ packet.ack = true)) :
    ∃ g', OnGatewayPhyStartSending gwIndex packet phyIndex g = .ok g' ∧
      g'.g_ackCount = g.g_ackCount := by
  obtain ⟨g', e, -, hacks, -⟩ := gatewaySend_effect gwIndex packet phyIndex g (Or.inl h)
  exact ⟨g', e, hacks h⟩

/-- Witness of the amended C10: a join-accept frame, and a confirmed downlink without
the ACK flag, leave the counter of gateway 0 as it was. -/
theorem OnGatewayPhyStartSending_ack_unchanged_witness :
    (∃ g', OnGatewayPhyStartSending 0
        joinAccept 0
        { Globals.initial with g_ackCount := [3] } = .ok g' ∧ g'.g_ackCount = [3]) ∧
    (∃ g', OnGatewayPhyStartSending 0
        plainDownlink 0
        { Globals.initial with g_ackCount := [3] } = .ok g' ∧ g'.g_ackCount = [3]) :=
  ⟨OnGatewayPhyStartSending_ack_unchanged 0
      joinAccept 0
      { Globals.initial with g_ackCount := [3] } (by decide),
    OnGatewayPhyStartSending_ack_unchanged 0
      plainDownlink 0
      { Globals.initial with g_ackCount := [3] } (by decide)⟩

/-- C10, as stated, fails: an `UNCONFIRMED_DATA_DOWN` frame with the ACK flag set makes
gateway 0 count an acknowledgment. -/
theorem unconfirmed_down_ack_counted :
    ¬ (∀ g', OnGatewayPhyStartSending 0
        unconfirmedAckDownlink 0
        { Globals.initial with g_ackCount := [0] } = .ok g' → g'.g_ackCount = [0]) := by
  intro hall
  obtain ⟨g', e, -, -, hpos, -⟩ := gatewaySend_effect 0
    unconfirmedAckDownlink 0
    { Globals.initial with g_ackCount := [0] } (Or.inr (by decide))
  have h1 := hall g' e
  have h2 := hpos ⟨Or.inl rfl, rfl⟩
  rw [h1] at h2
  revert h2
  decide

/-! ## Duty-cycle checks -/

/-- With six per-SF counters a transmission event succeeds; it changes `packetsSent`,
keeping its length, and `packetSenderMap`, and nothing else. -/
theorem transmission_ok (deviceIndex : Nat) (packet : Packet) (phyIndex : Nat) (g : Globals)
    (hS : g.packetsSent.length = 6) :
    ∃ (v : List Int) (m : List (Nat × Nat)), v.length = 6 ∧
      OnTransmissionCallback deviceIndex packet phyIndex g =
        .ok { g with packetsSent := v, packetSenderMap := m } := by
  rcases htag : packet.loraTag with _ | tag
  · rcases hid : packet.idTag with _ | id
    · exact ⟨g.packetsSent, g.packetSenderMap, hS, by
        simp only [OnTransmissionCallback, htag, hid, bind, Except.bind, pure, Except.pure]⟩
    · exact ⟨g.packetsSent, mapAssign g.packetSenderMap id deviceIndex, hS, by
        simp only [OnTransmissionCallback, htag, hid, bind, Except.bind, pure, Except.pure]⟩
  · by_cases hidx : ((tag.spreadingFactor : Int) - 7 ≥ 0 ∧ (tag.spreadingFactor : Int) - 7 < 6)
    · have hlt : ((tag.spreadingFactor : Int) - 7).toNat < g.packetsSent.length := by omega
      rcases hid : packet.idTag with _ | id
      · exact ⟨g.packetsSent.set ((tag.spreadingFactor : Int) - 7).toNat
            (g.packetsSent.getD ((tag.spreadingFactor : Int) - 7).toNat 0 + 1),
          g.packetSenderMap, by simpa using hS, by
          simp only [OnTransmissionCallback, htag, hid, hidx, vectorAtIncr_ok _ _ hlt, and_self,
            if_true, bind, Except.bind, pure, Except.pure]⟩
      · exact ⟨g.packetsSent.set ((tag.spreadingFactor : Int) - 7).toNat
            (g.packetsSent.getD ((tag.spreadingFactor : Int) - 7).toNat 0 + 1),
          mapAssign g.packetSenderMap id deviceIndex, by simpa using hS, by
          simp only [OnTransmissionCallback, htag, hid, hidx, vectorAtIncr_ok _ _ hlt, and_self,
            if_true, bind, Except.bind, pure, Except.pure]⟩
    · rcases hid : packet.idTag with _ | id
      · exact ⟨g.packetsSent, g.packetSenderMap, hS, by
          simp only [OnTransmissionCallback, htag, hid, hidx, if_false, bind, Except.bind, pure,
            Except.pure]⟩
      · exact ⟨g.packetsSent, mapAssign g.packetSenderMap id deviceIndex, hS, by
          simp only [OnTransmissionCallback, htag, hid, hidx, if_false, bind, Except.bind, pure,
            Except.pure]⟩

/-- With six per-SF counters a reception event succeeds; it changes `packetsReceived`,
keeping its length, `receivedPacketIds` and `packetsReceivedPerNode`, and nothing else. -/
theorem reception_ok (packet : Packet) (phyIndex : Nat) (g : Globals)
    (hR : g.packetsReceived.length = 6) :
    ∃ (v : List Int) (ids : List Nat) (per : List Int), v.length = 6 ∧
      OnPacketReceptionCallback packet phyIndex g =
        .ok { g with packetsReceived := v, receivedPacketIds := ids,
                     packetsReceivedPerNode := per } := by
  obtain ⟨v, hv, e⟩ := reception_strip_tag g packet phyIndex hR
  rw [e]
  simp only [OnPacketReceptionCallback, bind, Except.bind, pure, Except.pure]
  repeat' split
  all_goals exact ⟨v, _, _, hv, rfl⟩

/-- One delivered event succeeds, keeps the six per-SF counters, and lengthens each
history by one exactly when it is the duty-cycle check of that history. -/
theorem step_histories (g : Globals) (e : Event) (hS : g.packetsSent.length = 6)
    (hR : g.packetsReceived.length = 6) (hfit : e.indexFits) :
    ∃ g', step g e = .ok g' ∧ g'.packetsSent.length = 6 ∧ g'.packetsReceived.length = 6 ∧
      g'.hourlyToA_RX1.length = g.hourlyToA_RX1.length + (if e.isGatewayCheck then 1 else 0) ∧
      g'.hourlyToA_RX2.length = g.hourlyToA_RX2.length + (if e.isGatewayCheck then 1 else 0) ∧
      g'.hourlyEndDeviceToA.length =
        g.hourlyEndDeviceToA.length + (if e.isEndDeviceCheck then 1 else 0) := by
  cases e with
  | transmission deviceIndex packet phyIndex =>
    obtain ⟨v, m, hv, e⟩ := transmission_ok deviceIndex packet phyIndex g hS
    exact ⟨_, e, hv, hR, rfl, rfl, rfl⟩
  | reception packet phyIndex =>
    obtain ⟨v, ids, per, hv, e⟩ := reception_ok packet phyIndex g hR
    exact ⟨_, e, hS, hv, rfl, rfl, rfl⟩
  | gatewaySend gwIndex packet phyIndex =>
    obtain ⟨acks, e, -⟩ := gatewaySend_ok gwIndex packet phyIndex g (Or.inr hfit)
    exact ⟨_, e, hS, hR, rfl, rfl, rfl⟩
  | endDeviceSend deviceIndex dr packet =>
    refine ⟨_, rfl, ?_⟩
    simp only [OnEndDeviceSentNewPacket, OnEndDevicePhyStartSending]
    split
    · split
      · exact ⟨hS, hR, rfl, rfl, rfl⟩
      · exact ⟨hS, hR, rfl, rfl, rfl⟩
    · exact ⟨hS, hR, rfl, rfl, rfl⟩
  | gatewayCheck now =>
    exact ⟨_, rfl, hS, hR, by simp [CheckGatewayDutyCycle, Event.isGatewayCheck],
      by simp [CheckGatewayDutyCycle, Event.isGatewayCheck], rfl⟩
  | endDeviceCheck now =>
    exact ⟨_, rfl, hS, hR, rfl, rfl, by simp [CheckEndDeviceDutyCycle, Event.isEndDeviceCheck]⟩

/-- A run of events that fit succeeds, and each history grows by the number of
duty-cycle checks of its kind among them. -/
theorem run_histories (events : List Event) (g : Globals) (hS : g.packetsSent.length = 6)
    (hR : g.packetsReceived.length = 6) (hfit : ∀ e ∈ events, e.indexFits) :
    ∃ g', run g events = .ok g' ∧ g'.packetsSent.length = 6 ∧ g'.packetsReceived.length = 6 ∧
      g'.hourlyToA_RX1.length = g.hourlyToA_RX1.length + events.countP Event.isGatewayCheck ∧
      g'.hourlyToA_RX2.length = g.hourlyToA_RX2.length + events.countP Event.isGatewayCheck ∧
      g'.hourlyEndDeviceToA.length =
        g.hourlyEndDeviceToA.length + events.countP Event.isEndDeviceCheck := by
  induction events generalizing g with
  | nil => exact ⟨g, rfl, hS, hR, rfl, rfl, rfl⟩
  | cons e events ih =>
    obtain ⟨g1, e1, hS1, hR1, h1, h2, h3⟩ :=
      step_histories g e hS hR (hfit e (List.mem_cons_self _ _))
    obtain ⟨g2, e2, hS2, hR2, k1, k2, k3⟩ :=
      ih g1 hS1 hR1 (fun e' he' => hfit e' (List.mem_cons_of_mem _ he'))
    refine ⟨g2, ?_, hS2, hR2, ?_, ?_, ?_⟩
    · simp only [run, List.foldlM_cons, bind, Except.bind, e1]
      exact e2
    · rw [k1, h1, List.countP_cons]; omega
    · rw [k2, h2, List.countP_cons]; omega
    · rw [k3, h3, List.countP_cons]; omega

/-- C7: every run of `CheckGatewayDutyCycle` appends the RX1 total to `hourlyToA_RX1` and
the RX2 total to `hourlyToA_RX2` and leaves both totals at 0; every run of
`CheckEndDeviceDutyCycle` does the same for the end-device total and history. Hence
after any run of events each history has grown by exactly the number of checks of its
kind, whatever transmissions and receptions lie in between. -/
theorem epoch_close_appends (now : ℚ) (g : Globals) (events : List Event)
    (hS : g.packetsSent.length = 6) (hR : g.packetsReceived.length = 6)
    (hfit : ∀ e ∈ events, e.indexFits) :
    ((CheckGatewayDutyCycle now g).1.hourlyToA_RX1 = g.hourlyToA_RX1 ++ [g.totalToA_RX1] ∧
      (CheckGatewayDutyCycle now g).1.hourlyToA_RX2 = g.hourlyToA_RX2 ++ [g.totalToA_RX2] ∧
      (CheckGatewayDutyCycle now g).1.totalToA_RX1 = 0 ∧
      (CheckGatewayDutyCycle now g).1.totalToA_RX2 = 0) ∧
    ((CheckEndDeviceDutyCycle now g).1.hourlyEndDeviceToA =
        g.hourlyEndDeviceToA ++ [g.totalEndDeviceToA] ∧
      (CheckEndDeviceDutyCycle now g).1.totalEndDeviceToA = 0) ∧
    ∃ g', run g events = .ok g' ∧
      g'.hourlyToA_RX1.length = g.hourlyToA_RX1.length + events.countP Event.isGatewayCheck ∧
      g'.hourlyToA_RX2.length = g.hourlyToA_RX2.length + events.countP Event.isGatewayCheck ∧
      g'.hourlyEndDeviceToA.length =
        g.hourlyEndDeviceToA.length + events.countP Event.isEndDeviceCheck := by
  refine ⟨⟨rfl, rfl, rfl, rfl⟩, ⟨rfl, rfl⟩, ?_⟩
  obtain ⟨g', e, -, -, h1, h2, h3⟩ := run_histories events g hS hR hfit
  exact ⟨g', e, h1, h2, h3⟩

/-- Witness of C7: from the initial state, an hour with one downlink and an hour with
none, each closed by both checks, leave two entries in every history. -/
theorem epoch_close_appends_witness :
    ∃ g', run Globals.initial
        [Event.gatewaySend 0 untaggedAckDownlink 0,
          Event.gatewayCheck 3600, Event.endDeviceCheck 3600,
          Event.gatewayCheck 7200, Event.endDeviceCheck 7200] = .ok g' ∧
      g'.hourlyToA_RX1.length = 2 ∧ g'.hourlyToA_RX2.length = 2 ∧
      g'.hourlyEndDeviceToA.length = 2 :=
  (epoch_close_appends 0 Globals.initial
    [Event.gatewaySend 0 untaggedAckDownlink 0,
      Event.gatewayCheck 3600, Event.endDeviceCheck 3600,
      Event.gatewayCheck 7200, Event.endDeviceCheck 7200] rfl rfl
    (by
      intro e he
      simp only [List.mem_cons, List.mem_singleton, List.not_mem_nil, or_false] at he
      rcases he with rfl | rfl | rfl | rfl | rfl <;> simp [Event.indexFits, UINT32_MOD])).2.2

/-- C8: the verdict of a check is compliant exactly when the measured total is at most
the ceiling: 36 s for RX1, 360 s for RX2, 36 s for the end device. A total of exactly
36 s is compliant, and 36.001 s is not. -/
theorem duty_cycle_verdict (now : ℚ) (g : Globals) :
    ((CheckGatewayDutyCycle now g).2.measuredRX1 = g.totalToA_RX1 ∧
      ((CheckGatewayDutyCycle now g).2.compliantRX1 = true ↔ g.totalToA_RX1 ≤ 36)) ∧
    ((CheckGatewayDutyCycle now g).2.measuredRX2 = g.totalToA_RX2 ∧
      ((CheckGatewayDutyCycle now g).2.compliantRX2 = true ↔ g.totalToA_RX2 ≤ 360)) ∧
    ((CheckEndDeviceDutyCycle now g).2.measured = g.totalEndDeviceToA ∧
      ((CheckEndDeviceDutyCycle now g).2.compliant = true ↔ g.totalEndDeviceToA ≤ 36)) ∧
    (CheckGatewayDutyCycle now { g with totalToA_RX1 := 36 }).2.compliantRX1 = true ∧
    (CheckGatewayDutyCycle now { g with totalToA_RX1 := 36.001 }).2.compliantRX1 = false ∧
    (CheckEndDeviceDutyCycle now { g with totalEndDeviceToA := 36 }).2.compliant = true ∧
    (CheckEndDeviceDutyCycle now { g with totalEndDeviceToA := 36.001 }).2.compliant = false := by
  refine ⟨⟨rfl, ?_⟩, ⟨rfl, ?_⟩, ⟨rfl, ?_⟩, ?_, ?_, ?_, ?_⟩
  · simp [CheckGatewayDutyCycle]
  · simp [CheckGatewayDutyCycle]
  · simp [CheckEndDeviceDutyCycle]
  · simp [CheckGatewayDutyCycle]
  · norm_num [CheckGatewayDutyCycle]
  · simp [CheckEndDeviceDutyCycle]
  · norm_num [CheckEndDeviceDutyCycle]


/-! ## Airtime calculator: monotonicity and validation -/

/-- The divisor `4 * (sf - 2 * DE)` of the payload symbol count is positive for every
validated spreading factor. -/
theorem airtime_divisor_pos (sf : Nat) :
    (0 : ℚ) < 4 * ((((if sf < 7 ∨ sf > 12 then 7 else sf : Nat) : Int) -
      2 * (if (if sf < 7 ∨ sf > 12 then 7 else sf) ≥ 11 then 1 else 0) : Int) : ℚ) := by
  have h : (0 : Int) < ((if sf < 7 ∨ sf > 12 then 7 else sf : Nat) : Int) -
      2 * (if (if sf < 7 ∨ sf > 12 then 7 else sf) ≥ 11 then 1 else 0) := by
    split <;> split <;> omega
  have h' : (0 : ℚ) < (((if sf < 7 ∨ sf > 12 then 7 else sf : Nat) : Int) -
      2 * (if (if sf < 7 ∨ sf > 12 then 7 else sf) ≥ 11 then 1 else 0) : Int) := by
    exact_mod_cast h
  linarith

/-- In exact arithmetic, with all other arguments fixed, `CalculateTimeOnAir` is
non-decreasing in `payloadSize`, for every spreading factor and bandwidth. -/
theorem CalculateTimeOnAir_mono_payload (p1 p2 sf : Nat) (bandwidthHz : ℚ) (codingRate : Nat)
    (crcEnabled headerEnabled : Bool) (nPreamble : Nat) (hp : p1 ≤ p2) :
    CalculateTimeOnAir p1 sf bandwidthHz codingRate crcEnabled headerEnabled nPreamble ≤
      CalculateTimeOnAir p2 sf bandwidthHz codingRate crcEnabled headerEnabled nPreamble := by
  have hbw : (0 : ℚ) < (if bandwidthHz ≤ 0 then 125000 else bandwidthHz) := by
    split
    · norm_num
    · linarith
  have hTs : (0 : ℚ) <
      ((1 <<< (if sf < 7 ∨ sf > 12 then 7 else sf) : Nat) : ℚ) /
        (if bandwidthHz ≤ 0 then 125000 else bandwidthHz) := by
    rw [Nat.one_shiftLeft]
    positivity
  have hpre : (0 : ℚ) < (nPreamble : ℚ) + 4.25 := by positivity
  have hd := airtime_divisor_pos sf
  have key : ∀ x : ℚ, 0 < x → (if x < 0 then 0 else x) = x := fun x hx =>
    if_neg (not_lt.mpr hx.le)
  have hpos : ∀ c : ℚ, (0 : ℚ) < ((nPreamble : ℚ) + (4.25 : ℚ)) *
      (((1 <<< (if sf < 7 ∨ sf > 12 then 7 else sf) : Nat) : ℚ) /
        (if bandwidthHz ≤ 0 then 125000 else bandwidthHz)) +
      ((8 : ℚ) + max c 0) * (((1 <<< (if sf < 7 ∨ sf > 12 then 7 else sf) : Nat) : ℚ) /
        (if bandwidthHz ≤ 0 then 125000 else bandwidthHz)) := fun c =>
    add_pos_of_pos_of_nonneg (mul_pos hpre hTs)
      (mul_nonneg (add_nonneg (by norm_num : (0 : ℚ) ≤ 8) (le_max_right _ _)) hTs.le)
  unfold CalculateTimeOnAir
  simp only []
  rw [key _ (hpos _), key _ (hpos _)]
  have hp' : (p1 : ℚ) ≤ (p2 : ℚ) := by exact_mod_cast hp
  have hcr : (0 : ℚ) ≤ (((codingRate : Int) + 4 : Int) : ℚ) := by
    have : (0 : Int) ≤ (codingRate : Int) + 4 := by omega
    exact_mod_cast this
  gcongr

/-- C12: a spreading factor outside 7..12 is replaced by 7, not by the nearest bound:
the call returns what the call with spreading factor 7 returns. -/
theorem CalculateTimeOnAir_invalid_sf (payloadSize sf : Nat) (bandwidthHz : ℚ)
    (codingRate : Nat) (crcEnabled headerEnabled : Bool) (nPreamble : Nat)
    (hsf : sf < 7 ∨ sf > 12) :
    CalculateTimeOnAir payloadSize sf bandwidthHz codingRate crcEnabled headerEnabled nPreamble =
      CalculateTimeOnAir payloadSize 7 bandwidthHz codingRate crcEnabled headerEnabled
        nPreamble := by
  have h7 : ¬ ((7 : Nat) < 7 ∨ (7 : Nat) > 12) := by decide
  unfold CalculateTimeOnAir
  simp only [if_pos hsf, if_neg h7]

/-- Witness of C12: spreading factor 13 is treated as 7, and the result differs from the
airtime at the nearest bound 12. -/
theorem CalculateTimeOnAir_invalid_sf_witness :
    CalculateTimeOnAir 24 13 125000 1 true true 8 =
      CalculateTimeOnAir 24 7 125000 1 true true 8 ∧
    CalculateTimeOnAir 24 13 125000 1 true true 8 ≠
      CalculateTimeOnAir 24 12 125000 1 true true 8 := by
  have h := CalculateTimeOnAir_invalid_sf 24 13 125000 1 true true 8 (by decide)
  refine ⟨h, ?_⟩
  rw [h]
  have hc7 : (⌈(52 : ℚ) / 7⌉ : Int) = 8 := by rw [Int.ceil_eq_iff]; norm_num
  have hc12 : (⌈(47 : ℚ) / 10⌉ : Int) = 5 := by rw [Int.ceil_eq_iff]; norm_num
  norm_num [CalculateTimeOnAir, hc7, hc12, Nat.one_shiftLeft]

/-- C13: a bandwidth that is zero or negative is replaced by 125000 Hz: the call returns
what the call with bandwidth 125000 returns, and divides by a positive number. -/
theorem CalculateTimeOnAir_invalid_bandwidth (payloadSize sf : Nat) (bandwidthHz : ℚ)
    (codingRate : Nat) (crcEnabled headerEnabled : Bool) (nPreamble : Nat)
    (hbw : bandwidthHz ≤ 0) :
    CalculateTimeOnAir payloadSize sf bandwidthHz codingRate crcEnabled headerEnabled nPreamble =
      CalculateTimeOnAir payloadSize sf 125000 codingRate crcEnabled headerEnabled nPreamble ∧
    (0 : ℚ) < (if bandwidthHz ≤ 0 then 125000 else bandwidthHz) := by
  have h : ¬ ((125000 : ℚ) ≤ 0) := by norm_num
  refine ⟨?_, by rw [if_pos hbw]; norm_num⟩
  unfold CalculateTimeOnAir
  simp only [if_pos hbw, if_neg h]

/-- Witness of C13: a bandwidth of zero. -/
theorem CalculateTimeOnAir_invalid_bandwidth_witness :
    CalculateTimeOnAir 24 7 0 1 true true 8 = CalculateTimeOnAir 24 7 125000 1 true true 8 ∧
    (0 : ℚ) < (if (0 : ℚ) ≤ 0 then 125000 else 0) :=
  CalculateTimeOnAir_invalid_bandwidth 24 7 0 1 true true 8 (le_refl 0)

/-- C14: for every input, valid or not, the airtime that `CalculateTimeOnAir` returns is
not negative. -/
theorem CalculateTimeOnAir_nonneg (payloadSize sf : Nat) (bandwidthHz : ℚ) (codingRate : Nat)
    (crcEnabled headerEnabled : Bool) (nPreamble : Nat) :
    0 ≤ CalculateTimeOnAir payloadSize sf bandwidthHz codingRate crcEnabled headerEnabled
      nPreamble :=
  (airtime_pos payloadSize sf bandwidthHz codingRate crcEnabled headerEnabled nPreamble).le

/-! ## Furthest device -/

/-- A gateway check reschedules itself, 3600 s later, exactly before the end time. -/
theorem gatewayCheck_next (now : ℚ) (g : Globals) :
    (CheckGatewayDutyCycle now g).2.next =
      if now < (SIM_END_HOURS : ℚ) * 3600 then some 3600 else none := rfl

/-- An end-device check reschedules itself, 3600 s later, exactly before the end time. -/
theorem endDeviceCheck_next (now : ℚ) (g : Globals) :
    (CheckEndDeviceDutyCycle now g).2.next =
      if now < (SIM_END_HOURS : ℚ) * 3600 then some 3600 else none := rfl

/-- The queue of `main`: both checks at 3600 s, the gateway check first, and the stop
event at 86400 s. -/
theorem mainQueue_eq : mainQueue =
    [⟨3600, .CheckGatewayDutyCycle⟩, ⟨3600, .CheckEndDeviceDutyCycle⟩, ⟨86400, .Stop⟩] := by
  norm_num [mainQueue, Simulator.Schedule, SIM_END_HOURS]

/-- The queue at the start of an hourly round: both checks at time `t`, and the stop
event at the end time. -/
theorem Run_round_full (t : ℚ) (h : t + 3600 < 86400) (fuel : Nat) (g : Globals) :
    Simulator.Run (fuel + 2)
        [⟨t, .CheckGatewayDutyCycle⟩, ⟨t, .CheckEndDeviceDutyCycle⟩, ⟨86400, .Stop⟩] g =
      (⟨t, .CheckGatewayDutyCycle⟩ :: ⟨t, .CheckEndDeviceDutyCycle⟩ ::
        (Simulator.Run fuel
          [⟨t + 3600, .CheckGatewayDutyCycle⟩, ⟨t + 3600, .CheckEndDeviceDutyCycle⟩,
            ⟨86400, .Stop⟩]
          (CheckEndDeviceDutyCycle t (CheckGatewayDutyCycle t g).1).1).1,
        (Simulator.Run fuel
          [⟨t + 3600, .CheckGatewayDutyCycle⟩, ⟨t + 3600, .CheckEndDeviceDutyCycle⟩,
            ⟨86400, .Stop⟩]
          (CheckEndDeviceDutyCycle t (CheckGatewayDutyCycle t g).1).1).2.1,
        (Simulator.Run fuel
          [⟨t + 3600, .CheckGatewayDutyCycle⟩, ⟨t + 3600, .CheckEndDeviceDutyCycle⟩,
            ⟨86400, .Stop⟩]
          (CheckEndDeviceDutyCycle t (CheckGatewayDutyCycle t g).1).1).2.2.1,
        (Simulator.Run fuel
          [⟨t + 3600, .CheckGatewayDutyCycle⟩, ⟨t + 3600, .CheckEndDeviceDutyCycle⟩,
            ⟨86400, .Stop⟩]
          (CheckEndDeviceDutyCycle t (CheckGatewayDutyCycle t g).1).1).2.2.2) := by
  have hend : ((SIM_END_HOURS : Nat) : ℚ) * 3600 = 86400 := by norm_num [SIM_END_HOURS]
  have ht : t < (SIM_END_HOURS : ℚ) * 3600 := by rw [hend]; linarith
  have h1 : ¬ (t + 3600 < t) := by linarith
  have hg : ∀ g0 : Globals, (CheckGatewayDutyCycle t g0).2.next = some 3600 := fun g0 => by
    rw [gatewayCheck_next, if_pos ht]
  have hd : ∀ g0 : Globals, (CheckEndDeviceDutyCycle t g0).2.next = some 3600 := fun g0 => by
    rw [endDeviceCheck_next, if_pos ht]
  rw [Simulator.Run]
  simp only [hg, Simulator.Schedule, if_neg h1, if_pos h]
  rw [Simulator.Run]
  simp only [hd, Simulator.Schedule, if_neg h1, if_pos h, lt_self_iff_false, if_false]

/-- The last hourly round and the stop event behind it. -/
theorem Run_last_round (fuel : Nat) (g : Globals) :
    Simulator.Run (fuel + 3)
        [⟨82800, .CheckGatewayDutyCycle⟩, ⟨82800, .CheckEndDeviceDutyCycle⟩, ⟨86400, .Stop⟩] g =
      ([⟨82800, .CheckGatewayDutyCycle⟩, ⟨82800, .CheckEndDeviceDutyCycle⟩],
        (CheckEndDeviceDutyCycle 82800 (CheckGatewayDutyCycle 82800 g).1).1,
        [⟨86400, .CheckGatewayDutyCycle⟩, ⟨86400, .CheckEndDeviceDutyCycle⟩], true) := by
  have hend : ((SIM_END_HOURS : Nat) : ℚ) * 3600 = 86400 := by norm_num [SIM_END_HOURS]
  have ht : (82800 : ℚ) < (SIM_END_HOURS : ℚ) * 3600 := by rw [hend]; norm_num
  have h1 : ¬ ((82800 : ℚ) + 3600 < 82800) := by norm_num
  have h2 : ¬ ((82800 : ℚ) + 3600 < 86400) := by norm_num
  have e : (82800 : ℚ) + 3600 = 86400 := by norm_num
  have hg : ∀ g0 : Globals, (CheckGatewayDutyCycle 82800 g0).2.next = some 3600 := fun g0 => by
    rw [gatewayCheck_next, if_pos ht]
  have hd : ∀ g0 : Globals, (CheckEndDeviceDutyCycle 82800 g0).2.next = some 3600 :=
    fun g0 => by rw [endDeviceCheck_next, if_pos ht]
  rw [Simulator.Run]
  simp only [hg, Simulator.Schedule, if_neg h1, if_neg h2]
  rw [Simulator.Run]
  simp only [hd, Simulator.Schedule, if_neg h1, if_neg h2]
  rw [Simulator.Run]
  simp only [lt_self_iff_false, if_false]
  rw [e]

/-- The one-hour effect of both checks on the lengths of the histories. -/
theorem round_histories (t : ℚ) (g : Globals) :
    (CheckEndDeviceDutyCycle t (CheckGatewayDutyCycle t g).1).1.hourlyToA_RX1.length =
      g.hourlyToA_RX1.length + 1 ∧
    (CheckEndDeviceDutyCycle t (CheckGatewayDutyCycle t g).1).1.hourlyToA_RX2.length =
      g.hourlyToA_RX2.length + 1 ∧
    (CheckEndDeviceDutyCycle t (CheckGatewayDutyCycle t g).1).1.hourlyEndDeviceToA.length =
      g.hourlyEndDeviceToA.length + 1 := by
  simp [CheckGatewayDutyCycle, CheckEndDeviceDutyCycle]

/-- One hourly round, by components: the log gains the two checks, and the rest of the
run is the run of the next round. -/
theorem Run_round (t : ℚ) (h : t + 3600 < 86400) (fuel : Nat) (g : Globals) :
    (Simulator.Run (fuel + 2)
        [⟨t, .CheckGatewayDutyCycle⟩, ⟨t, .CheckEndDeviceDutyCycle⟩, ⟨86400, .Stop⟩] g).1 =
      ⟨t, .CheckGatewayDutyCycle⟩ :: ⟨t, .CheckEndDeviceDutyCycle⟩ ::
        (Simulator.Run fuel
          [⟨t + 3600, .CheckGatewayDutyCycle⟩, ⟨t + 3600, .CheckEndDeviceDutyCycle⟩,
            ⟨86400, .Stop⟩]
          (CheckEndDeviceDutyCycle t (CheckGatewayDutyCycle t g).1).1).1 ∧
    (Simulator.Run (fuel + 2)
        [⟨t, .CheckGatewayDutyCycle⟩, ⟨t, .CheckEndDeviceDutyCycle⟩, ⟨86400, .Stop⟩] g).2 =
      (Simulator.Run fuel
          [⟨t + 3600, .CheckGatewayDutyCycle⟩, ⟨t + 3600, .CheckEndDeviceDutyCycle⟩,
            ⟨86400, .Stop⟩]
          (CheckEndDeviceDutyCycle t (CheckGatewayDutyCycle t g).1).1).2 := by
  rw [Run_round_full t h fuel g]
  exact ⟨rfl, rfl⟩

/-- The run from the start of the round that lies `m` hours before the last one: the
checks of `m + 1` rounds run, an hour apart, then the stop event; the checks scheduled
for 86400 s stay in the queue, and every history has gained `m + 1` entries. -/
theorem Run_from (m : Nat) (fuel : Nat) (g : Globals) :
    (Simulator.Run (fuel + 2 * m + 3)
        [⟨82800 - 3600 * (m : ℚ), .CheckGatewayDutyCycle⟩,
          ⟨82800 - 3600 * (m : ℚ), .CheckEndDeviceDutyCycle⟩, ⟨86400, .Stop⟩] g).1 =
      (List.range (m + 1)).flatMap (fun i : Nat =>
        [⟨82800 - 3600 * (m : ℚ) + 3600 * (i : ℚ), .CheckGatewayDutyCycle⟩,
          ⟨82800 - 3600 * (m : ℚ) + 3600 * (i : ℚ), .CheckEndDeviceDutyCycle⟩]) ∧
    (Simulator.Run (fuel + 2 * m + 3)
        [⟨82800 - 3600 * (m : ℚ), .CheckGatewayDutyCycle⟩,
          ⟨82800 - 3600 * (m : ℚ), .CheckEndDeviceDutyCycle⟩, ⟨86400, .Stop⟩] g).2.2 =
      ([⟨86400, .CheckGatewayDutyCycle⟩, ⟨86400, .CheckEndDeviceDutyCycle⟩], true) ∧
    (Simulator.Run (fuel + 2 * m + 3)
        [⟨82800 - 3600 * (m : ℚ), .CheckGatewayDutyCycle⟩,
          ⟨82800 - 3600 * (m : ℚ), .CheckEndDeviceDutyCycle⟩, ⟨86400, .Stop⟩]
        g).2.1.hourlyToA_RX1.length = g.hourlyToA_RX1.length + (m + 1) ∧
    (Simulator.Run (fuel + 2 * m + 3)
        [⟨82800 - 3600 * (m : ℚ), .CheckGatewayDutyCycle⟩,
          ⟨82800 - 3600 * (m : ℚ), .CheckEndDeviceDutyCycle⟩, ⟨86400, .Stop⟩]
        g).2.1.hourlyToA_RX2.length = g.hourlyToA_RX2.length + (m + 1) ∧
    (Simulator.Run (fuel + 2 * m + 3)
        [⟨82800 - 3600 * (m : ℚ), .CheckGatewayDutyCycle⟩,
          ⟨82800 - 3600 * (m : ℚ), .CheckEndDeviceDutyCycle⟩, ⟨86400, .Stop⟩]
        g).2.1.hourlyEndDeviceToA.length = g.hourlyEndDeviceToA.length + (m + 1) := by
  induction m generalizing g with
  | zero =>
    have e0 : (82800 : ℚ) - 3600 * ((0 : Nat) : ℚ) = 82800 := by
      rw [Nat.cast_zero]; norm_num
    rw [e0, Nat.mul_zero, Nat.add_zero, Run_last_round fuel g]
    obtain ⟨r1, r2, r3⟩ := round_histories 82800 g
    refine ⟨?_, rfl, r1, r2, r3⟩
    show _ = List.flatMap [0] _
    rw [List.flatMap_singleton, Nat.cast_zero, mul_zero, add_zero]
  | succ m ih =>
    have hm : (0 : ℚ) ≤ (m : ℚ) := Nat.cast_nonneg m
    have hlt : (82800 : ℚ) - 3600 * ((m + 1 : Nat) : ℚ) + 3600 < 86400 := by
      rw [Nat.cast_add, Nat.cast_one]
      linarith
    have htime : (82800 : ℚ) - 3600 * ((m + 1 : Nat) : ℚ) + 3600 = 82800 - 3600 * (m : ℚ) := by
      rw [Nat.cast_add, Nat.cast_one]; ring
    have hfuel : fuel + 2 * (m + 1) + 3 = (fuel + 2 * m + 3) + 2 := by omega
    obtain ⟨r1, r2, r3⟩ := round_histories (82800 - 3600 * ((m + 1 : Nat) : ℚ)) g
    obtain ⟨h1, h2, h3, h4, h5⟩ := ih
      (CheckEndDeviceDutyCycle (82800 - 3600 * ((m + 1 : Nat) : ℚ))
        (CheckGatewayDutyCycle (82800 - 3600 * ((m + 1 : Nat) : ℚ)) g).1).1
    obtain ⟨hr1, hr2⟩ := Run_round _ hlt (fuel + 2 * m + 3) g
    rw [htime] at hr1 hr2
    rw [hfuel, hr1, hr2, h1, h2, h3, h4, h5, r1, r2, r3]
    refine ⟨?_, rfl, by omega, by omega, by omega⟩
    rw [List.range_succ_eq_map (m + 1), List.flatMap_cons, List.flatMap_map]
    refine congrArg₂ List.cons ?_ (congrArg₂ List.cons ?_ (List.flatMap_congr ?_))
    · rw [Nat.cast_zero, mul_zero, add_zero]
    · rw [Nat.cast_zero, mul_zero, add_zero]
    · intro i _
      show [_, _] = [_, _]
      rw [Nat.cast_succ i, htime.symm]
      refine congrArg₂ List.cons (congrArg₂ Simulator.Entry.mk ?_ rfl)
        (congrArg₂ List.cons (congrArg₂ Simulator.Entry.mk ?_ rfl) rfl)
      · ring
      · ring

/-- C16: a check that runs at time `now` schedules its next run, 3600 s later, exactly when
`now < SIM_END_HOURS * 3600`. The chain does end, but one run early: with the queue as
`main` leaves it (both checks at 3600 s, the stop event at 86400 s), `Simulator::Run`,
given fuel for 47 events or more, runs both checks at `3600 * k` for `k = 1..23` and then
the stop event; the checks that the runs at 82800 s scheduled for 86400 s are queued
behind the stop event and are still in the queue when `Run` returns. Each history has
gained 23 entries, not 24. -/
theorem main_run_stops_before_last_close (now : ℚ) (g : Globals) (fuel : Nat)
    (hfuel : 47 ≤ fuel) :
    (((CheckGatewayDutyCycle now g).2.next = some 3600 ↔ now < (SIM_END_HOURS : ℚ) * 3600) ∧
      ((CheckGatewayDutyCycle now g).2.next = none ↔ ¬ now < (SIM_END_HOURS : ℚ) * 3600)) ∧
    (((CheckEndDeviceDutyCycle now g).2.next = some 3600 ↔
        now < (SIM_END_HOURS : ℚ) * 3600) ∧
      ((CheckEndDeviceDutyCycle now g).2.next = none ↔
        ¬ now < (SIM_END_HOURS : ℚ) * 3600)) ∧
    (Simulator.Run fuel mainQueue g).1 =
      (List.range 23).flatMap (fun k : Nat =>
        [⟨3600 * ((k : ℚ) + 1), .CheckGatewayDutyCycle⟩,
          ⟨3600 * ((k : ℚ) + 1), .CheckEndDeviceDutyCycle⟩]) ∧
    (Simulator.Run fuel mainQueue g).2.2 =
      ([⟨86400, .CheckGatewayDutyCycle⟩, ⟨86400, .CheckEndDeviceDutyCycle⟩], true) ∧
    (Simulator.Run fuel mainQueue g).2.1.hourlyToA_RX1.length =
      g.hourlyToA_RX1.length + 23 ∧
    (Simulator.Run fuel mainQueue g).2.1.hourlyToA_RX2.length =
      g.hourlyToA_RX2.length + 23 ∧
    (Simulator.Run fuel mainQueue g).2.1.hourlyEndDeviceToA.length =
      g.hourlyEndDeviceToA.length + 23 := by
  have e : (82800 : ℚ) - 3600 * ((22 : Nat) : ℚ) = 3600 := by norm_num
  obtain ⟨f, rfl⟩ : ∃ f, fuel = f + 2 * 22 + 3 := ⟨fuel - 47, by omega⟩
  obtain ⟨h1, h2, h3, h4, h5⟩ := Run_from 22 f g
  rw [e] at h1 h2 h3 h4 h5
  rw [mainQueue_eq]
  refine ⟨⟨?_, ?_⟩, ⟨?_, ?_⟩, ?_, h2, h3, h4, h5⟩
  · rw [gatewayCheck_next]
    by_cases h : now < (SIM_END_HOURS : ℚ) * 3600
    · rw [if_pos h]
      exact iff_of_true rfl h
    · rw [if_neg h]
      exact iff_of_false (fun hc => Option.noConfusion hc) h
  · rw [gatewayCheck_next]
    by_cases h : now < (SIM_END_HOURS : ℚ) * 3600
    · rw [if_pos h]
      exact iff_of_false (fun hc => Option.noConfusion hc) (not_not.mpr h)
    · rw [if_neg h]
      exact iff_of_true rfl h
  · rw [endDeviceCheck_next]
    by_cases h : now < (SIM_END_HOURS : ℚ) * 3600
    · rw [if_pos h]
      exact iff_of_true rfl h
    · rw [if_neg h]
      exact iff_of_false (fun hc => Option.noConfusion hc) h
  · rw [endDeviceCheck_next]
    by_cases h : now < (SIM_END_HOURS : ℚ) * 3600
    · rw [if_pos h]
      exact iff_of_false (fun hc => Option.noConfusion hc) (not_not.mpr h)
    · rw [if_neg h]
      exact iff_of_true rfl h
  · rw [h1]
    refine List.flatMap_congr (fun i _ => ?_)
    refine congrArg₂ List.cons (congrArg₂ Simulator.Entry.mk ?_ rfl)
      (congrArg₂ List.cons (congrArg₂ Simulator.Entry.mk ?_ rfl) rfl)
    · ring
    · ring

/-- Witness of C16: the run of the simulation from the initial state, with fuel for 100
events: 46 checks run, none of them at 86400 s, and every history has 23 entries. -/
theorem main_run_stops_before_last_close_witness :
    (Simulator.Run 100 mainQueue Globals.initial).1.length = 46 ∧
    (∀ entry ∈ (Simulator.Run 100 mainQueue Globals.initial).1, entry.time ≠ 86400) ∧
    (Simulator.Run 100 mainQueue Globals.initial).2.2 =
      ([⟨86400, .CheckGatewayDutyCycle⟩, ⟨86400, .CheckEndDeviceDutyCycle⟩], true) ∧
    (Simulator.Run 100 mainQueue Globals.initial).2.1.hourlyToA_RX1.length = 23 ∧
    (Simulator.Run 100 mainQueue Globals.initial).2.1.hourlyToA_RX2.length = 23 ∧
    (Simulator.Run 100 mainQueue Globals.initial).2.1.hourlyEndDeviceToA.length = 23 := by
  obtain ⟨-, -, hlog, hrest, h1, h2, h3⟩ :=
    main_run_stops_before_last_close 0 Globals.initial 100 (by decide)
  refine ⟨?_, ?_, hrest, h1, h2, h3⟩
  · rw [hlog]
    rfl
  · intro entry hentry
    rw [hlog, List.mem_flatMap] at hentry
    obtain ⟨k, hk, hmem⟩ := hentry
    have hk' : (k : ℚ) + 1 ≤ 23 := by
      have : k + 1 ≤ 23 := List.mem_range.mp hk
      exact_mod_cast this
    have ht : entry.time = 3600 * ((k : ℚ) + 1) := by
      rcases List.mem_cons.mp hmem with h | h
      · rw [h]
      · rw [List.mem_singleton.mp h]
    rw [ht]
    intro hc
    linarith

/-! ## Packet ledger: tolerated events -/

/-- C17: a reception whose packet id has no entry in `packetSenderMap`, or whose recorded
sender is not a valid index of `packetsReceivedPerNode`, raises no error, leaves every
per-node counter unchanged and leaves the id recorded in `receivedPacketIds`. -/
theorem reception_unknown_sender (g : Globals) (packet : Packet) (phyIndex id : Nat)
    (hid : packet.idTag = some id) (hlen : g.packetsReceived.length = 6)
    (hunknown : mapFind g.packetSenderMap id = none ∨
      ∃ n, mapFind g.packetSenderMap id = some n ∧ g.packetsReceivedPerNode.length ≤ n) :
    ∃ g', OnPacketReceptionCallback packet phyIndex g = .ok g' ∧
      g'.packetsReceivedPerNode = g.packetsReceivedPerNode ∧
      g'.receivedPacketIds = setInsert g.receivedPacketIds id ∧
      id ∈ g'.receivedPacketIds := by
  obtain ⟨v, -, e⟩ := reception_strip_tag g packet phyIndex hlen
  rw [e]
  by_cases hmem : id ∈ g.receivedPacketIds
  · refine ⟨_, reception_untagged_duplicate { g with packetsReceived := v } packet phyIndex id
      hid hmem, rfl, ?_, hmem⟩
    simp [setInsert, hmem]
  · rcases hunknown with hnone | ⟨n, hsome, hn⟩
    · refine ⟨{ g with packetsReceived := v, receivedPacketIds := id :: g.receivedPacketIds },
        ?_, rfl, by simp [setInsert, hmem], by simp⟩
      simp [OnPacketReceptionCallback, hid, hmem, hnone, setInsert, bind, Except.bind, pure,
        Except.pure]
    · refine ⟨{ g with packetsReceived := v, receivedPacketIds := id :: g.receivedPacketIds },
        ?_, rfl, by simp [setInsert, hmem], by simp⟩
      simp [OnPacketReceptionCallback, hid, hmem, hsome, not_lt.mpr hn, setInsert, bind,
        Except.bind, pure, Except.pure]

/-- Witness of C17: id 9 was never transmitted, and id 5 is recorded for node 7 of three. -/
theorem reception_unknown_sender_witness :
    (∃ g', OnPacketReceptionCallback (sf7Uplink 9) 0
        { Globals.initial with packetsReceivedPerNode := [0, 0, 0] } = .ok g' ∧
      g'.packetsReceivedPerNode = [0, 0, 0] ∧
      g'.receivedPacketIds = setInsert [] 9 ∧ 9 ∈ g'.receivedPacketIds) ∧
    (∃ g', OnPacketReceptionCallback (sf7Uplink 5) 0
        { Globals.initial with
          packetSenderMap := [(5, 7)], packetsReceivedPerNode := [0, 0, 0] } = .ok g' ∧
      g'.packetsReceivedPerNode = [0, 0, 0] ∧
      g'.receivedPacketIds = setInsert [] 5 ∧ 5 ∈ g'.receivedPacketIds) :=
  ⟨reception_unknown_sender { Globals.initial with packetsReceivedPerNode := [0, 0, 0] }
      (sf7Uplink 9) 0 9 rfl rfl (Or.inl rfl),
    reception_unknown_sender
      { Globals.initial with packetSenderMap := [(5, 7)], packetsReceivedPerNode := [0, 0, 0] }
      (sf7Uplink 5) 0 5 rfl rfl (Or.inr ⟨7, rfl, by decide⟩)⟩

/-- C18: for a `LoraTag` spreading factor outside 7..12, `OnTransmissionCallback` raises
no error and leaves `packetsSent` unchanged, and `OnPacketReceptionCallback` raises no
error and leaves `packetsReceived` unchanged. -/
theorem invalid_sf_not_counted (g : Globals) (packet : Packet) (tag : LoraTag)
    (deviceIndex phyIndex : Nat) (htag : packet.loraTag = some tag)
    (hsf : tag.spreadingFactor < 7 ∨ tag.spreadingFactor > 12) :
    (∃ g', OnTransmissionCallback deviceIndex packet phyIndex g = .ok g' ∧
      g'.packetsSent = g.packetsSent) ∧
    (∃ g', OnPacketReceptionCallback packet phyIndex g = .ok g' ∧
      g'.packetsReceived = g.packetsReceived) := by
  have hidx : ¬ ((tag.spreadingFactor : Int) - 7 ≥ 0 ∧ (tag.spreadingFactor : Int) - 7 < 6) := by
    omega
  constructor
  · simp only [OnTransmissionCallback, htag, hidx, if_false, bind, Except.bind, pure,
      Except.pure]
    split <;> exact ⟨_, rfl, rfl⟩
  · simp only [OnPacketReceptionCallback, htag, hidx, if_false, bind, Except.bind, pure,
      Except.pure]
    repeat' split
    all_goals exact ⟨_, rfl, rfl⟩

/-- Witness of C18: an uplink tagged with spreading factor 13. -/
theorem invalid_sf_not_counted_witness :
    (∃ g', OnTransmissionCallback 0 (taggedUplink 13) 0 Globals.initial = .ok g' ∧
      g'.packetsSent = Globals.initial.packetsSent) ∧
    (∃ g', OnPacketReceptionCallback (taggedUplink 13) 0 Globals.initial = .ok g' ∧
      g'.packetsReceived = Globals.initial.packetsReceived) :=
  invalid_sf_not_counted Globals.initial (taggedUplink 13) { spreadingFactor := 13, frequency := 0 }
    0 0 rfl (by decide)

/-! ## The ledgers of the other scenario files -/

/-- C19 fails on the code: in `enddevice.cc` (and `adr_bridge.cc`, same text) an uplink
tagged with spreading factor 6, 13 or 0 makes `packetsSent.at` and `packetsReceived.at`
throw, and so it does in `enddevice_NLOS_Loss.cc`, there also for a packet without a tag
when the default tag has spreading factor 0. -/
theorem other_ledgers_throw_on_invalid_sf :
    EndDevice.OnTransmissionCallback (taggedUplink 6) 0 EndDevice.Globals.initial =
      .error Fault.outOfRange ∧
    EndDevice.OnTransmissionCallback (taggedUplink 13) 0 EndDevice.Globals.initial =
      .error Fault.outOfRange ∧
    EndDevice.OnPacketReceptionCallback (taggedUplink 0) 0 EndDevice.Globals.initial =
      .error Fault.outOfRange ∧
    EndDevice.OnPacketReceptionCallback (taggedUplink 13) 0 EndDevice.Globals.initial =
      .error Fault.outOfRange ∧
    EndDeviceNLOS.OnTransmissionCallback { spreadingFactor := 0, frequency := 0 } 4096
      (taggedUplink 13) 0 EndDeviceNLOS.Globals.initial = .error Fault.outOfRange ∧
    EndDeviceNLOS.OnPacketReceptionCallback { spreadingFactor := 0, frequency := 0 } 4096
      (taggedUplink 6) 0 EndDeviceNLOS.Globals.initial = .error Fault.outOfRange ∧
    EndDeviceNLOS.OnTransmissionCallback { spreadingFactor := 0, frequency := 0 } 4096
      plainDownlink 0 EndDeviceNLOS.Globals.initial = .error Fault.outOfRange :=
  ⟨rfl, rfl, rfl, rfl, rfl, rfl, rfl⟩

/-! ## Packet ledger: per-node counters against unique receptions -/

/-- Incrementing one entry of a vector of counters raises their sum by one. -/
theorem sum_set_incr (l : List Int) (n : Nat) (h : n < l.length) :
    (l.set n (l[n] + 1)).sum = l.sum + 1 := by
  induction l generalizing n with
  | nil => exact absurd h (Nat.not_lt_zero _)
  | cons a l ih =>
    cases n with
    | zero => simp only [List.set_cons_zero, List.sum_cons, List.getElem_cons_zero]; ring
    | succ n =>
      have h' : n < l.length := Nat.lt_of_succ_lt_succ h
      simp only [List.set_cons_succ, List.sum_cons, List.getElem_cons_succ, ih n h']
      ring

/-- A reception keeps the received ids free of repetition and the sum of the per-node
counters at most their number; it succeeds on six per-SF counters and keeps them six. -/
theorem reception_keeps_ledger (g : Globals) (packet : Packet) (phyIndex : Nat)
    (hS : g.packetsSent.length = 6) (hR : g.packetsReceived.length = 6)
    (hnd : g.receivedPacketIds.Nodup)
    (hsum : g.packetsReceivedPerNode.sum ≤ (g.receivedPacketIds.length : Int)) :
    ∃ g', OnPacketReceptionCallback packet phyIndex g = .ok g' ∧
      g'.packetsSent.length = 6 ∧ g'.packetsReceived.length = 6 ∧
      g'.receivedPacketIds.Nodup ∧
      g'.packetsReceivedPerNode.sum ≤ (g'.receivedPacketIds.length : Int) := by
  rcases hid : packet.idTag with _ | id
  all_goals obtain ⟨v, hv, e⟩ := reception_strip_tag g packet phyIndex hR
  all_goals rw [e]
  · exact ⟨{ g with packetsReceived := v }, by
      simp [OnPacketReceptionCallback, hid, bind, Except.bind, pure, Except.pure],
      hS, hv, hnd, hsum⟩
  · by_cases hmem : id ∈ g.receivedPacketIds
    · exact ⟨_, reception_untagged_duplicate { g with packetsReceived := v } packet phyIndex id
        hid hmem, hS, hv, hnd, hsum⟩
    · have hnd' : (id :: g.receivedPacketIds).Nodup := List.nodup_cons.mpr ⟨hmem, hnd⟩
      have hsum' : g.packetsReceivedPerNode.sum ≤
          ((id :: g.receivedPacketIds).length : Int) := by
        rw [List.length_cons]; push_cast; omega
      rcases hfind : mapFind g.packetSenderMap id with _ | n
      · exact ⟨{ g with packetsReceived := v, receivedPacketIds := id :: g.receivedPacketIds },
          by simp [OnPacketReceptionCallback, hid, hmem, hfind, setInsert, bind, Except.bind,
            pure, Except.pure], hS, hv, hnd', hsum'⟩
      · by_cases hn : n < g.packetsReceivedPerNode.length
        · refine ⟨_, reception_untagged_fresh { g with packetsReceived := v } packet phyIndex
            id n hid hmem hfind hn, hS, hv, hnd', ?_⟩
          show (g.packetsReceivedPerNode.set n (g.packetsReceivedPerNode.getD n 0 + 1)).sum ≤
            ((id :: g.receivedPacketIds).length : Int)
          rw [List.getD_eq_getElem _ _ hn, sum_set_incr _ _ hn, List.length_cons]
          push_cast; omega
        · exact ⟨{ g with packetsReceived := v,
                          receivedPacketIds := id :: g.receivedPacketIds },
            by simp [OnPacketReceptionCallback, hid, hmem, hfind, hn, setInsert, bind,
              Except.bind, pure, Except.pure], hS, hv, hnd', hsum'⟩

/-- A run of ledger events succeeds and keeps the invariant of `reception_keeps_ledger`. -/
theorem run_keeps_ledger (events : List Event) (g : Globals)
    (hledger : ∀ e ∈ events, e.isLedger = true)
    (hS : g.packetsSent.length = 6) (hR : g.packetsReceived.length = 6)
    (hnd : g.receivedPacketIds.Nodup)
    (hsum : g.packetsReceivedPerNode.sum ≤ (g.receivedPacketIds.length : Int)) :
    ∃ g', run g events = .ok g' ∧
      g'.packetsSent.length = 6 ∧ g'.packetsReceived.length = 6 ∧
      g'.receivedPacketIds.Nodup ∧
      g'.packetsReceivedPerNode.sum ≤ (g'.receivedPacketIds.length : Int) := by
  induction events generalizing g with
  | nil => exact ⟨g, rfl, hS, hR, hnd, hsum⟩
  | cons e events ih =>
    have hrest : ∀ e' ∈ events, e'.isLedger = true :=
      fun e' he' => hledger e' (List.mem_cons_of_mem _ he')
    have he := hledger e (List.mem_cons_self _ _)
    have hstep : ∃ g1, step g e = .ok g1 ∧
        g1.packetsSent.length = 6 ∧ g1.packetsReceived.length = 6 ∧
        g1.receivedPacketIds.Nodup ∧
        g1.packetsReceivedPerNode.sum ≤ (g1.receivedPacketIds.length : Int) := by
      cases e with
      | transmission deviceIndex packet phyIndex =>
        obtain ⟨v, m, hv, e1⟩ := transmission_ok deviceIndex packet phyIndex g hS
        exact ⟨_, e1, hv, hR, hnd, hsum⟩
      | reception packet phyIndex =>
        exact reception_keeps_ledger g packet phyIndex hS hR hnd hsum
      | gatewaySend gwIndex packet phyIndex => exact absurd he (by simp [Event.isLedger])
      | endDeviceSend deviceIndex dr packet => exact absurd he (by simp [Event.isLedger])
      | gatewayCheck now => exact absurd he (by simp [Event.isLedger])
      | endDeviceCheck now => exact absurd he (by simp [Event.isLedger])
    obtain ⟨g1, e1, hS1, hR1, hnd1, hsum1⟩ := hstep
    obtain ⟨g2, e2, h2⟩ := ih g1 hrest hS1 hR1 hnd1 hsum1
    refine ⟨g2, ?_, h2⟩
    simp only [run, List.foldlM_cons, bind, Except.bind, e1]
    exact e2

/-- C20: from the initial ledger with any number of per-node counters, every sequence of
transmission and reception events runs without error to a state whose received ids are
pairwise distinct and whose per-node counters sum to at most the number of those ids. -/
theorem perNode_sum_le_unique_received (n : Nat) (events : List Event)
    (hledger : ∀ e ∈ events, e.isLedger = true) :
    ∃ g, run { Globals.initial with packetsReceivedPerNode := vectorResize [] n 0 } events =
        .ok g ∧
      g.receivedPacketIds.Nodup ∧
      g.packetsReceivedPerNode.sum ≤ (g.receivedPacketIds.length : Int) := by
  have hzero : (vectorResize ([] : List Int) n 0).sum = 0 := by
    unfold vectorResize
    split
    · simp
    · simp
  obtain ⟨g, e, -, -, hnd, hsum⟩ := run_keeps_ledger events
    { Globals.initial with packetsReceivedPerNode := vectorResize [] n 0 } hledger rfl rfl
    List.nodup_nil (by
      show (vectorResize ([] : List Int) n 0).sum ≤ ((([] : List Nat).length : Nat) : Int)
      rw [hzero]; simp)
  exact ⟨g, e, hnd, hsum⟩

/-- Witness of C20: the ledger scenario of the specification, where ten distinct ids are
received and the per-node counters sum to ten. -/
theorem perNode_sum_le_unique_received_witness :
    ∃ g, run { Globals.initial with packetsReceivedPerNode := vectorResize [] 3 0 }
        ((List.range 15).map (fun i => Event.transmission (i / 5) (sf7Uplink (i + 1)) 0)
          ++ (List.range 10).map (fun i => Event.reception (sf7Uplink (i + 1)) 0)
          ++ [Event.reception (sf7Uplink 5) 0, Event.reception (sf7Uplink 5) 0]) = .ok g ∧
      g.receivedPacketIds.Nodup ∧
      g.packetsReceivedPerNode.sum ≤ (g.receivedPacketIds.length : Int) :=
  perNode_sum_le_unique_received 3 _ (by
    intro e he
    simp only [List.mem_append, List.mem_map, List.mem_cons, List.mem_singleton,
      List.not_mem_nil, or_false] at he
    rcases he with (⟨i, -, rfl⟩ | ⟨i, -, rfl⟩) | rfl | rfl <;> rfl)

/-! ## Acknowledgment counters -/

/-- The vector of counters as `OnGatewayAck` indexes it: resized to `gwIndex + 1` entries
when `gwIndex` is not yet a valid index. While `gwIndex + 1` does not wrap, the resize
only appends zeros: the length becomes the larger of the old length and `gwIndex + 1`,
and every entry, read as 0 past the end, is as before. -/
theorem ackCount_resized (acks : List Nat) (gwIndex : Nat) (h : gwIndex + 1 < UINT32_MOD) :
    (if gwIndex ≥ acks.length then
      vectorResize acks ((gwIndex + 1) % UINT32_MOD) 0 else acks).length =
        max acks.length (gwIndex + 1) ∧
    ∀ i, (if gwIndex ≥ acks.length then
      vectorResize acks ((gwIndex + 1) % UINT32_MOD) 0 else acks).getD i 0 = acks.getD i 0 := by
  rw [Nat.mod_eq_of_lt h]
  by_cases hge : gwIndex ≥ acks.length
  · have hnle : ¬ (gwIndex + 1 ≤ acks.length) := by omega
    simp only [hge, if_true, vectorResize, hnle, if_false, List.length_append,
      List.length_replicate]
    refine ⟨by omega, fun i => ?_⟩
    simp only [List.getD_eq_getElem?_getD, List.getElem?_append, List.getElem?_replicate]
    by_cases hi : i < acks.length
    · simp [hi]
    · have hnone : acks[i]? = none := List.getElem?_eq_none (by omega)
      simp only [hi, if_false, hnone, Option.getD_none]
      split <;> rfl
  · rw [if_neg hge]
    exact ⟨by omega, fun _ => rfl⟩

/-- C21, as stated, fails at the largest gateway index: `gwIndex + 1` wraps to 0, the
vector is resized to no entries, and the access that follows is out of bounds, in
`OnGatewayAck` and in the acknowledgment branch of `OnGatewayPhyStartSending` alike; and
a counter that holds the largest `uint32_t` value wraps to 0 instead of growing by 1. -/
theorem OnGatewayAck_largest_index_fault :
    OnGatewayAck 4294967295 plainDownlink Globals.initial = .error Fault.outOfBounds ∧
    OnGatewayPhyStartSending 4294967295 rx2AckDownlink 0 Globals.initial =
      .error Fault.outOfBounds ∧
    OnGatewayAck 0 plainDownlink { Globals.initial with g_ackCount := [4294967295] } =
      .ok { Globals.initial with g_ackCount := [0] } :=
  ⟨rfl, rfl, rfl⟩

/-- C21, amended: for every gateway index below the largest `uint32_t` value,
`OnGatewayAck` and the acknowledgment branch of `OnGatewayPhyStartSending` succeed. The
vector of counters then has the larger of its old length and `gwIndex + 1` entries, the
counter of `gwIndex` is one more than before, modulo `2 ^ 32` and so exactly one more
while it is below the largest value, and every other entry is as before, new entries
being 0. `OnGatewayAck` changes no other global, and the branch changes the counters as
`OnGatewayAck` does. -/
theorem OnGatewayAck_increments (gwIndex : Nat) (p : Packet) (g : Globals)
    (hfit : gwIndex + 1 < UINT32_MOD) :
    ∃ g', OnGatewayAck gwIndex p g = .ok g' ∧
      { g' with g_ackCount := g.g_ackCount } = g ∧
      g'.g_ackCount.length = max g.g_ackCount.length (gwIndex + 1) ∧
      g'.g_ackCount.getD gwIndex 0 = (g.g_ackCount.getD gwIndex 0 + 1) % UINT32_MOD ∧
      (g.g_ackCount.getD gwIndex 0 + 1 < UINT32_MOD →
        g'.g_ackCount.getD gwIndex 0 = g.g_ackCount.getD gwIndex 0 + 1) ∧
      (∀ i, i ≠ gwIndex → g'.g_ackCount.getD i 0 = g.g_ackCount.getD i 0) ∧
      ∀ (packet : Packet) (phyIndex : Nat),
        (packet.mType = MType.UNCONFIRMED_DATA_DOWN ∨
          packet.mType = MType.CONFIRMED_DATA_DOWN) ∧ packet.ack = true →
        ∃ g'', OnGatewayPhyStartSending gwIndex packet phyIndex g = .ok g'' ∧
          g''.g_ackCount = g'.g_ackCount := by
  have hin := ackCount_inBounds g.g_ackCount gwIndex hfit
  obtain ⟨hlen, hget⟩ := ackCount_resized g.g_ackCount gwIndex hfit
  have hval : (if gwIndex ≥ g.g_ackCount.length then
      vectorResize g.g_ackCount ((gwIndex + 1) % UINT32_MOD) 0 else g.g_ackCount)[gwIndex] =
        g.g_ackCount.getD gwIndex 0 := by
    rw [← hget gwIndex, List.getD_eq_getElem _ _ hin]
  refine ⟨{ g with
      g_ackCount := (if gwIndex ≥ g.g_ackCount.length then
          vectorResize g.g_ackCount ((gwIndex + 1) % UINT32_MOD) 0 else g.g_ackCount).set gwIndex
            ((g.g_ackCount.getD gwIndex 0 + 1) % UINT32_MOD) }, ?_, rfl, ?_, ?_, ?_, ?_, ?_⟩
  · simp only [OnGatewayAck, dif_pos hin, hval]
  · simp only [List.length_set, hlen]
  · simp only [List.getD_eq_getElem?_getD, List.getElem?_set_self hin, Option.getD_some]
  · intro hlt
    rw [← Nat.mod_eq_of_lt hlt]
    simp only [List.getD_eq_getElem?_getD, List.getElem?_set_self hin, Option.getD_some,
      Nat.mod_mod]
  · intro i hi
    have hne : gwIndex ≠ i := fun e => hi e.symm
    have := hget i
    simp only [List.getD_eq_getElem?_getD] at this ⊢
    rw [List.getElem?_set_ne hne]
    exact this
  · intro packet phyIndex hack
    obtain ⟨acks, e, -, hacks⟩ := gatewaySend_ok gwIndex packet phyIndex g (Or.inr hfit)
    refine ⟨_, e, ?_⟩
    rw [hacks hack]
    simp only [List.getD_eq_getElem _ _ hin, hval]

/-- Witness of C21, amended: an acknowledgment for gateway 2 when only gateway 0 has a
counter, at 5, extends the vector to three entries, sets the counter of gateway 2 to 1
and leaves the counter of gateway 0 at 5. -/
theorem OnGatewayAck_increments_witness :
    ∃ g', OnGatewayAck 2 plainDownlink { Globals.initial with g_ackCount := [5] } = .ok g' ∧
      g'.g_ackCount.length = 3 ∧ g'.g_ackCount.getD 2 0 = 1 ∧ g'.g_ackCount.getD 0 0 = 5 := by
  obtain ⟨g', e, -, hlen, hcount, -, hother, -⟩ := OnGatewayAck_increments 2 plainDownlink
    { Globals.initial with g_ackCount := [5] } (by decide)
  exact ⟨g', e, hlen.trans (by decide), hcount.trans (by decide),
    (hother 0 (by decide)).trans (by decide)⟩

/-! ## End-device airtime -/

/-- C22: end-device airtime is tracked for the furthest device only. For a device index
other than `furthestDeviceIndex` both callbacks leave every global as it is, the total
and its history included. For `furthestDeviceIndex` both add
`CalculateTimeOnAir size sf 125000 1 true true 8` to `totalEndDeviceToA` and change nothing
else, where `sf` is the tag's spreading factor when it is in 7..12, 7 when the tag's is
out of range, and `12 - dr` for `dr <= 5`, else 7, when the packet has no `LoraTag`. -/
theorem endDevice_airtime_furthest_only (deviceIndex dr : Nat) (packet : Packet)
    (g : Globals) :
    (deviceIndex ≠ g.furthestDeviceIndex →
      OnEndDevicePhyStartSending deviceIndex packet dr g = g ∧
      OnEndDeviceSentNewPacket deviceIndex dr packet g = g) ∧
    (deviceIndex = g.furthestDeviceIndex →
      OnEndDeviceSentNewPacket deviceIndex dr packet g =
        OnEndDevicePhyStartSending deviceIndex packet dr g ∧
      (OnEndDevicePhyStartSending deviceIndex packet dr g).hourlyEndDeviceToA =
        g.hourlyEndDeviceToA ∧
      (∀ tag, packet.loraTag = some tag →
        OnEndDevicePhyStartSending deviceIndex packet dr g =
          { g with
            totalEndDeviceToA := g.totalEndDeviceToA +
              CalculateTimeOnAir packet.size
                (if 7 ≤ tag.spreadingFactor ∧ tag.spreadingFactor ≤ 12 then tag.spreadingFactor
                 else 7) 125000 1 true true 8 }) ∧
      (packet.loraTag = none →
        OnEndDevicePhyStartSending deviceIndex packet dr g =
          { g with
            totalEndDeviceToA := g.totalEndDeviceToA +
              CalculateTimeOnAir packet.size (if dr ≤ 5 then 12 - dr else 7)
                125000 1 true true 8 })) := by
  have hsf : ∀ sf : Nat, (if sf < 7 ∨ sf > 12 then 7 else sf) =
      (if 7 ≤ sf ∧ sf ≤ 12 then sf else 7) := by
    intro sf
    split <;> split <;> omega
  refine ⟨fun hne => ?_, fun heq => ?_⟩
  · have hne' : ¬ deviceIndex = g.furthestDeviceIndex := hne
    exact ⟨by simp only [OnEndDevicePhyStartSending, ne_eq, hne', not_false_eq_true, if_true],
      by simp only [OnEndDeviceSentNewPacket, hne', if_false]⟩
  · refine ⟨by simp only [OnEndDeviceSentNewPacket, heq, if_true], ?_, ?_, ?_⟩
    · simp only [OnEndDevicePhyStartSending, ne_eq, heq, not_true_eq_false, if_false]
    · intro tag htag
      simp only [OnEndDevicePhyStartSending, ne_eq, heq, not_true_eq_false, if_false, htag, hsf]
    · intro htag
      simp only [OnEndDevicePhyStartSending, ne_eq, heq, not_true_eq_false, if_false, htag]

/-- Witness of C22: with device 2 the furthest, an SF9 uplink of device 1 changes nothing,
and the same uplink of device 2 adds its airtime at SF9. -/
theorem endDevice_airtime_furthest_only_witness :
    OnEndDeviceSentNewPacket 1 3 (uplink 9 1) { Globals.initial with furthestDeviceIndex := 2 } =
      { Globals.initial with furthestDeviceIndex := 2 } ∧
    OnEndDevicePhyStartSending 2 (uplink 9 1) 3
        { Globals.initial with furthestDeviceIndex := 2 } =
      { Globals.initial with
        furthestDeviceIndex := 2
        totalEndDeviceToA := 0 + CalculateTimeOnAir 25 9 125000 1 true true 8 } :=
  ⟨((endDevice_airtime_furthest_only 1 3 (uplink 9 1)
      { Globals.initial with furthestDeviceIndex := 2 }).1 (by decide)).2,
    (endDevice_airtime_furthest_only 2 3 (uplink 9 1)
      { Globals.initial with furthestDeviceIndex := 2 }).2 rfl |>.2.2.1
        { spreadingFactor := 9, frequency := 0 } rfl⟩

/-! ## Airtime calculator: the final guard -/

/-- The half `toa < 0` of the guard of line 121 never replaces the computed value: in
exact arithmetic `CalculateTimeOnAir` returns its local `toa`, which is at least
`(nPreamble + 12.25) * Ts`, with `Ts` positive. -/
theorem airtime_eq_toa (payloadSize sf : Nat) (bandwidthHz : ℚ) (codingRate : Nat)
    (crcEnabled headerEnabled : Bool) (nPreamble : Nat) :
    0 < CalculateTimeOnAir.Ts sf bandwidthHz ∧
    ((nPreamble : ℚ) + 12.25) * CalculateTimeOnAir.Ts sf bandwidthHz ≤
      CalculateTimeOnAir.toa payloadSize sf bandwidthHz codingRate crcEnabled headerEnabled
        nPreamble ∧
    CalculateTimeOnAir payloadSize sf bandwidthHz codingRate crcEnabled headerEnabled nPreamble =
      CalculateTimeOnAir.toa payloadSize sf bandwidthHz codingRate crcEnabled headerEnabled
        nPreamble := by
  have hbw : (0 : ℚ) < (if bandwidthHz ≤ 0 then 125000 else bandwidthHz) := by
    split
    · norm_num
    · linarith
  have hTs : 0 < CalculateTimeOnAir.Ts sf bandwidthHz := by
    unfold CalculateTimeOnAir.Ts
    simp only []
    rw [Nat.one_shiftLeft]
    positivity
  have hguard : CalculateTimeOnAir payloadSize sf bandwidthHz codingRate crcEnabled
      headerEnabled nPreamble =
      if CalculateTimeOnAir.toa payloadSize sf bandwidthHz codingRate crcEnabled headerEnabled
        nPreamble < 0 then 0
      else CalculateTimeOnAir.toa payloadSize sf bandwidthHz codingRate crcEnabled
        headerEnabled nPreamble := rfl
  have hlow : ((nPreamble : ℚ) + 12.25) * CalculateTimeOnAir.Ts sf bandwidthHz ≤
      CalculateTimeOnAir.toa payloadSize sf bandwidthHz codingRate crcEnabled headerEnabled
        nPreamble := by
    have hsplit : ∀ m : ℚ, 0 ≤ m →
        ((nPreamble : ℚ) + 12.25) * CalculateTimeOnAir.Ts sf bandwidthHz ≤
          ((nPreamble : ℚ) + 4.25) * CalculateTimeOnAir.Ts sf bandwidthHz +
            (8 + m) * CalculateTimeOnAir.Ts sf bandwidthHz := by
      intro m hm
      nlinarith [mul_nonneg hm hTs.le]
    exact hsplit _ (le_max_right _ _)
  have hpre : (0 : ℚ) < (nPreamble : ℚ) + 12.25 := by positivity
  have hpos : 0 < CalculateTimeOnAir.toa payloadSize sf bandwidthHz codingRate crcEnabled
      headerEnabled nPreamble := lt_of_lt_of_le (mul_pos hpre hTs) hlow
  exact ⟨hTs, hlow, by rw [hguard, if_neg (not_lt.mpr hpos.le)]⟩

/-! ## Airtime calculator: the finiteness test -/

/-- The guarded function returns `toa` when `toa` is at most the largest finite `double`,
and 0 otherwise; `toa` itself is positive. -/
theorem guarded_eq (payloadSize sf : Nat) (bandwidthHz : ℚ) (codingRate : Nat)
    (crcEnabled headerEnabled : Bool) (nPreamble : Nat) :
    0 < CalculateTimeOnAir.toa payloadSize sf bandwidthHz codingRate crcEnabled headerEnabled
        nPreamble ∧
    CalculateTimeOnAir.guarded payloadSize sf bandwidthHz codingRate crcEnabled headerEnabled
        nPreamble =
      if CalculateTimeOnAir.toa payloadSize sf bandwidthHz codingRate crcEnabled headerEnabled
          nPreamble ≤ DBL_MAX
      then CalculateTimeOnAir.toa payloadSize sf bandwidthHz codingRate crcEnabled
          headerEnabled nPreamble
      else 0 := by
  obtain ⟨hTs, hlow, -⟩ :=
    airtime_eq_toa payloadSize sf bandwidthHz codingRate crcEnabled headerEnabled nPreamble
  have hpre : (0 : ℚ) < (nPreamble : ℚ) + 12.25 := by positivity
  have hpos : 0 < CalculateTimeOnAir.toa payloadSize sf bandwidthHz codingRate crcEnabled
      headerEnabled nPreamble := lt_of_lt_of_le (mul_pos hpre hTs) hlow
  refine ⟨hpos, ?_⟩
  unfold CalculateTimeOnAir.guarded isfinite
  simp only [decide_eq_true_eq, abs_of_pos hpos]
  by_cases h : CalculateTimeOnAir.toa payloadSize sf bandwidthHz codingRate crcEnabled
      headerEnabled nPreamble ≤ DBL_MAX
  · rw [if_pos h, if_neg]
    rintro (h' | h')
    · exact h' h
    · exact absurd hpos (not_lt.mpr h'.le)
  · rw [if_neg h, if_pos (Or.inl h)]

/-- The largest finite `double` lies between `2 ^ 1023` and `2 ^ 1024`. -/
theorem DBL_MAX_bounds : (2 : ℚ) ^ 1023 ≤ DBL_MAX ∧ DBL_MAX < 2 ^ 1024 := by
  unfold DBL_MAX
  constructor
  · have : (2 : ℚ) ^ 1023 = 2 ^ 52 * 2 ^ 971 := by rw [← pow_add]
    rw [this]
    gcongr
    norm_num
  · have : (2 : ℚ) ^ 1024 = 2 ^ 53 * 2 ^ 971 := by rw [← pow_add]
    rw [this]
    gcongr
    norm_num

/-- A crude bound on preamble plus payload duration. -/
theorem toa_bound_aux (n Ts M : ℚ) (h1 : 0 ≤ n) (h2 : n ≤ 255) (h3 : 0 < Ts) (h4 : Ts ≤ 4096)
    (h5 : 0 ≤ M) (h6 : M ≤ 2 ^ 41) :
    (n + (4.25 : ℚ)) * Ts + ((8 : ℚ) + M) * Ts ≤ 2 ^ 55 := by
  have hK : n + 4.25 + (8 + M) ≤ 2 ^ 42 := by norm_num at h6 ⊢; linarith
  have hK0 : 0 ≤ n + 4.25 + (8 + M) := by positivity
  calc (n + (4.25 : ℚ)) * Ts + ((8 : ℚ) + M) * Ts = (n + 4.25 + (8 + M)) * Ts := by ring
    _ ≤ 2 ^ 42 * 4096 := mul_le_mul hK h4 h3.le (by positivity)
    _ ≤ 2 ^ 55 := by norm_num

/-- With a bandwidth of at least 1 Hz (or an invalid one, replaced by 125 kHz), a payload
size below `2 ^ 32` and a coding rate and preamble length below 256, as their C++ types
have them, `toa` is below `2 ^ 55`, far from the range where a `double` overflows. -/
theorem toa_le_of_range (payloadSize sf : Nat) (bandwidthHz : ℚ) (codingRate : Nat)
    (crcEnabled headerEnabled : Bool) (nPreamble : Nat)
    (hbw : bandwidthHz ≤ 0 ∨ 1 ≤ bandwidthHz) (hp : payloadSize < UINT32_MOD)
    (hcr : codingRate < 256) (hn : nPreamble < 256) :
    CalculateTimeOnAir.toa payloadSize sf bandwidthHz codingRate crcEnabled headerEnabled
      nPreamble ≤ 2 ^ 55 := by
  have hbw' : (1 : ℚ) ≤ (if bandwidthHz ≤ 0 then 125000 else bandwidthHz) := by
    split
    · norm_num
    · rcases hbw with h | h
      · contradiction
      · exact h
  have hsf' : (if sf < 7 ∨ sf > 12 then 7 else sf) ≤ 12 := by split <;> omega
  have hTs0 : (0 : ℚ) <
      ((1 <<< (if sf < 7 ∨ sf > 12 then 7 else sf) : Nat) : ℚ) /
        (if bandwidthHz ≤ 0 then 125000 else bandwidthHz) := by
    rw [Nat.one_shiftLeft]
    positivity
  have hTs : ((1 <<< (if sf < 7 ∨ sf > 12 then 7 else sf) : Nat) : ℚ) /
        (if bandwidthHz ≤ 0 then 125000 else bandwidthHz) ≤ 4096 := by
    rw [Nat.one_shiftLeft, div_le_iff₀ (by linarith)]
    have h2 : ((2 ^ (if sf < 7 ∨ sf > 12 then 7 else sf) : Nat) : ℚ) ≤ 4096 := by
      have : 2 ^ (if sf < 7 ∨ sf > 12 then 7 else sf) ≤ 2 ^ 12 :=
        Nat.pow_le_pow_right (by norm_num) hsf'
      exact_mod_cast this
    nlinarith
  have hd := airtime_divisor_pos sf
  have hd28 : (28 : ℚ) ≤ 4 * ((((if sf < 7 ∨ sf > 12 then 7 else sf : Nat) : Int) -
      2 * (if (if sf < 7 ∨ sf > 12 then 7 else sf) ≥ 11 then 1 else 0) : Int) : ℚ) := by
    have h : (7 : Int) ≤ ((if sf < 7 ∨ sf > 12 then 7 else sf : Nat) : Int) -
        2 * (if (if sf < 7 ∨ sf > 12 then 7 else sf) ≥ 11 then 1 else 0) := by
      split <;> split <;> omega
    have h' : (7 : ℚ) ≤ (((if sf < 7 ∨ sf > 12 then 7 else sf : Nat) : Int) -
        2 * (if (if sf < 7 ∨ sf > 12 then 7 else sf) ≥ 11 then 1 else 0) : Int) := by
      exact_mod_cast h
    linarith
  have hN : (8 * (payloadSize : ℚ) - 4 * ((if sf < 7 ∨ sf > 12 then 7 else sf : Nat) : ℚ) + 28
      + ((16 * (if crcEnabled then 1 else 0) : Int) : ℚ)
      - ((20 * (if headerEnabled then 0 else 1) : Int) : ℚ)) ≤ 2 ^ 36 := by
    have hp' : (payloadSize : ℚ) ≤ 4294967296 := by
      have : payloadSize ≤ 4294967296 := by unfold UINT32_MOD at hp; omega
      exact_mod_cast this
    have h0 : (0 : ℚ) ≤ ((if sf < 7 ∨ sf > 12 then 7 else sf : Nat) : ℚ) := Nat.cast_nonneg _
    have hc : (((16 * (if crcEnabled then 1 else 0) : Int) : ℚ)) ≤ 16 := by
      cases crcEnabled <;> norm_num
    have hh : (0 : ℚ) ≤ (((20 * (if headerEnabled then 0 else 1) : Int) : ℚ)) := by
      cases headerEnabled <;> norm_num
    rw [show (2 : ℚ) ^ 36 = 68719476736 by norm_num]
    linarith
  have hx : (8 * (payloadSize : ℚ) - 4 * ((if sf < 7 ∨ sf > 12 then 7 else sf : Nat) : ℚ) + 28
      + ((16 * (if crcEnabled then 1 else 0) : Int) : ℚ)
      - ((20 * (if headerEnabled then 0 else 1) : Int) : ℚ)) /
      (4 * ((((if sf < 7 ∨ sf > 12 then 7 else sf : Nat) : Int) -
        2 * (if (if sf < 7 ∨ sf > 12 then 7 else sf) ≥ 11 then 1 else 0) : Int) : ℚ)) ≤
      ((2 ^ 32 : Int) : ℚ) := by
    rw [div_le_iff₀ hd]
    have e32 : (((2 ^ 32 : Int)) : ℚ) = 4294967296 := by norm_num
    rw [e32]
    rw [show (2 : ℚ) ^ 36 = 68719476736 by norm_num] at hN
    linarith
  have hceil := Int.ceil_le.mpr hx
  have hcr' : (0 : ℚ) ≤ (((codingRate : Int) + 4 : Int) : ℚ) ∧
      (((codingRate : Int) + 4 : Int) : ℚ) ≤ 259 := by
    have h1 : (0 : Int) ≤ (codingRate : Int) + 4 := by omega
    have h2 : (codingRate : Int) + 4 ≤ 259 := by omega
    exact ⟨by exact_mod_cast h1, by exact_mod_cast h2⟩
  have hn' : (0 : ℚ) ≤ (nPreamble : ℚ) ∧ (nPreamble : ℚ) ≤ 255 := by
    refine ⟨Nat.cast_nonneg _, ?_⟩
    have : nPreamble ≤ 255 := by omega
    exact_mod_cast this
  unfold CalculateTimeOnAir.toa
  simp only []
  refine toa_bound_aux _ _ _ hn'.1 hn'.2 hTs0 hTs (le_max_right _ _) (max_le ?_ (by positivity))
  have hceilq : ((⌈(8 * (payloadSize : ℚ) - 4 * ((if sf < 7 ∨ sf > 12 then 7 else sf : Nat) : ℚ)
      + 28 + ((16 * (if crcEnabled then 1 else 0) : Int) : ℚ)
      - ((20 * (if headerEnabled then 0 else 1) : Int) : ℚ)) /
      (4 * ((((if sf < 7 ∨ sf > 12 then 7 else sf : Nat) : Int) -
        2 * (if (if sf < 7 ∨ sf > 12 then 7 else sf) ≥ 11 then 1 else 0) : Int) : ℚ))⌉ : Int) : ℚ)
      ≤ 2 ^ 32 := by
    have := (Int.cast_le (R := ℚ)).mpr hceil
    simpa using this
  rcases le_total ((⌈(8 * (payloadSize : ℚ) - 4 * ((if sf < 7 ∨ sf > 12 then 7 else sf : Nat) : ℚ)
      + 28 + ((16 * (if crcEnabled then 1 else 0) : Int) : ℚ)
      - ((20 * (if headerEnabled then 0 else 1) : Int) : ℚ)) /
      (4 * ((((if sf < 7 ∨ sf > 12 then 7 else sf : Nat) : Int) -
        2 * (if (if sf < 7 ∨ sf > 12 then 7 else sf) ≥ 11 then 1 else 0) : Int) : ℚ))⌉ : Int) : ℚ)
      0 with hneg | hnn
  · exact le_trans (mul_nonpos_of_nonpos_of_nonneg hneg hcr'.1) (by positivity)
  · calc _ ≤ (2 : ℚ) ^ 32 * 259 := mul_le_mul hceilq hcr'.2 hcr'.1 (by positivity)
      _ ≤ 2 ^ 41 := by norm_num

/-- The value of `toa` at SF7 and a bandwidth of `2 ^ (-1000)` Hz: `60.25 * 2 ^ 1007` for
24 bytes, and `6135667590.25 * 2 ^ 1007` for the largest payload size. -/
theorem toa_tiny_bandwidth :
    CalculateTimeOnAir.toa 24 7 (1 / 2 ^ 1000) 1 true true 8 = 241 * 2 ^ 1005 ∧
    CalculateTimeOnAir.toa 4294967295 7 (1 / 2 ^ 1000) 1 true true 8 =
      24542670361 * 2 ^ 1005 := by
  have hc1 : (⌈(52 : ℚ) / 7⌉ : Int) = 8 := by rw [Int.ceil_eq_iff]; norm_num
  have hc2 : (⌈(8589934594 : ℚ) / 7⌉ : Int) = 1227133514 := by
    rw [Int.ceil_eq_iff]; norm_num
  constructor
  · norm_num [CalculateTimeOnAir.toa, Nat.one_shiftLeft, hc1]
  · norm_num [CalculateTimeOnAir.toa, Nat.one_shiftLeft, hc2]

/-- On a value of `toa` that leaves a factor of two to the largest finite `double`, and so
is finite however the `double` operations round, the guarded function returns `toa`; on a
value of `2 ^ 1025` or more it returns 0. -/
theorem guarded_margins (payloadSize sf : Nat) (bandwidthHz : ℚ) (codingRate : Nat)
    (crcEnabled headerEnabled : Bool) (nPreamble : Nat) :
    (CalculateTimeOnAir.toa payloadSize sf bandwidthHz codingRate crcEnabled headerEnabled
        nPreamble ≤ 2 ^ 1023 →
      CalculateTimeOnAir.guarded payloadSize sf bandwidthHz codingRate crcEnabled headerEnabled
        nPreamble =
      CalculateTimeOnAir.toa payloadSize sf bandwidthHz codingRate crcEnabled headerEnabled
        nPreamble) ∧
    (2 ^ 1025 ≤ CalculateTimeOnAir.toa payloadSize sf bandwidthHz codingRate crcEnabled
        headerEnabled nPreamble →
      CalculateTimeOnAir.guarded payloadSize sf bandwidthHz codingRate crcEnabled headerEnabled
        nPreamble = 0) := by
  obtain ⟨-, e⟩ :=
    guarded_eq payloadSize sf bandwidthHz codingRate crcEnabled headerEnabled nPreamble
  obtain ⟨hlo, hhi⟩ := DBL_MAX_bounds
  refine ⟨fun h => ?_, fun h => ?_⟩
  · rw [e, if_pos (le_trans h hlo)]
  · have h24 : (2 : ℚ) ^ 1024 ≤ 2 ^ 1025 := pow_le_pow_right₀ (by norm_num) (by norm_num)
    rw [e, if_neg (not_le.mpr (lt_of_lt_of_le hhi (le_trans h24 h)))]

/-- The guarded function and the exact one agree wherever `toa` is at most `2 ^ 1023`, and
so at every bandwidth of at least 1 Hz (or an invalid one, replaced by 125 kHz) with a
payload size below `2 ^ 32` and a coding rate and preamble length below 256: there the
finiteness test of line 121 does not fire. -/
theorem guarded_eq_exact (payloadSize sf : Nat) (bandwidthHz : ℚ) (codingRate : Nat)
    (crcEnabled headerEnabled : Bool) (nPreamble : Nat) :
    (CalculateTimeOnAir.toa payloadSize sf bandwidthHz codingRate crcEnabled headerEnabled
        nPreamble ≤ 2 ^ 1023 →
      CalculateTimeOnAir.guarded payloadSize sf bandwidthHz codingRate crcEnabled headerEnabled
          nPreamble =
        CalculateTimeOnAir payloadSize sf bandwidthHz codingRate crcEnabled headerEnabled
          nPreamble) ∧
    ((bandwidthHz ≤ 0 ∨ 1 ≤ bandwidthHz) → payloadSize < UINT32_MOD → codingRate < 256 →
        nPreamble < 256 →
      CalculateTimeOnAir.guarded payloadSize sf bandwidthHz codingRate crcEnabled headerEnabled
          nPreamble =
        CalculateTimeOnAir payloadSize sf bandwidthHz codingRate crcEnabled headerEnabled
          nPreamble) := by
  obtain ⟨m1, -⟩ := guarded_margins payloadSize sf bandwidthHz codingRate crcEnabled
    headerEnabled nPreamble
  have heq := (airtime_eq_toa payloadSize sf bandwidthHz codingRate crcEnabled headerEnabled
    nPreamble).2.2
  refine ⟨fun h => by rw [m1 h, heq], fun hbw hp hcr hn => ?_⟩
  have := toa_le_of_range payloadSize sf bandwidthHz codingRate crcEnabled headerEnabled
    nPreamble hbw hp hcr hn
  rw [m1 (le_trans this (pow_le_pow_right₀ (by norm_num) (by norm_num))), heq]

/-- At the tiny bandwidth `2 ^ (-1000)` Hz the airtime of 24 bytes is finite and returned,
and the airtime of the largest payload size overflows, so that 0 is returned. -/
theorem guarded_tiny_bandwidth :
    CalculateTimeOnAir.guarded 24 7 (1 / 2 ^ 1000) 1 true true 8 = 241 * 2 ^ 1005 ∧
    CalculateTimeOnAir.guarded 4294967295 7 (1 / 2 ^ 1000) 1 true true 8 = 0 := by
  obtain ⟨e1, e2⟩ := toa_tiny_bandwidth
  have m1 := (guarded_margins 24 7 (1 / 2 ^ 1000) 1 true true 8).1
  have m2 := (guarded_margins 4294967295 7 (1 / 2 ^ 1000) 1 true true 8).2
  rw [e1] at m1
  rw [e2] at m2
  refine ⟨m1 ?_, m2 ?_⟩
  · have : (2 : ℚ) ^ 1023 = 2 ^ 18 * 2 ^ 1005 := by rw [← pow_add]
    rw [this]
    gcongr
    norm_num
  · have : (2 : ℚ) ^ 1025 = 2 ^ 20 * 2 ^ 1005 := by rw [← pow_add]
    rw [this]
    gcongr
    norm_num

/-- C1, as stated, fails where the `double` computation overflows: at SF7, a bandwidth of
`2 ^ (-1000)` Hz and the largest payload size, inside the claim's domain, the formula has
a positive value, about `8.4 * 10 ^ 312`, and `CalculateTimeOnAir` returns 0, because the
test `!std::isfinite(toa)` of line 121 fires. -/
theorem CalculateTimeOnAir_formula_fails_on_overflow :
    (7 ≤ 7 ∧ 7 ≤ 12) ∧ (0 : ℚ) < 1 / 2 ^ 1000 ∧
    CalculateTimeOnAir.guarded 4294967295 7 (1 / 2 ^ 1000) 1 true true 8 ≠
      (((8 : Nat) : ℚ) + 4.25) * ((2 : ℚ) ^ 7 / (1 / 2 ^ 1000)) +
      (8 + max 0
        (((⌈(8 * ((4294967295 : Nat) : ℚ) - 4 * ((7 : Nat) : ℚ) + 28 + 16 * 1 - 20 * 0)
            / (4 * (((7 : Nat) : ℚ) - 2 * 0))⌉ : Int) : ℚ)
          * (((1 : Nat) : ℚ) + 4))) * ((2 : ℚ) ^ 7 / (1 / 2 ^ 1000)) := by
  refine ⟨by decide, by positivity, ?_⟩
  rw [guarded_tiny_bandwidth.2]
  have hmax : (0 : ℚ) ≤ max 0
      (((⌈(8 * ((4294967295 : Nat) : ℚ) - 4 * ((7 : Nat) : ℚ) + 28 + 16 * 1 - 20 * 0)
          / (4 * (((7 : Nat) : ℚ) - 2 * 0))⌉ : Int) : ℚ)
        * (((1 : Nat) : ℚ) + 4)) := le_max_left _ _
  have hTs : (0 : ℚ) < (2 : ℚ) ^ 7 / (1 / 2 ^ 1000) := by positivity
  have hpre : (0 : ℚ) < ((8 : Nat) : ℚ) + 4.25 := by positivity
  exact (add_pos_of_pos_of_nonneg (mul_pos hpre hTs)
    (mul_nonneg (add_nonneg (by norm_num) hmax) hTs.le)).ne

/-- C1, amended: for a spreading factor in 7..12 and a positive bandwidth, let `F` be
`(nPreamble + 4.25) * Ts + (8 + max 0 (ceil(...) * (codingRate + 4))) * Ts` with
`Ts = 2 ^ sf / bandwidthHz`, in exact arithmetic. `CalculateTimeOnAir` returns exactly `F`
whenever `F` is at most `2 ^ 1023`, and so is finite as a `double`; this is so for every
bandwidth of at least 1 Hz with a payload size below `2 ^ 32` and a coding rate and
preamble length below 256, hence at every call site. When `F` is `2 ^ 1025` or more the
computation overflows and the function returns 0. -/
theorem CalculateTimeOnAir_guarded_eq_formula (payloadSize sf : Nat) (bandwidthHz : ℚ)
    (codingRate : Nat) (crcEnabled headerEnabled : Bool) (nPreamble : Nat) (F : ℚ)
    (hsf : 7 ≤ sf ∧ sf ≤ 12) (hbw : 0 < bandwidthHz)
    (hF : F = ((nPreamble : ℚ) + 4.25) * ((2 : ℚ) ^ sf / bandwidthHz) +
      (8 + max 0
        (((⌈(8 * (payloadSize : ℚ) - 4 * (sf : ℚ) + 28 + 16 * (if crcEnabled then 1 else 0)
              - 20 * (if headerEnabled then 0 else 1))
            / (4 * ((sf : ℚ) - 2 * (if 11 ≤ sf then 1 else 0)))⌉ : Int) : ℚ)
          * ((codingRate : ℚ) + 4))) * ((2 : ℚ) ^ sf / bandwidthHz)) :
    (F ≤ 2 ^ 1023 →
      CalculateTimeOnAir.guarded payloadSize sf bandwidthHz codingRate crcEnabled headerEnabled
        nPreamble = F) ∧
    (2 ^ 1025 ≤ F →
      CalculateTimeOnAir.guarded payloadSize sf bandwidthHz codingRate crcEnabled headerEnabled
        nPreamble = 0) ∧
    (1 ≤ bandwidthHz → payloadSize < UINT32_MOD → codingRate < 256 → nPreamble < 256 →
      CalculateTimeOnAir.guarded payloadSize sf bandwidthHz codingRate crcEnabled headerEnabled
        nPreamble = F) := by
  have hexact : CalculateTimeOnAir.toa payloadSize sf bandwidthHz codingRate crcEnabled
      headerEnabled nPreamble = F := by
    rw [hF, ← (airtime_eq_toa payloadSize sf bandwidthHz codingRate crcEnabled headerEnabled
      nPreamble).2.2]
    exact CalculateTimeOnAir_eq_formula payloadSize sf bandwidthHz codingRate crcEnabled
      headerEnabled nPreamble hsf hbw
  obtain ⟨m1, m2⟩ := guarded_margins payloadSize sf bandwidthHz codingRate crcEnabled
    headerEnabled nPreamble
  rw [hexact] at m1 m2
  refine ⟨m1, m2, fun h1 hp hcr hn => m1 ?_⟩
  have := toa_le_of_range payloadSize sf bandwidthHz codingRate crcEnabled headerEnabled
    nPreamble (Or.inr h1) hp hcr hn
  rw [hexact] at this
  exact le_trans this (pow_le_pow_right₀ (by norm_num) (by norm_num))

/-- Witness of C1, amended: 24 bytes at SF7 and 125 kHz, where the formula gives
`964 / 15625` s. -/
theorem CalculateTimeOnAir_guarded_eq_formula_witness :
    CalculateTimeOnAir.guarded 24 7 125000 1 true true 8 = 964 / 15625 :=
  (CalculateTimeOnAir_guarded_eq_formula 24 7 125000 1 true true 8 (964 / 15625)
    (by decide) (by norm_num)
    (by
      have hc : (⌈(52 : ℚ) / 7⌉ : Int) = 8 := by rw [Int.ceil_eq_iff]; norm_num
      norm_num [hc])).2.2 (by norm_num) (by decide) (by decide) (by decide)

/-- C11, as stated, fails where the larger payload overflows: at SF7 and a bandwidth of
`2 ^ (-1000)` Hz, 24 bytes take `60.25 * 2 ^ 1007` s and the largest payload size gives
0. -/
theorem CalculateTimeOnAir_not_mono_on_overflow :
    (24 : Nat) ≤ 4294967295 ∧
    ¬ (CalculateTimeOnAir.guarded 24 7 (1 / 2 ^ 1000) 1 true true 8 ≤
      CalculateTimeOnAir.guarded 4294967295 7 (1 / 2 ^ 1000) 1 true true 8) := by
  refine ⟨by decide, ?_⟩
  rw [guarded_tiny_bandwidth.1, guarded_tiny_bandwidth.2, not_le]
  positivity

/-- C11, amended: with all other arguments fixed and `p1 <= p2`, `CalculateTimeOnAir`
returns no more for `p1` than for `p2` whenever the airtime of `p2` is at most `2 ^ 1023`,
and so finite as a `double`; this is so for every bandwidth of at least 1 Hz (and for an
invalid one, replaced by 125 kHz) with `p2` below `2 ^ 32` and a coding rate and preamble
length below 256. In every case the result for `p1` is at most that for `p2`, or the
result for `p2` is the 0 of an overflow. -/
theorem CalculateTimeOnAir_guarded_mono_payload (p1 p2 sf : Nat) (bandwidthHz : ℚ)
    (codingRate : Nat) (crcEnabled headerEnabled : Bool) (nPreamble : Nat) (hp : p1 ≤ p2) :
    (CalculateTimeOnAir.toa p2 sf bandwidthHz codingRate crcEnabled headerEnabled nPreamble
        ≤ 2 ^ 1023 →
      CalculateTimeOnAir.guarded p1 sf bandwidthHz codingRate crcEnabled headerEnabled
          nPreamble ≤
        CalculateTimeOnAir.guarded p2 sf bandwidthHz codingRate crcEnabled headerEnabled
          nPreamble) ∧
    ((bandwidthHz ≤ 0 ∨ 1 ≤ bandwidthHz) → p2 < UINT32_MOD → codingRate < 256 →
        nPreamble < 256 →
      CalculateTimeOnAir.guarded p1 sf bandwidthHz codingRate crcEnabled headerEnabled
          nPreamble ≤
        CalculateTimeOnAir.guarded p2 sf bandwidthHz codingRate crcEnabled headerEnabled
          nPreamble) ∧
    (CalculateTimeOnAir.guarded p1 sf bandwidthHz codingRate crcEnabled headerEnabled
          nPreamble ≤
        CalculateTimeOnAir.guarded p2 sf bandwidthHz codingRate crcEnabled headerEnabled
          nPreamble ∨
      CalculateTimeOnAir.guarded p2 sf bandwidthHz codingRate crcEnabled headerEnabled
          nPreamble = 0) := by
  have hmono : CalculateTimeOnAir.toa p1 sf bandwidthHz codingRate crcEnabled headerEnabled
      nPreamble ≤
      CalculateTimeOnAir.toa p2 sf bandwidthHz codingRate crcEnabled headerEnabled
        nPreamble := by
    rw [← (airtime_eq_toa p1 sf bandwidthHz codingRate crcEnabled headerEnabled nPreamble).2.2,
      ← (airtime_eq_toa p2 sf bandwidthHz codingRate crcEnabled headerEnabled nPreamble).2.2]
    exact CalculateTimeOnAir_mono_payload p1 p2 sf bandwidthHz codingRate crcEnabled
      headerEnabled nPreamble hp
  obtain ⟨-, e1⟩ := guarded_eq p1 sf bandwidthHz codingRate crcEnabled headerEnabled nPreamble
  obtain ⟨-, e2⟩ := guarded_eq p2 sf bandwidthHz codingRate crcEnabled headerEnabled nPreamble
  have key : CalculateTimeOnAir.toa p2 sf bandwidthHz codingRate crcEnabled headerEnabled
      nPreamble ≤ DBL_MAX →
      CalculateTimeOnAir.guarded p1 sf bandwidthHz codingRate crcEnabled headerEnabled
          nPreamble ≤
        CalculateTimeOnAir.guarded p2 sf bandwidthHz codingRate crcEnabled headerEnabled
          nPreamble := by
    intro h
    rw [e1, e2, if_pos h, if_pos (le_trans hmono h)]
    exact hmono
  refine ⟨fun h => key (le_trans h DBL_MAX_bounds.1), fun hbw hp2 hcr hn => ?_, ?_⟩
  · have := toa_le_of_range p2 sf bandwidthHz codingRate crcEnabled headerEnabled nPreamble
      hbw hp2 hcr hn
    exact key (le_trans this (le_trans (pow_le_pow_right₀ (by norm_num) (by norm_num))
      DBL_MAX_bounds.1))
  · by_cases h : CalculateTimeOnAir.toa p2 sf bandwidthHz codingRate crcEnabled headerEnabled
        nPreamble ≤ DBL_MAX
    · exact Or.inl (key h)
    · exact Or.inr (by rw [e2, if_neg h])

/-- Witness of C11, amended: 10 bytes against 24 bytes at SF7 and 125 kHz. -/
theorem CalculateTimeOnAir_guarded_mono_payload_witness :
    CalculateTimeOnAir.guarded 10 7 125000 1 true true 8 ≤
      CalculateTimeOnAir.guarded 24 7 125000 1 true true 8 :=
  (CalculateTimeOnAir_guarded_mono_payload 10 24 7 125000 1 true true 8 (by decide)).2.1
    (Or.inr (by norm_num)) (by decide) (by decide) (by decide)

/-- C26, as stated, fails: the invalid-result branch is reached, by its other half. At SF7,
a bandwidth of `2 ^ (-1000)` Hz and the largest payload size, `toa` is not finite as a
`double`, and `CalculateTimeOnAir` returns 0. -/
theorem CalculateTimeOnAir_returns_0_on_overflow :
    isfinite (CalculateTimeOnAir.toa 4294967295 7 (1 / 2 ^ 1000) 1 true true 8) = false ∧
    CalculateTimeOnAir.guarded 4294967295 7 (1 / 2 ^ 1000) 1 true true 8 = 0 := by
  refine ⟨?_, guarded_tiny_bandwidth.2⟩
  rw [toa_tiny_bandwidth.2]
  unfold isfinite
  rw [decide_eq_false_iff_not, not_le, abs_of_pos (by positivity)]
  refine lt_of_lt_of_le DBL_MAX_bounds.2 ?_
  have : (2 : ℚ) ^ 1024 = 2 ^ 19 * 2 ^ 1005 := by rw [← pow_add]
  rw [this]
  gcongr
  norm_num

/-- C26, amended: the half `toa < 0` of the guard is unreachable: for every input the
symbol duration `Ts` is positive and `toa` is at least `(nPreamble + 12.25) * Ts`, hence
positive. The half `!std::isfinite(toa)` is reached by overflow only: the function
returns `toa`, not 0, whenever `toa` is at most `2 ^ 1023`, as it is for every bandwidth
of at least 1 Hz (and for an invalid one, replaced by 125 kHz) with a payload size below
`2 ^ 32` and a coding rate and preamble length below 256; it returns 0 when `toa` is
`2 ^ 1025` or more. -/
theorem CalculateTimeOnAir_guard_overflow_only (payloadSize sf : Nat) (bandwidthHz : ℚ)
    (codingRate : Nat) (crcEnabled headerEnabled : Bool) (nPreamble : Nat) :
    0 < CalculateTimeOnAir.Ts sf bandwidthHz ∧
    ((nPreamble : ℚ) + 12.25) * CalculateTimeOnAir.Ts sf bandwidthHz ≤
      CalculateTimeOnAir.toa payloadSize sf bandwidthHz codingRate crcEnabled headerEnabled
        nPreamble ∧
    0 < CalculateTimeOnAir.toa payloadSize sf bandwidthHz codingRate crcEnabled headerEnabled
        nPreamble ∧
    ¬ (CalculateTimeOnAir.toa payloadSize sf bandwidthHz codingRate crcEnabled headerEnabled
        nPreamble < 0) ∧
    (CalculateTimeOnAir.toa payloadSize sf bandwidthHz codingRate crcEnabled headerEnabled
        nPreamble ≤ 2 ^ 1023 →
      CalculateTimeOnAir.guarded payloadSize sf bandwidthHz codingRate crcEnabled headerEnabled
          nPreamble =
        CalculateTimeOnAir.toa payloadSize sf bandwidthHz codingRate crcEnabled headerEnabled
          nPreamble ∧
      CalculateTimeOnAir.guarded payloadSize sf bandwidthHz codingRate crcEnabled headerEnabled
          nPreamble ≠ 0) ∧
    (2 ^ 1025 ≤ CalculateTimeOnAir.toa payloadSize sf bandwidthHz codingRate crcEnabled
        headerEnabled nPreamble →
      CalculateTimeOnAir.guarded payloadSize sf bandwidthHz codingRate crcEnabled headerEnabled
        nPreamble = 0) ∧
    ((bandwidthHz ≤ 0 ∨ 1 ≤ bandwidthHz) → payloadSize < UINT32_MOD → codingRate < 256 →
        nPreamble < 256 →
      CalculateTimeOnAir.guarded payloadSize sf bandwidthHz codingRate crcEnabled headerEnabled
        nPreamble ≠ 0) := by
  obtain ⟨hTs, hlow, -⟩ :=
    airtime_eq_toa payloadSize sf bandwidthHz codingRate crcEnabled headerEnabled nPreamble
  obtain ⟨hpos, -⟩ :=
    guarded_eq payloadSize sf bandwidthHz codingRate crcEnabled headerEnabled nPreamble
  obtain ⟨m1, m2⟩ := guarded_margins payloadSize sf bandwidthHz codingRate crcEnabled
    headerEnabled nPreamble
  refine ⟨hTs, hlow, hpos, not_lt.mpr hpos.le, fun h => ⟨m1 h, by rw [m1 h]; exact hpos.ne'⟩,
    m2, fun hbw hp hcr hn => ?_⟩
  have := toa_le_of_range payloadSize sf bandwidthHz codingRate crcEnabled headerEnabled
    nPreamble hbw hp hcr hn
  rw [m1 (le_trans this (pow_le_pow_right₀ (by norm_num) (by norm_num)))]
  exact hpos.ne'

/-- Witness of C26, amended: 24 bytes at SF7 and 125 kHz do not give 0. -/
theorem CalculateTimeOnAir_guard_overflow_only_witness :
    CalculateTimeOnAir.guarded 24 7 125000 1 true true 8 ≠ 0 :=
  (CalculateTimeOnAir_guard_overflow_only 24 7 125000 1 true true 8).2.2.2.2.2.2
    (Or.inr (by norm_num)) (by decide) (by decide) (by decide)

/-! ## Airtime calculator: monotonicity in the spreading factor -/

/-- At the radio parameters of every call site the airtime is, for each spreading factor
in 7..12, the symbol duration times `20.25` plus five times the number of payload symbol
groups. -/
theorem airtime_at_call_site (p : Nat) :
    CalculateTimeOnAir p 7 125000 1 true true 8 =
      (128 / 125000) * (20.25 + max ((⌈(8 * (p : ℚ) + 16) / 28⌉ : ℚ) * 5) 0) ∧
    CalculateTimeOnAir p 8 125000 1 true true 8 =
      (256 / 125000) * (20.25 + max ((⌈(8 * (p : ℚ) + 12) / 32⌉ : ℚ) * 5) 0) ∧
    CalculateTimeOnAir p 9 125000 1 true true 8 =
      (512 / 125000) * (20.25 + max ((⌈(8 * (p : ℚ) + 8) / 36⌉ : ℚ) * 5) 0) ∧
    CalculateTimeOnAir p 10 125000 1 true true 8 =
      (1024 / 125000) * (20.25 + max ((⌈(8 * (p : ℚ) + 4) / 40⌉ : ℚ) * 5) 0) ∧
    CalculateTimeOnAir p 11 125000 1 true true 8 =
      (2048 / 125000) * (20.25 + max ((⌈(8 * (p : ℚ)) / 36⌉ : ℚ) * 5) 0) ∧
    CalculateTimeOnAir p 12 125000 1 true true 8 =
      (4096 / 125000) * (20.25 + max ((⌈(8 * (p : ℚ) - 4) / 40⌉ : ℚ) * 5) 0) := by
  refine ⟨?_, ?_, ?_, ?_, ?_, ?_⟩
  · rw [(airtime_eq_toa p 7 125000 1 true true 8).2.2]
    norm_num [CalculateTimeOnAir.toa, Nat.one_shiftLeft]
    ring
  · rw [(airtime_eq_toa p 8 125000 1 true true 8).2.2]
    norm_num [CalculateTimeOnAir.toa, Nat.one_shiftLeft]
    ring_nf
  · rw [(airtime_eq_toa p 9 125000 1 true true 8).2.2]
    norm_num [CalculateTimeOnAir.toa, Nat.one_shiftLeft]
    ring_nf
  · rw [(airtime_eq_toa p 10 125000 1 true true 8).2.2]
    norm_num [CalculateTimeOnAir.toa, Nat.one_shiftLeft]
    ring_nf
  · rw [(airtime_eq_toa p 11 125000 1 true true 8).2.2]
    norm_num [CalculateTimeOnAir.toa, Nat.one_shiftLeft]
    ring_nf
  · rw [(airtime_eq_toa p 12 125000 1 true true 8).2.2]
    norm_num [CalculateTimeOnAir.toa, Nat.one_shiftLeft]
    ring_nf

/-- The step behind C23: one more than a spreading factor in 7..11 gives a strictly
longer airtime. The symbol duration doubles, and the number of payload symbol groups
falls to no less than half of what it was, less two. -/
theorem airtime_sf_step (p : Nat) :
    CalculateTimeOnAir p 7 125000 1 true true 8 < CalculateTimeOnAir p 8 125000 1 true true 8 ∧
    CalculateTimeOnAir p 8 125000 1 true true 8 < CalculateTimeOnAir p 9 125000 1 true true 8 ∧
    CalculateTimeOnAir p 9 125000 1 true true 8 <
      CalculateTimeOnAir p 10 125000 1 true true 8 ∧
    CalculateTimeOnAir p 10 125000 1 true true 8 <
      CalculateTimeOnAir p 11 125000 1 true true 8 ∧
    CalculateTimeOnAir p 11 125000 1 true true 8 <
      CalculateTimeOnAir p 12 125000 1 true true 8 := by
  obtain ⟨e7, e8, e9, e10, e11, e12⟩ := airtime_at_call_site p
  have hp : (0 : ℚ) ≤ (p : ℚ) := Nat.cast_nonneg p
  have up : ∀ x : ℚ, -1 < x → max ((⌈x⌉ : ℚ) * 5) 0 < 5 * (x + 1) := fun x hx =>
    max_lt (by linarith [Int.ceil_lt_add_one x]) (by linarith)
  have low : ∀ x : ℚ, 5 * x ≤ max ((⌈x⌉ : ℚ) * 5) 0 := fun x =>
    le_trans (by linarith [Int.le_ceil x]) (le_max_left _ _)
  rw [e7, e8, e9, e10, e11, e12]
  refine ⟨?_, ?_, ?_, ?_, ?_⟩
  · have h1 := up ((8 * (p : ℚ) + 16) / 28) (by
      rw [lt_div_iff₀ (by norm_num)]; linarith)
    have h2 := low ((8 * (p : ℚ) + 12) / 32)
    linarith
  · have h1 := up ((8 * (p : ℚ) + 12) / 32) (by
      rw [lt_div_iff₀ (by norm_num)]; linarith)
    have h2 := low ((8 * (p : ℚ) + 8) / 36)
    linarith
  · have h1 := up ((8 * (p : ℚ) + 8) / 36) (by
      rw [lt_div_iff₀ (by norm_num)]; linarith)
    have h2 := low ((8 * (p : ℚ) + 4) / 40)
    linarith
  · have h1 := up ((8 * (p : ℚ) + 4) / 40) (by
      rw [lt_div_iff₀ (by norm_num)]; linarith)
    have h2 := low ((8 * (p : ℚ)) / 36)
    linarith
  · have h1 := up ((8 * (p : ℚ)) / 36) (by
      rw [lt_div_iff₀ (by norm_num)]; linarith)
    have h2 := low ((8 * (p : ℚ) - 4) / 40)
    linarith

/-- C23: at the radio parameters of every call site (125 kHz, coding rate 1, CRC, explicit
header, 8 preamble symbols) and for every payload size, `CalculateTimeOnAir` is strictly
increasing in the spreading factor over 7..12, the step from SF10 to SF11, where
low-data-rate optimisation turns on, included. -/
theorem CalculateTimeOnAir_strictMono_sf (p s1 s2 : Nat) (h1 : 7 ≤ s1) (h12 : s1 < s2)
    (h2 : s2 ≤ 12) :
    CalculateTimeOnAir p s1 125000 1 true true 8 <
      CalculateTimeOnAir p s2 125000 1 true true 8 := by
  obtain ⟨a, b, c, d, e⟩ := airtime_sf_step p
  have hs1 : s1 ≤ 11 := by omega
  interval_cases s1 <;> interval_cases s2 <;> linarith

/-- Witness of C23: a 25-byte frame at SF10 against SF11. -/
theorem CalculateTimeOnAir_strictMono_sf_witness :
    CalculateTimeOnAir 25 10 125000 1 true true 8 <
      CalculateTimeOnAir 25 11 125000 1 true true 8 :=
  CalculateTimeOnAir_strictMono_sf 25 10 11 (by decide) (by decide) (by decide)

/-! ## Airtime windows under event delivery -/

/-- One delivered event succeeds and keeps the six per-SF counters and the tracked
device. For each window, history sum plus total grows by the airtime the event carries
for that window; an event other than the check of a window leaves its history alone
and adds that airtime to its total, and the check of a window moves the total to the end
of the history and leaves 0. -/
theorem step_airtime (g : Globals) (e : Event) (hS : g.packetsSent.length = 6)
    (hR : g.packetsReceived.length = 6) (hfit : e.indexFits) :
    ∃ g', step g e = .ok g' ∧ g'.packetsSent.length = 6 ∧ g'.packetsReceived.length = 6 ∧
      g'.furthestDeviceIndex = g.furthestDeviceIndex ∧
      (e.isGatewayCheck = false →
        g'.hourlyToA_RX1 = g.hourlyToA_RX1 ∧
        g'.totalToA_RX1 = g.totalToA_RX1 + e.airtimeRX1 ∧
        g'.hourlyToA_RX2 = g.hourlyToA_RX2 ∧
        g'.totalToA_RX2 = g.totalToA_RX2 + e.airtimeRX2) ∧
      (e.isEndDeviceCheck = false →
        g'.hourlyEndDeviceToA = g.hourlyEndDeviceToA ∧
        g'.totalEndDeviceToA =
          g.totalEndDeviceToA + e.airtimeEndDevice g.furthestDeviceIndex) ∧
      (e.isGatewayCheck = true →
        g'.hourlyToA_RX1 = g.hourlyToA_RX1 ++ [g.totalToA_RX1] ∧ g'.totalToA_RX1 = 0 ∧
        g'.hourlyToA_RX2 = g.hourlyToA_RX2 ++ [g.totalToA_RX2] ∧ g'.totalToA_RX2 = 0 ∧
        e.airtimeRX1 = 0 ∧ e.airtimeRX2 = 0) ∧
      (e.isEndDeviceCheck = true →
        g'.hourlyEndDeviceToA = g.hourlyEndDeviceToA ++ [g.totalEndDeviceToA] ∧
        g'.totalEndDeviceToA = 0 ∧ e.airtimeEndDevice g.furthestDeviceIndex = 0) := by
  cases e with
  | transmission deviceIndex packet phyIndex =>
    obtain ⟨v, m, hv, e⟩ := transmission_ok deviceIndex packet phyIndex g hS
    exact ⟨_, e, hv, hR, rfl, fun _ => ⟨rfl, (add_zero _).symm, rfl, (add_zero _).symm⟩,
      fun _ => ⟨rfl, (add_zero _).symm⟩, fun h => Bool.noConfusion h,
      fun h => Bool.noConfusion h⟩
  | reception packet phyIndex =>
    obtain ⟨v, ids, per, hv, e⟩ := reception_ok packet phyIndex g hR
    exact ⟨_, e, hS, hv, rfl, fun _ => ⟨rfl, (add_zero _).symm, rfl, (add_zero _).symm⟩,
      fun _ => ⟨rfl, (add_zero _).symm⟩, fun h => Bool.noConfusion h,
      fun h => Bool.noConfusion h⟩
  | gatewaySend gwIndex packet phyIndex =>
    obtain ⟨acks, e, -⟩ := gatewaySend_ok gwIndex packet phyIndex g (Or.inr hfit)
    refine ⟨_, e, hS, hR, rfl, fun _ => ⟨rfl, ?_, rfl, ?_⟩,
      fun _ => ⟨rfl, (add_zero _).symm⟩, fun h => Bool.noConfusion h,
      fun h => Bool.noConfusion h⟩
    · rcases htag : packet.loraTag with _ | tag
      · simp [Event.airtimeRX1, gatewayToA, htag]
      · by_cases hf : tag.frequency = 869525000
        · simp [Event.airtimeRX1, gatewayToA, htag, hf]
        · simp [Event.airtimeRX1, gatewayToA, htag, hf]
    · rcases htag : packet.loraTag with _ | tag
      · simp [Event.airtimeRX2, gatewayToA, htag]
      · by_cases hf : tag.frequency = 869525000
        · simp [Event.airtimeRX2, gatewayToA, htag, hf]
        · simp [Event.airtimeRX2, gatewayToA, htag, hf]
  | endDeviceSend deviceIndex dr packet =>
    by_cases hd : deviceIndex = g.furthestDeviceIndex
    · have hres : OnEndDeviceSentNewPacket deviceIndex dr packet g =
          { g with totalEndDeviceToA := g.totalEndDeviceToA + endDeviceToA packet dr } := by
        simp only [OnEndDeviceSentNewPacket, OnEndDevicePhyStartSending, endDeviceToA, ne_eq,
          hd, not_true_eq_false, if_true, if_false]
      have hair : (Event.endDeviceSend deviceIndex dr packet).airtimeEndDevice
          g.furthestDeviceIndex = endDeviceToA packet dr := by
        simp only [Event.airtimeEndDevice, hd, if_true]
      refine ⟨_, congrArg Except.ok hres, hS, hR, rfl,
        fun _ => ⟨rfl, (add_zero _).symm, rfl, (add_zero _).symm⟩,
        fun _ => ⟨rfl, ?_⟩, fun h => Bool.noConfusion h, fun h => Bool.noConfusion h⟩
      rw [hair]
    · have hres : OnEndDeviceSentNewPacket deviceIndex dr packet g = g := by
        simp only [OnEndDeviceSentNewPacket, hd, if_false]
      have hair : (Event.endDeviceSend deviceIndex dr packet).airtimeEndDevice
          g.furthestDeviceIndex = 0 := by
        simp only [Event.airtimeEndDevice, hd, if_false]
      refine ⟨_, congrArg Except.ok hres, hS, hR, rfl,
        fun _ => ⟨rfl, (add_zero _).symm, rfl, (add_zero _).symm⟩,
        fun _ => ⟨rfl, ?_⟩, fun h => Bool.noConfusion h, fun h => Bool.noConfusion h⟩
      rw [hair, add_zero]
  | gatewayCheck now =>
    exact ⟨_, rfl, hS, hR, rfl, fun h => Bool.noConfusion h,
      fun _ => ⟨rfl, (add_zero _).symm⟩, fun _ => ⟨rfl, rfl, rfl, rfl, rfl, rfl⟩,
      fun h => Bool.noConfusion h⟩
  | endDeviceCheck now =>
    exact ⟨_, rfl, hS, hR, rfl, fun _ => ⟨rfl, (add_zero _).symm, rfl, (add_zero _).symm⟩,
      fun h => Bool.noConfusion h, fun h => Bool.noConfusion h, fun _ => ⟨rfl, rfl, rfl⟩⟩

/-- An event that is not a gateway transmission carries no gateway airtime, and one that
is not an end-device transmission carries no end-device airtime. -/
theorem airtime_of_other (e : Event) (furthest : Nat) :
    (e.isGatewaySend = false → e.airtimeRX1 = 0 ∧ e.airtimeRX2 = 0) ∧
    (e.isEndDeviceSend = false → e.airtimeEndDevice furthest = 0) := by
  cases e <;>
    exact ⟨fun h => by first | exact ⟨rfl, rfl⟩ | exact Bool.noConfusion h,
      fun h => by first | rfl | exact Bool.noConfusion h⟩

/-- Along a run of events that fit, a gateway total of 0 stays 0 as long as no gateway
transmission occurs, and an end-device total of 0 stays 0 as long as no end-device
transmission occurs. -/
theorem run_idle (events : List Event) (g : Globals) (hS : g.packetsSent.length = 6)
    (hR : g.packetsReceived.length = 6) (hfit : ∀ e ∈ events, e.indexFits) :
    ∃ g', run g events = .ok g' ∧
      (g.totalToA_RX1 = 0 → g.totalToA_RX2 = 0 →
        (∀ e ∈ events, e.isGatewaySend = false) →
        g'.totalToA_RX1 = 0 ∧ g'.totalToA_RX2 = 0) ∧
      (g.totalEndDeviceToA = 0 → (∀ e ∈ events, e.isEndDeviceSend = false) →
        g'.totalEndDeviceToA = 0) := by
  induction events generalizing g with
  | nil => exact ⟨g, rfl, fun h1 h2 _ => ⟨h1, h2⟩, fun h _ => h⟩
  | cons e events ih =>
    obtain ⟨g1, e1, hS1, hR1, hf, hgn, hen, hgc, hec⟩ :=
      step_airtime g e hS hR (hfit e (List.mem_cons_self _ _))
    obtain ⟨g2, e2, k1, k2⟩ :=
      ih g1 hS1 hR1 (fun e' he' => hfit e' (List.mem_cons_of_mem _ he'))
    refine ⟨g2, ?_, ?_, ?_⟩
    · simp only [run, List.foldlM_cons, bind, Except.bind, e1]
      exact e2
    · intro h1 h2 hno
      have hz := (airtime_of_other e g.furthestDeviceIndex).1 (hno e (List.mem_cons_self _ _))
      have h1' : g1.totalToA_RX1 = 0 ∧ g1.totalToA_RX2 = 0 := by
        rcases hc : e.isGatewayCheck with _ | _
        · obtain ⟨-, a, -, b⟩ := hgn hc
          rw [a, b, h1, h2, hz.1, hz.2]
          exact ⟨add_zero 0, add_zero 0⟩
        · obtain ⟨-, a, -, b, -⟩ := hgc hc
          exact ⟨a, b⟩
      exact k1 h1'.1 h1'.2 (fun e' he' => hno e' (List.mem_cons_of_mem _ he'))
    · intro h hno
      have hz := (airtime_of_other e g.furthestDeviceIndex).2 (hno e (List.mem_cons_self _ _))
      have h' : g1.totalEndDeviceToA = 0 := by
        rcases hc : e.isEndDeviceCheck with _ | _
        · obtain ⟨-, a⟩ := hen hc
          rw [a, h, hz]
          exact add_zero 0
        · exact (hec hc).2.1
      exact k2 h' (fun e' he' => hno e' (List.mem_cons_of_mem _ he'))

/-- Along a run of events that fit, the history sum plus the total of each window grows
by the airtime the events carry for that window. -/
theorem run_airtime (events : List Event) (g : Globals) (hS : g.packetsSent.length = 6)
    (hR : g.packetsReceived.length = 6) (hfit : ∀ e ∈ events, e.indexFits) :
    ∃ g', run g events = .ok g' ∧
      g'.hourlyToA_RX1.sum + g'.totalToA_RX1 =
        g.hourlyToA_RX1.sum + g.totalToA_RX1 + (events.map Event.airtimeRX1).sum ∧
      g'.hourlyToA_RX2.sum + g'.totalToA_RX2 =
        g.hourlyToA_RX2.sum + g.totalToA_RX2 + (events.map Event.airtimeRX2).sum ∧
      g'.hourlyEndDeviceToA.sum + g'.totalEndDeviceToA =
        g.hourlyEndDeviceToA.sum + g.totalEndDeviceToA +
          (events.map (Event.airtimeEndDevice g.furthestDeviceIndex)).sum := by
  induction events generalizing g with
  | nil => exact ⟨g, rfl, by simp, by simp, by simp⟩
  | cons e events ih =>
    obtain ⟨g1, e1, hS1, hR1, hf, hgn, hen, hgc, hec⟩ :=
      step_airtime g e hS hR (hfit e (List.mem_cons_self _ _))
    obtain ⟨g2, e2, k1, k2, k3⟩ :=
      ih g1 hS1 hR1 (fun e' he' => hfit e' (List.mem_cons_of_mem _ he'))
    refine ⟨g2, ?_, ?_, ?_, ?_⟩
    · simp only [run, List.foldlM_cons, bind, Except.bind, e1]
      exact e2
    · rw [k1, List.map_cons, List.sum_cons]
      rcases hc : e.isGatewayCheck with _ | _
      · obtain ⟨a, b, -, -⟩ := hgn hc
        rw [a, b]; ring
      · obtain ⟨a, b, -, -, c, -⟩ := hgc hc
        rw [a, b, c, List.sum_append, List.sum_singleton]; ring
    · rw [k2, List.map_cons, List.sum_cons]
      rcases hc : e.isGatewayCheck with _ | _
      · obtain ⟨-, -, a, b⟩ := hgn hc
        rw [a, b]; ring
      · obtain ⟨-, -, a, b, -, c⟩ := hgc hc
        rw [a, b, c, List.sum_append, List.sum_singleton]; ring
    · rw [k3, hf, List.map_cons, List.sum_cons]
      rcases hc : e.isEndDeviceCheck with _ | _
      · obtain ⟨a, b⟩ := hen hc
        rw [a, b]; ring
      · obtain ⟨a, b, c⟩ := hec hc
        rw [a, b, c, List.sum_append, List.sum_singleton]; ring

/-- C24: when no gateway transmission has been delivered since the totals were last 0,
as they are at the start and right after a close, `CheckGatewayDutyCycle` appends 0 to
`hourlyToA_RX1` and to `hourlyToA_RX2`, reports a measured airtime of 0 and a compliant
verdict for both; when no end-device transmission has been delivered,
`CheckEndDeviceDutyCycle` does the same for `hourlyEndDeviceToA`. Ledger events and
further checks may lie in between. -/
theorem idle_epoch_close (now : ℚ) (g : Globals) (events : List Event)
    (hS : g.packetsSent.length = 6) (hR : g.packetsReceived.length = 6)
    (hfit : ∀ e ∈ events, e.indexFits) :
    (Globals.initial.totalToA_RX1 = 0 ∧ Globals.initial.totalToA_RX2 = 0 ∧
      Globals.initial.totalEndDeviceToA = 0) ∧
    ((CheckGatewayDutyCycle now g).1.totalToA_RX1 = 0 ∧
      (CheckGatewayDutyCycle now g).1.totalToA_RX2 = 0 ∧
      (CheckEndDeviceDutyCycle now g).1.totalEndDeviceToA = 0) ∧
    ∃ g', run g events = .ok g' ∧
      (g.totalToA_RX1 = 0 → g.totalToA_RX2 = 0 →
        (∀ e ∈ events, e.isGatewaySend = false) →
        (CheckGatewayDutyCycle now g').1.hourlyToA_RX1 = g'.hourlyToA_RX1 ++ [0] ∧
        (CheckGatewayDutyCycle now g').1.hourlyToA_RX2 = g'.hourlyToA_RX2 ++ [0] ∧
        (CheckGatewayDutyCycle now g').2.measuredRX1 = 0 ∧
        (CheckGatewayDutyCycle now g').2.compliantRX1 = true ∧
        (CheckGatewayDutyCycle now g').2.measuredRX2 = 0 ∧
        (CheckGatewayDutyCycle now g').2.compliantRX2 = true) ∧
      (g.totalEndDeviceToA = 0 → (∀ e ∈ events, e.isEndDeviceSend = false) →
        (CheckEndDeviceDutyCycle now g').1.hourlyEndDeviceToA =
          g'.hourlyEndDeviceToA ++ [0] ∧
        (CheckEndDeviceDutyCycle now g').2.measured = 0 ∧
        (CheckEndDeviceDutyCycle now g').2.compliant = true) := by
  refine ⟨⟨rfl, rfl, rfl⟩, ⟨rfl, rfl, rfl⟩, ?_⟩
  obtain ⟨g', e, hgw, hed⟩ := run_idle events g hS hR hfit
  refine ⟨g', e, fun h1 h2 hno => ?_, fun h hno => ?_⟩
  · obtain ⟨z1, z2⟩ := hgw h1 h2 hno
    simp [CheckGatewayDutyCycle, z1, z2]
  · have z := hed h hno
    simp [CheckEndDeviceDutyCycle, z]

/-- Witness of C24: an hour with a downlink is closed; in the next hour only an uplink is
entered in the ledger, and the close of that hour measures 0 and is compliant. -/
theorem idle_epoch_close_witness :
    ∃ g', run (CheckGatewayDutyCycle 3600 { Globals.initial with totalToA_RX1 := 5 }).1
        [Event.transmission 0 (uplink 7 1) 0, Event.endDeviceCheck 7200] = .ok g' ∧
      (CheckGatewayDutyCycle 7200 g').1.hourlyToA_RX1 = g'.hourlyToA_RX1 ++ [0] ∧
      (CheckGatewayDutyCycle 7200 g').2.measuredRX1 = 0 ∧
      (CheckGatewayDutyCycle 7200 g').2.compliantRX1 = true := by
  obtain ⟨g', e, hgw, -⟩ := (idle_epoch_close 7200
    (CheckGatewayDutyCycle 3600 { Globals.initial with totalToA_RX1 := 5 }).1
    [Event.transmission 0 (uplink 7 1) 0, Event.endDeviceCheck 7200] rfl rfl
    (by
      intro e he
      simp only [List.mem_cons, List.mem_singleton, List.not_mem_nil, or_false] at he
      rcases he with rfl | rfl <;> trivial)).2.2
  obtain ⟨a, -, b, c, -, -⟩ := hgw rfl rfl (by
    intro e he
    simp only [List.mem_cons, List.mem_singleton, List.not_mem_nil, or_false] at he
    rcases he with rfl | rfl <;> rfl)
  exact ⟨g', e, a, b, c⟩

/-- C25: airtime is conserved across closes. Along every run of events, from any state,
the history sum plus the current total of each window (RX1, RX2, end device) grows by
exactly the sum of the airtimes the events carry for that window; from the initial state,
where histories are empty and totals 0, it equals that sum. A single event that is not
the check of a window leaves the history of that window unchanged, and a check leaves
history sum plus total unchanged. -/
theorem airtime_conserved (events : List Event) (g : Globals) (e : Event)
    (hS : g.packetsSent.length = 6) (hR : g.packetsReceived.length = 6)
    (hfit : ∀ e ∈ events, e.indexFits) (hefit : e.indexFits) :
    (∃ g', run g events = .ok g' ∧
      g'.hourlyToA_RX1.sum + g'.totalToA_RX1 =
        g.hourlyToA_RX1.sum + g.totalToA_RX1 + (events.map Event.airtimeRX1).sum ∧
      g'.hourlyToA_RX2.sum + g'.totalToA_RX2 =
        g.hourlyToA_RX2.sum + g.totalToA_RX2 + (events.map Event.airtimeRX2).sum ∧
      g'.hourlyEndDeviceToA.sum + g'.totalEndDeviceToA =
        g.hourlyEndDeviceToA.sum + g.totalEndDeviceToA +
          (events.map (Event.airtimeEndDevice g.furthestDeviceIndex)).sum) ∧
    (∃ g', step g e = .ok g' ∧
      (e.isGatewayCheck = false →
        g'.hourlyToA_RX1 = g.hourlyToA_RX1 ∧ g'.hourlyToA_RX2 = g.hourlyToA_RX2) ∧
      (e.isEndDeviceCheck = false → g'.hourlyEndDeviceToA = g.hourlyEndDeviceToA) ∧
      (e.isGatewayCheck = true →
        g'.hourlyToA_RX1.sum + g'.totalToA_RX1 = g.hourlyToA_RX1.sum + g.totalToA_RX1 ∧
        g'.hourlyToA_RX2.sum + g'.totalToA_RX2 = g.hourlyToA_RX2.sum + g.totalToA_RX2) ∧
      (e.isEndDeviceCheck = true →
        g'.hourlyEndDeviceToA.sum + g'.totalEndDeviceToA =
          g.hourlyEndDeviceToA.sum + g.totalEndDeviceToA)) := by
  refine ⟨run_airtime events g hS hR hfit, ?_⟩
  obtain ⟨g1, e1, -, -, -, hgn, hen, hgc, hec⟩ := step_airtime g e hS hR hefit
  refine ⟨g1, e1, fun h => ⟨(hgn h).1, (hgn h).2.2.1⟩, fun h => (hen h).1, fun h => ?_,
    fun h => ?_⟩
  · obtain ⟨a, b, c, d, -, -⟩ := hgc h
    rw [a, b, c, d, List.sum_append, List.sum_append, List.sum_singleton, List.sum_singleton]
    exact ⟨add_zero _, add_zero _⟩
  · obtain ⟨a, b, -⟩ := hec h
    rw [a, b, List.sum_append, List.sum_singleton]
    exact add_zero _

/-- Witness of C25: from the initial state, an RX2 downlink, a close, and an untagged
downlink: the RX1 window holds the airtime of the untagged downlink, the RX2 window that
of the first one, which the close has moved into the history. -/
theorem airtime_conserved_witness :
    ∃ g', run Globals.initial
        [Event.gatewaySend 0 rx2AckDownlink 0, Event.gatewayCheck 3600,
          Event.gatewaySend 0 plainDownlink 0] = .ok g' ∧
      g'.hourlyToA_RX1.sum + g'.totalToA_RX1 =
        CalculateTimeOnAir 17 7 125000 1 true true 8 ∧
      g'.hourlyToA_RX2.sum + g'.totalToA_RX2 =
        CalculateTimeOnAir 30 9 125000 1 true true 8 := by
  obtain ⟨g', e, h1, h2, -⟩ := (airtime_conserved
    [Event.gatewaySend 0 rx2AckDownlink 0, Event.gatewayCheck 3600,
      Event.gatewaySend 0 plainDownlink 0] Globals.initial (Event.gatewayCheck 3600) rfl rfl
    (by
      intro e he
      simp only [List.mem_cons, List.mem_singleton, List.not_mem_nil, or_false] at he
      rcases he with rfl | rfl | rfl <;> simp [Event.indexFits, UINT32_MOD])
    trivial).1
  refine ⟨g', e, h1.trans ?_, h2.trans ?_⟩
  · simp [Globals.initial, Event.airtimeRX1, gatewayToA, rx2AckDownlink, plainDownlink]
  · simp [Globals.initial, Event.airtimeRX2, gatewayToA, rx2AckDownlink, plainDownlink]

/-! ## The ledgers of `enddevice.cc` and `CT_dev.cc` side by side -/

/-- What `Packet.fullyTagged` says of a packet. -/
theorem fullyTagged_iff (packet : Packet) (h : packet.fullyTagged = true) :
    ∃ tag id, packet.loraTag = some tag ∧ packet.idTag = some id ∧
      7 ≤ tag.spreadingFactor ∧ tag.spreadingFactor ≤ 12 := by
  unfold Packet.fullyTagged at h
  rcases htag : packet.loraTag with _ | tag
  · simp [htag] at h
  · rcases hid : packet.idTag with _ | id
    · simp [htag, hid] at h
    · simp only [htag, hid, decide_eq_true_eq] at h
      exact ⟨tag, id, rfl, rfl, h.1, h.2⟩

/-- The `at` increment with an `int` index in 0..5 is the one with that index as a
natural number. -/
theorem vectorAtIntIncr_ok (v : List Int) (sf : Nat) (h7 : 7 ≤ sf) (h12 : sf ≤ 12)
    (hlen : v.length = 6) :
    vectorAtIntIncr v ((sf : Int) - 7) = .ok (v.set (sf - 7) (v.getD (sf - 7) 0 + 1)) := by
  have hsize : ((SIZE_MOD : Nat) : Int) = 18446744073709551616 := by norm_num [SIZE_MOD]
  have hmod : (((sf : Int) - 7) % ((SIZE_MOD : Nat) : Int)).toNat = sf - 7 := by
    rw [hsize]
    omega
  rw [vectorAtIntIncr, hmod, vectorAtIncr_ok _ _ (by omega)]

/-- One fully tagged ledger event, delivered to both programs from states whose ledgers
agree, succeeds in both and leaves the ledgers in agreement, provided that a received id
has not been received before; `CT_dev.cc` then records the id. -/
theorem ledger_step_agree (g : Globals) (o : EndDevice.Globals) (e : Event)
    (hS : g.packetsSent.length = 6) (hR : g.packetsReceived.length = 6)
    (hag : o.ledger = g.ledger) (htag : e.fullyTagged = true) (hsame : e.sameSender = true)
    (hfresh : ∀ id, e.receivedId = some id → id ∉ g.receivedPacketIds) :
    ∃ g' o', step g e = .ok g' ∧ EndDevice.step o e = .ok o' ∧ o'.ledger = g'.ledger ∧
      g'.packetsSent.length = 6 ∧ g'.packetsReceived.length = 6 ∧
      ∀ id, id ∈ g'.receivedPacketIds →
        id ∈ g.receivedPacketIds ∨ e.receivedId = some id := by
  obtain ⟨gid, oS, oR, oM, oP⟩ := o
  simp only [Globals.ledger, EndDevice.Globals.ledger, Prod.mk.injEq] at hag
  obtain ⟨rfl, rfl, rfl, rfl⟩ := hag
  cases e with
  | transmission deviceIndex packet phyIndex =>
    simp only [Event.fullyTagged] at htag
    simp only [Event.sameSender, decide_eq_true_eq] at hsame
    subst hsame
    obtain ⟨tag, id, ht, hi, h7, h12⟩ := fullyTagged_iff packet htag
    have hidx : ((tag.spreadingFactor : Int) - 7 ≥ 0 ∧ (tag.spreadingFactor : Int) - 7 < 6) := by
      omega
    have htoNat : ((tag.spreadingFactor : Int) - 7).toNat = tag.spreadingFactor - 7 := by omega
    have hlt : tag.spreadingFactor - 7 < g.packetsSent.length := by omega
    refine ⟨{ g with
        packetsSent := g.packetsSent.set (tag.spreadingFactor - 7)
          (g.packetsSent.getD (tag.spreadingFactor - 7) 0 + 1)
        packetSenderMap := mapAssign g.packetSenderMap id deviceIndex },
      { globalPacketId := gid
        packetsSent := g.packetsSent.set (tag.spreadingFactor - 7)
          (g.packetsSent.getD (tag.spreadingFactor - 7) 0 + 1)
        packetsReceived := g.packetsReceived
        packetSenderMap := mapAssign g.packetSenderMap id deviceIndex
        packetsReceivedPerNode := g.packetsReceivedPerNode }, ?_, ?_, rfl, ?_, hR,
      fun id hid => Or.inl hid⟩
    · simp only [step, OnTransmissionCallback, ht, hi, hidx, htoNat, vectorAtIncr_ok _ _ hlt,
        and_self, if_true, bind, Except.bind, pure, Except.pure]
    · simp only [EndDevice.step, EndDevice.OnTransmissionCallback, ht, hi,
        vectorAtIntIncr_ok _ _ h7 h12 hS, bind, Except.bind, pure, Except.pure]
    · simp only [List.length_set, hS]
  | reception packet phyIndex =>
    simp only [Event.fullyTagged] at htag
    obtain ⟨tag, id, ht, hi, h7, h12⟩ := fullyTagged_iff packet htag
    have hidx : ((tag.spreadingFactor : Int) - 7 ≥ 0 ∧ (tag.spreadingFactor : Int) - 7 < 6) := by
      omega
    have htoNat : ((tag.spreadingFactor : Int) - 7).toNat = tag.spreadingFactor - 7 := by omega
    have hlt : tag.spreadingFactor - 7 < g.packetsReceived.length := by omega
    have hnew : id ∉ g.receivedPacketIds := hfresh id hi
    rcases hm : mapFind g.packetSenderMap id with _ | senderId
    · refine ⟨{ g with
          packetsReceived := g.packetsReceived.set (tag.spreadingFactor - 7)
            (g.packetsReceived.getD (tag.spreadingFactor - 7) 0 + 1)
          receivedPacketIds := id :: g.receivedPacketIds },
        { globalPacketId := gid
          packetsSent := g.packetsSent
          packetsReceived := g.packetsReceived.set (tag.spreadingFactor - 7)
            (g.packetsReceived.getD (tag.spreadingFactor - 7) 0 + 1)
          packetSenderMap := g.packetSenderMap
          packetsReceivedPerNode := g.packetsReceivedPerNode }, ?_, ?_, rfl, hS, ?_, ?_⟩
      · simp only [step, OnPacketReceptionCallback, ht, hi, hidx, htoNat,
          vectorAtIncr_ok _ _ hlt, and_self, if_true, hnew, if_false, setInsert, hm, bind,
          Except.bind, pure, Except.pure]
      · simp only [EndDevice.step, EndDevice.OnPacketReceptionCallback, ht, hi,
          vectorAtIntIncr_ok _ _ h7 h12 hR, hm, bind, Except.bind, pure, Except.pure]
      · simp only [List.length_set, hR]
      · intro j hj
        rcases List.mem_cons.mp hj with rfl | hj
        · exact Or.inr hi
        · exact Or.inl hj
    · by_cases hn : senderId < g.packetsReceivedPerNode.length
      · refine ⟨{ g with
            packetsReceived := g.packetsReceived.set (tag.spreadingFactor - 7)
              (g.packetsReceived.getD (tag.spreadingFactor - 7) 0 + 1)
            receivedPacketIds := id :: g.receivedPacketIds
            packetsReceivedPerNode := g.packetsReceivedPerNode.set senderId
              (g.packetsReceivedPerNode.getD senderId 0 + 1) },
          { globalPacketId := gid
            packetsSent := g.packetsSent
            packetsReceived := g.packetsReceived.set (tag.spreadingFactor - 7)
              (g.packetsReceived.getD (tag.spreadingFactor - 7) 0 + 1)
            packetSenderMap := g.packetSenderMap
            packetsReceivedPerNode := g.packetsReceivedPerNode.set senderId
              (g.packetsReceivedPerNode.getD senderId 0 + 1) }, ?_, ?_, rfl, hS, ?_, ?_⟩
        · simp only [step, OnPacketReceptionCallback, ht, hi, hidx, htoNat,
            vectorAtIncr_ok _ _ hlt, and_self, if_true, hnew, if_false, setInsert, hm, hn,
            dif_pos, bind, Except.bind, pure, Except.pure, List.getD_eq_getElem _ _ hn]
        · simp only [EndDevice.step, EndDevice.OnPacketReceptionCallback, ht, hi,
            vectorAtIntIncr_ok _ _ h7 h12 hR, hm, hn, dif_pos, bind, Except.bind, pure,
            Except.pure, List.getD_eq_getElem _ _ hn]
        · simp only [List.length_set, hR]
        · intro j hj
          rcases List.mem_cons.mp hj with rfl | hj
          · exact Or.inr hi
          · exact Or.inl hj
      · refine ⟨{ g with
            packetsReceived := g.packetsReceived.set (tag.spreadingFactor - 7)
              (g.packetsReceived.getD (tag.spreadingFactor - 7) 0 + 1)
            receivedPacketIds := id :: g.receivedPacketIds },
          { globalPacketId := gid
            packetsSent := g.packetsSent
            packetsReceived := g.packetsReceived.set (tag.spreadingFactor - 7)
              (g.packetsReceived.getD (tag.spreadingFactor - 7) 0 + 1)
            packetSenderMap := g.packetSenderMap
            packetsReceivedPerNode := g.packetsReceivedPerNode }, ?_, ?_, rfl, hS, ?_, ?_⟩
        · simp only [step, OnPacketReceptionCallback, ht, hi, hidx, htoNat,
            vectorAtIncr_ok _ _ hlt, and_self, if_true, hnew, if_false, setInsert, hm, hn,
            dif_neg, not_false_eq_true, bind, Except.bind, pure, Except.pure]
        · simp only [EndDevice.step, EndDevice.OnPacketReceptionCallback, ht, hi,
            vectorAtIntIncr_ok _ _ h7 h12 hR, hm, hn, dif_neg, not_false_eq_true, bind,
            Except.bind, pure, Except.pure]
        · simp only [List.length_set, hR]
        · intro j hj
          rcases List.mem_cons.mp hj with rfl | hj
          · exact Or.inr hi
          · exact Or.inl hj
  | gatewaySend gwIndex packet phyIndex => exact Bool.noConfusion htag
  | endDeviceSend deviceIndex dr packet => exact Bool.noConfusion htag
  | gatewayCheck now => exact Bool.noConfusion htag
  | endDeviceCheck now => exact Bool.noConfusion htag

/-- A run of fully tagged ledger events, delivered to both programs from states whose
ledgers agree, succeeds in both and ends in states whose ledgers agree, provided that no
id is received twice or had been received before the run. -/
theorem ledger_run_agree (events : List Event) (g : Globals) (o : EndDevice.Globals)
    (hS : g.packetsSent.length = 6) (hR : g.packetsReceived.length = 6)
    (hag : o.ledger = g.ledger) (htag : ∀ e ∈ events, e.fullyTagged = true)
    (hsame : ∀ e ∈ events, e.sameSender = true)
    (hfresh : ∀ id ∈ receivedIds events, id ∉ g.receivedPacketIds)
    (hnodup : (receivedIds events).Nodup) :
    ∃ g' o', run g events = .ok g' ∧ EndDevice.run o events = .ok o' ∧
      o'.ledger = g'.ledger := by
  induction events generalizing g o with
  | nil => exact ⟨g, o, rfl, rfl, hag⟩
  | cons e events ih =>
    have hsub : ∀ id ∈ receivedIds events, id ∈ receivedIds (e :: events) := by
      intro id hid
      rcases hr : e.receivedId with _ | rid
      · simpa only [receivedIds, List.filterMap_cons, hr] using hid
      · simp only [receivedIds, List.filterMap_cons, hr]
        exact List.mem_cons_of_mem _ hid
    have hnodup' : (receivedIds events).Nodup := by
      rcases hr : e.receivedId with _ | rid
      · simpa only [receivedIds, List.filterMap_cons, hr] using hnodup
      · simp only [receivedIds, List.filterMap_cons, hr] at hnodup
        exact (List.nodup_cons.mp hnodup).2
    have hhead : ∀ id, e.receivedId = some id → id ∈ receivedIds (e :: events) ∧
        id ∉ receivedIds events := by
      intro id hr
      simp only [receivedIds, List.filterMap_cons, hr] at hnodup ⊢
      exact ⟨List.mem_cons_self _ _, (List.nodup_cons.mp hnodup).1⟩
    obtain ⟨g1, o1, e1, e1', hag1, hS1, hR1, hmem⟩ :=
      ledger_step_agree g o e hS hR hag (htag e (List.mem_cons_self _ _))
        (hsame e (List.mem_cons_self _ _)) (fun id hr => hfresh id (hhead id hr).1)
    obtain ⟨g2, o2, e2, e2', hag2⟩ := ih g1 o1 hS1 hR1 hag1
      (fun e' he' => htag e' (List.mem_cons_of_mem _ he'))
      (fun e' he' => hsame e' (List.mem_cons_of_mem _ he'))
      (fun id hid hin => by
        rcases hmem id hin with hold | hr
        · exact hfresh id (hsub id hid) hold
        · exact (hhead id hr).2 hid)
      hnodup'
    refine ⟨g2, o2, ?_, ?_, hag2⟩
    · simp only [run, List.foldlM_cons, bind, Except.bind, e1]
      exact e2
    · simp only [EndDevice.run, List.foldlM_cons, bind, Except.bind, e1']
      exact e2'

/-- C27: without duplicates the ledgers of `enddevice.cc` and of `CT_dev.cc` agree. Take
any sequence of transmission and reception events in which every packet carries a
`LoraTag` with a spreading factor in 7..12 and a `UniquePacketIdTag`, both programs are
told the same sender, and no id is received more than once, or had been received before.
From states with equal `packetsSent`, `packetsReceived`, `packetSenderMap` and
`packetsReceivedPerNode`, the callbacks of both programs run without an error and end
with these four equal again. -/
theorem ledgers_agree_without_duplicates (events : List Event) (g : Globals)
    (o : EndDevice.Globals)
    (hS : g.packetsSent.length = 6) (hR : g.packetsReceived.length = 6)
    (hag : o.packetsSent = g.packetsSent ∧ o.packetsReceived = g.packetsReceived ∧
      o.packetSenderMap = g.packetSenderMap ∧
      o.packetsReceivedPerNode = g.packetsReceivedPerNode)
    (htag : ∀ e ∈ events, e.fullyTagged = true)
    (hsame : ∀ e ∈ events, e.sameSender = true)
    (hfresh : ∀ id ∈ receivedIds events, id ∉ g.receivedPacketIds)
    (hnodup : (receivedIds events).Nodup) :
    ∃ g' o', run g events = .ok g' ∧ EndDevice.run o events = .ok o' ∧
      o'.packetsSent = g'.packetsSent ∧ o'.packetsReceived = g'.packetsReceived ∧
      o'.packetSenderMap = g'.packetSenderMap ∧
      o'.packetsReceivedPerNode = g'.packetsReceivedPerNode := by
  obtain ⟨h1, h2, h3, h4⟩ := hag
  obtain ⟨g', o', e, e', hl⟩ := ledger_run_agree events g o hS hR
    (by simp only [Globals.ledger, EndDevice.Globals.ledger, h1, h2, h3, h4]) htag hsame hfresh
    hnodup
  simp only [Globals.ledger, EndDevice.Globals.ledger, Prod.mk.injEq] at hl
  exact ⟨g', o', e, e', hl⟩

/-- Witness of C27: two devices send one packet each, ids 1 and 2, and each packet is
received once; both programs start with two per-node counters. -/
theorem ledgers_agree_without_duplicates_witness :
    ∃ g' o',
      run { Globals.initial with packetsReceivedPerNode := [0, 0] }
        [Event.transmission 0 (uplink 7 1) 0, Event.transmission 1 (uplink 9 2) 1,
          Event.reception (uplink 9 2) 0, Event.reception (uplink 7 1) 0] = .ok g' ∧
      EndDevice.run { EndDevice.Globals.initial with packetsReceivedPerNode := [0, 0] }
        [Event.transmission 0 (uplink 7 1) 0, Event.transmission 1 (uplink 9 2) 1,
          Event.reception (uplink 9 2) 0, Event.reception (uplink 7 1) 0] = .ok o' ∧
      o'.packetsSent = g'.packetsSent ∧ o'.packetsReceived = g'.packetsReceived ∧
      o'.packetSenderMap = g'.packetSenderMap ∧
      o'.packetsReceivedPerNode = g'.packetsReceivedPerNode :=
  ledgers_agree_without_duplicates
    [Event.transmission 0 (uplink 7 1) 0, Event.transmission 1 (uplink 9 2) 1,
      Event.reception (uplink 9 2) 0, Event.reception (uplink 7 1) 0]
    { Globals.initial with packetsReceivedPerNode := [0, 0] }
    { EndDevice.Globals.initial with packetsReceivedPerNode := [0, 0] }
    rfl rfl ⟨rfl, rfl, rfl, rfl⟩ (by decide) (by decide) (by decide) (by decide)

/-! ## Packet ledger: repeated transmissions -/

/-- After the assignment `m[k] = v` the lookup of `k` finds `v`. -/
theorem mapFind_mapAssign_self (m : List (Nat × Nat)) (k v : Nat) :
    mapFind (mapAssign m k v) k = some v := by
  induction m with
  | nil => simp [mapAssign, mapFind]
  | cons kv m ih =>
    obtain ⟨k', v'⟩ := kv
    simp only [mapAssign]
    by_cases h1 : k < k'
    · simp [h1, mapFind]
    · by_cases h2 : k = k'
      · simp [h1, h2, mapFind]
      · have h3 : ¬ k' = k := fun e => h2 e.symm
        simp [h1, h2, h3, mapFind, ih]

/-- The assignment `m[k] = v` leaves the lookup of every other key as it was. -/
theorem mapFind_mapAssign_ne (m : List (Nat × Nat)) (k v j : Nat) (hj : j ≠ k) :
    mapFind (mapAssign m k v) j = mapFind m j := by
  have hkj : ¬ k = j := fun e => hj e.symm
  induction m with
  | nil => simp [mapAssign, mapFind, hkj]
  | cons kv m ih =>
    obtain ⟨k', v'⟩ := kv
    simp only [mapAssign]
    by_cases h1 : k < k'
    · simp [h1, mapFind, hkj]
    · by_cases h2 : k = k'
      · subst h2
        simp [mapFind, hkj]
      · simp only [h1, h2, if_false, mapFind, ih]

/-- C28: a transmission whose packet id is already in `packetSenderMap` is accepted
without an error. A tag with a spreading factor in 7..12 still raises `packetsSent[SF-7]`
by one, so repeats of an id are counted as transmissions; the sender stored under the
id becomes the device of this event, whatever it was before, and the senders of all other
ids stay; no other global changes. -/
theorem OnTransmissionCallback_known_id (deviceIndex : Nat) (packet : Packet)
    (phyIndex : Nat) (g : Globals) (tag : LoraTag) (id old : Nat)
    (hS : g.packetsSent.length = 6)
    (htag : packet.loraTag = some tag)
    (hsf : 7 ≤ tag.spreadingFactor ∧ tag.spreadingFactor ≤ 12)
    (hid : packet.idTag = some id)
    (hold : mapFind g.packetSenderMap id = some old) :
    ∃ g', OnTransmissionCallback deviceIndex packet phyIndex g = .ok g' ∧
      { g' with packetsSent := g.packetsSent, packetSenderMap := g.packetSenderMap } = g ∧
      g'.packetsSent = g.packetsSent.set (tag.spreadingFactor - 7)
        (g.packetsSent.getD (tag.spreadingFactor - 7) 0 + 1) ∧
      mapFind g.packetSenderMap id = some old ∧
      mapFind g'.packetSenderMap id = some deviceIndex ∧
      ∀ j, j ≠ id → mapFind g'.packetSenderMap j = mapFind g.packetSenderMap j := by
  have hidx : ((tag.spreadingFactor : Int) - 7 ≥ 0 ∧ (tag.spreadingFactor : Int) - 7 < 6) := by
    omega
  have htoNat : ((tag.spreadingFactor : Int) - 7).toNat = tag.spreadingFactor - 7 := by omega
  have hlt : tag.spreadingFactor - 7 < g.packetsSent.length := by omega
  refine ⟨{ g with
      packetsSent := g.packetsSent.set (tag.spreadingFactor - 7)
        (g.packetsSent.getD (tag.spreadingFactor - 7) 0 + 1)
      packetSenderMap := mapAssign g.packetSenderMap id deviceIndex }, ?_, rfl, rfl, hold,
    mapFind_mapAssign_self _ _ _, fun j hj => mapFind_mapAssign_ne _ _ _ j hj⟩
  simp only [OnTransmissionCallback, htag, hid, hidx, htoNat, vectorAtIncr_ok _ _ hlt, and_self,
    if_true, bind, Except.bind, pure, Except.pure, List.getD_eq_getElem _ _ hlt]

/-- Witness of C28: packet id 1, sent at SF8 by device 0 before, is sent again by
device 4: the SF8 counter goes from 1 to 2 and the stored sender from 0 to 4. -/
theorem OnTransmissionCallback_known_id_witness :
    ∃ g', OnTransmissionCallback 4 (uplink 8 1) 0
        { Globals.initial with
          packetsSent := [0, 1, 0, 0, 0, 0]
          packetSenderMap := [(1, 0)] } = .ok g' ∧
      g'.packetsSent = [0, 2, 0, 0, 0, 0] ∧ mapFind g'.packetSenderMap 1 = some 4 := by
  obtain ⟨g', e, -, hsent, -, hmap, -⟩ := OnTransmissionCallback_known_id 4 (uplink 8 1) 0
    { Globals.initial with
      packetsSent := [0, 1, 0, 0, 0, 0]
      packetSenderMap := [(1, 0)] } { spreadingFactor := 8, frequency := 0 } 1 0
    rfl rfl (by decide) rfl rfl
  exact ⟨g', e, hsent.trans (by decide), hmap⟩

/-! ## Data rate and spreading factor -/

/-- C29: for every 8-bit data rate the spreading factor the sender tags a packet with,
`dr <= 5 ? 12 - dr : 7`, is the one `main` assigns, `12 - dr` truncated to 8 bits and
replaced by 7 outside 7..12; the fallback of `OnEndDevicePhyStartSending` for an untagged
packet charges the airtime at the same value; and the value lies in 7..12. -/
theorem dataRate_mappings_agree (dr : Nat) (hdr : dr < 256) (m_packetSize : Nat)
    (packet : Packet) (g : Globals) :
    (SendPacket m_packetSize (some dr) g).2.1.loraTag =
      some { spreadingFactor := mainSpreadingFactor dr, frequency := 0 } ∧
    OnEndDevicePhyStartSending g.furthestDeviceIndex { packet with loraTag := none } dr g =
      { g with
        totalEndDeviceToA := g.totalEndDeviceToA +
          CalculateTimeOnAir packet.size (mainSpreadingFactor dr) 125000 1 true true 8 } ∧
    (if dr ≤ 5 then 12 - dr else 7) = mainSpreadingFactor dr ∧
    7 ≤ mainSpreadingFactor dr ∧ mainSpreadingFactor dr ≤ 12 := by
  have key : (if dr ≤ 5 then 12 - dr else 7) = mainSpreadingFactor dr := by
    unfold mainSpreadingFactor
    simp only []
    split <;> split <;> omega
  refine ⟨?_, ?_, key, ?_, ?_⟩
  · simp only [SendPacket, key]
  · simp only [OnEndDevicePhyStartSending, ne_eq, not_true_eq_false, if_false, key]
  · rw [← key]; split <;> omega
  · rw [← key]; split <;> omega

/-- Witness of C29: data rate 200, where `12 - dr` wraps to 68 and is replaced by 7. -/
theorem dataRate_mappings_agree_witness :
    (200 < 256) ∧ mainSpreadingFactor 200 = 7 ∧
      (SendPacket 24 (some 200) Globals.initial).2.1.loraTag =
        some { spreadingFactor := 7, frequency := 0 } :=
  ⟨by decide, by decide,
    (dataRate_mappings_agree 200 (by decide) 24 plainDownlink Globals.initial).1⟩

end CTDev
